import Mathlib

/-!
Verification of the xCCL-Topology-Generator planning engine.

This file shallowly embeds the TypeScript engine sources
(`src/engine/search.ts`, `src/engine/paths.ts`, `src/engine/topo.ts`,
`src/engine/trees.ts`, `src/engine/rings.ts`, `src/engine/connect.ts`,
`src/engine/init.ts`, `src/engine/rccl/rome-match.ts`,
`src/engine/rccl/rome-models.ts`, `src/engine/constants/nccl.ts`) into Lean and
proves or refutes the specification claims about them.

Modelling conventions:
* JavaScript `number` values that carry bandwidths/speeds are embedded as the
  exact rational type `Q` below (all arithmetic in the engine stays well within
  exactly-representable decimals, so rational arithmetic is a faithful model of
  the float values); `Q` keeps a gcd-normalized representation so that
  structural equality is value equality, exactly like JS `===` on numbers.
* A JavaScript `Map<string, V>` is embedded as an insertion-ordered association
  list (`JsMap`): `set` replaces in place or appends, `get` finds the first
  binding, which is exactly the ECMAScript `Map` semantics.
* `Date.now()` is threaded as an explicit `now : Nat` parameter at the two
  places the source reads the clock for graph ids.
* The decision log is embedded as a list of entries; the free-form `data`
  payload (a heterogeneous `Record<string, unknown>` used only for display) and
  the entry timestamp are not modelled, every other field is.
* Recursive procedures whose JS termination argument is extrinsic
  (backtracking depth, relaxation cascade, layered BFS) take an explicit fuel
  parameter; all call sites supply fuel that the corresponding JS loop can
  never exhaust, and all general theorems below are proved for every fuel.
-/

namespace XCCL

/-! ## JS `Map<string, V>` model -/

abbrev JsMap (α : Type) := List (String × α)

def jsGet {α : Type} (m : JsMap α) (k : String) : Option α :=
  (m.find? (fun e => e.1 = k)).map (fun e => e.2)

/-- `Map.set`: replace the first binding in place, else append (ES semantics). -/
def jsSet {α : Type} (m : JsMap α) (k : String) (v : α) : JsMap α :=
  match m with
  | [] => [(k, v)]
  | (k', v') :: rest => if k' = k then (k, v) :: rest else (k', v') :: jsSet rest k v

theorem jsGet_jsSet_self {α : Type} (m : JsMap α) (k : String) (v : α) :
    jsGet (jsSet m k v) k = some v := by
  induction m with
  | nil => simp [jsSet, jsGet, List.find?]
  | cons hd tl ih =>
    by_cases h : hd.1 = k
    · simp [jsSet, h, jsGet, List.find?]
    · simp only [jsSet]
      rw [if_neg h]
      simpa [jsGet, List.find?, h] using ih

theorem jsGet_jsSet_ne {α : Type} (m : JsMap α) (k k' : String) (v : α)
    (h : k' ≠ k) : jsGet (jsSet m k v) k' = jsGet m k' := by
  induction m with
  | nil => simp [jsSet, jsGet, List.find?, Ne.symm h]
  | cons hd tl ih =>
    by_cases hh : hd.1 = k
    · subst hh
      simp [jsSet, jsGet, List.find?, Ne.symm h]
    · simp only [jsSet]
      rw [if_neg hh]
      by_cases hk' : hd.1 = k'
      · simp [jsGet, List.find?, hk']
      · simpa [jsGet, List.find?, hk'] using ih

theorem isSome_jsGet_jsSet {α : Type} (m : JsMap α) (k k' : String) (v : α)
    (h : (jsGet m k').isSome) : (jsGet (jsSet m k v) k').isSome := by
  by_cases hk : k' = k
  · subst hk; simp [jsGet_jsSet_self]
  · rwa [jsGet_jsSet_ne _ _ _ _ hk]

/-! ## Exact rationals

A numerator/denominator pair kept gcd-normalized with a positive denominator,
so distinct representations never denote the same value.  (Core `Rat` is not
used because its arithmetic does not reduce inside the kernel, which the
concrete witnesses below rely on.) -/

structure Q where
  num : Int
  den : Int
deriving DecidableEq, Repr

/-- Normalize `n / d` (`d ≠ 0` at every use site). -/
def qMk (n d : Int) : Q :=
  let s : Int := if d < 0 then -1 else 1
  let n := s * n
  let d := s * d
  let g : Int := Int.ofNat (Int.gcd n d)
  if g = 0 then ⟨0, 1⟩ else ⟨n / g, d / g⟩

instance (n : Nat) : OfNat Q n := ⟨⟨n, 1⟩⟩
instance : NatCast Q := ⟨fun n => ⟨n, 1⟩⟩
instance : Add Q := ⟨fun a b => qMk (a.num * b.den + b.num * a.den) (a.den * b.den)⟩
instance : Sub Q := ⟨fun a b => qMk (a.num * b.den - b.num * a.den) (a.den * b.den)⟩
instance : Mul Q := ⟨fun a b => qMk (a.num * b.num) (a.den * b.den)⟩
instance : Div Q := ⟨fun a b => qMk (a.num * b.den) (a.den * b.num)⟩
instance : LE Q := ⟨fun a b => a.num * b.den ≤ b.num * a.den⟩
instance : LT Q := ⟨fun a b => a.num * b.den < b.num * a.den⟩

instance (a b : Q) : Decidable (a ≤ b) :=
  inferInstanceAs (Decidable (a.num * b.den ≤ b.num * a.den))
instance (a b : Q) : Decidable (a < b) :=
  inferInstanceAs (Decidable (a.num * b.den < b.num * a.den))

/-- Floor of a rational with positive denominator. -/
def Q.floor (q : Q) : Int := Int.fdiv q.num q.den

/-- `Math.min` on numbers. -/
instance : Min Q := ⟨fun a b => if a ≤ b then a else b⟩

/-! ## JS string primitives

The engine uses `split`, `trim`, `startsWith` and numeric parsing on plain
ASCII strings.  They are modelled by structurally recursive functions on the
character list (the core library's `String.splitOn`/`trim`/`toNat?` are
defined by well-founded recursion on byte positions, which the kernel does
not evaluate). -/

def splitOnChar (sep : Char) : List Char → List (List Char)
  | [] => [[]]
  | c :: rest =>
    let r := splitOnChar sep rest
    if c = sep then [] :: r
    else
      match r with
      | [] => [[c]]
      | s :: ss => (c :: s) :: ss

/-- `s.split(sep)` for a one-character separator. -/
def strSplitOn (s : String) (sep : Char) : List String :=
  (splitOnChar sep s.data).map (fun cs => String.mk cs)

/-- `s.trim()` (the strings involved only ever carry plain spaces). -/
def strTrim (s : String) : String :=
  ⟨((s.data.dropWhile (fun c => c = ' ')).reverse.dropWhile
    (fun c => c = ' ')).reverse⟩

/-- `s.startsWith(pre)`. -/
def strStartsWith (s pre : String) : Bool :=
  pre.data.isPrefixOf s.data

def strToNatAux : List Char → Nat → Option Nat
  | [], acc => some acc
  | c :: rest, acc =>
    if 48 ≤ c.toNat ∧ c.toNat ≤ 57 then strToNatAux rest (acc * 10 + (c.toNat - 48))
    else none

/-- Numeric parse of a non-empty all-digit token (`none` otherwise), matching
`Number(token)` on the integer tokens the ring bases contain. -/
def strToNat (s : String) : Option Nat :=
  match s.data with
  | [] => none
  | cs => strToNatAux cs 0

/-! ## Type model (`types.ts`) -/

inductive NodeType | GPU | PCI | NVS | CPU | NIC | NET
deriving DecidableEq, Repr

inductive LinkType | LOC | NVL | C2C | PCI | SYS | NET
deriving DecidableEq, Repr

/-- `PathType` numeric values (`types.ts`), used numerically by the engine. -/
def PATH_LOC : Nat := 0
def PATH_NVL : Nat := 1
def PATH_NVB : Nat := 2
def PATH_C2C : Nat := 3
def PATH_PIX : Nat := 4
def PATH_PXB : Nat := 5
def PATH_P2C : Nat := 6
def PATH_PXN : Nat := 7
def PATH_PHB : Nat := 8
def PATH_SYS : Nat := 9
def PATH_NET : Nat := 10
def PATH_DIS : Nat := 11

structure GpuInfo where
  dev : Nat
  rank : Nat
  cudaCompCap : Nat
  gdrSupport : Bool
deriving DecidableEq, Repr

structure NetInfo where
  dev : Nat
  speed : Q
  gdrSupport : Bool
  collSupport : Bool
  maxChannels : Nat
deriving DecidableEq, Repr

structure CpuInfo where
  arch : Nat
  vendor : Nat
  model : Nat
  numaId : Nat
deriving DecidableEq, Repr

structure PciInfo where
  gen : Nat
  width : Nat
deriving DecidableEq, Repr

structure TopoNode where
  id : String
  type : NodeType
  index : Nat
  label : Option String := none
  gpu : Option GpuInfo := none
  net : Option NetInfo := none
  cpu : Option CpuInfo := none
  pci : Option PciInfo := none
deriving DecidableEq, Repr

structure TopoLink where
  fromId : String
  toId : String
  type : LinkType
  bandwidth : Q
deriving DecidableEq, Repr

structure TopoPathHop where
  linkType : LinkType
  bandwidth : Q
  nodeId : String
deriving DecidableEq, Repr

structure TopoPath where
  fromId : String
  toId : String
  type : Nat
  bandwidth : Q
  hops : List TopoPathHop
  count : Nat
deriving DecidableEq, Repr

/-- `nodesByType` is a `Map<NodeType, TopoNode[]>` built in insertion order;
embedded as an association list with the same grouped-in-creation-order data. -/
abbrev NodesByType := List (NodeType × List TopoNode)

def nbtGet (m : NodesByType) (t : NodeType) : List TopoNode :=
  ((m.find? (fun e => e.1 = t)).map (fun e => e.2)).getD []

def nbtAdd (m : NodesByType) (n : TopoNode) : NodesByType :=
  match m with
  | [] => [(n.type, [n])]
  | (t, g) :: rest =>
    if t = n.type then (t, g ++ [n]) :: rest else (t, g) :: nbtAdd rest n

/-- The `for (const node of nodes)` grouping loop shared by the builders. -/
def buildNodesByType (nodes : List TopoNode) : NodesByType :=
  nodes.foldl nbtAdd []

structure TopoSystem where
  nodes : List TopoNode
  links : List TopoLink
  paths : JsMap TopoPath
  maxBw : Q
  totalBw : Q
  inter : Bool
  nodesByType : NodesByType
deriving DecidableEq, Repr

structure GraphChannel where
  id : Nat
  bandwidth : Q
  ringOrder : List String
  treeLinks : List (String × String) := []
  treeUp : JsMap String := []
  treeDown : JsMap (List String) := []
  ringPrev : JsMap String := []
  ringNext : JsMap String := []
deriving DecidableEq, Repr

structure TopoGraph where
  id : String
  pattern : Nat
  nChannels : Nat
  channels : List GraphChannel
  speedIntra : Q
  speedInter : Q
  typeIntra : LinkType
  typeInter : LinkType
deriving DecidableEq, Repr

/-! ## Decision log (`decision-log.ts`) -/

structure LogEntry where
  step : Nat
  phase : String
  action : String
  reason : String
  alternatives : List String
  sourceRef : String
deriving DecidableEq, Repr

abbrev DLog := List LogEntry

def logEmit (log : DLog) (phase action reason sourceRef : String)
    (alternatives : List String := []) : DLog :=
  log ++ [{ step := log.length, phase := phase, action := action,
            reason := reason, alternatives := alternatives,
            sourceRef := sourceRef }]

/-! ## Env configuration (`env.ts` accessors; the engine only ever reads these
seven variables through `getEnvInt`). -/

structure EnvConfig where
  crossNic : Int := 2
  nvbDisable : Int := 0
  pxnDisable : Int := 0
  pxnC2c : Int := 1
  minNChannels : Int := -2
  maxNChannels : Int := -2
  rcclModelMatchingDisable : Int := 0
deriving DecidableEq, Repr

def getEnvInt (env : EnvConfig) (name : String) : Int :=
  if name = "NCCL_CROSS_NIC" then env.crossNic
  else if name = "NCCL_NVB_DISABLE" then env.nvbDisable
  else if name = "NCCL_PXN_DISABLE" then env.pxnDisable
  else if name = "NCCL_PXN_C2C" then env.pxnC2c
  else if name = "NCCL_MIN_NCHANNELS" then env.minNChannels
  else if name = "NCCL_MAX_NCHANNELS" then env.maxNChannels
  else if name = "RCCL_MODEL_MATCHING_DISABLE" then env.rcclModelMatchingDisable
  else -2

/-! ## Constants (`constants/nccl.ts`) -/

def SM60_NVLINK_BW : Q := 18
def SM70_NVLINK_BW : Q := 20
def SM80_NVLINK_BW : Q := 20
def SM90_NVLINK_BW : Q := (206 : Q) / 10
def SM86_NVLINK_BW : Q := 12
def SM100_NVLINK_BW : Q := (401 : Q) / 10
def PCI_BW : Q := 12
def AMD_BW : Q := 16
def BDW_QPI_BW : Q := 6
def SKL_QPI_BW : Q := 10
def SRP_QPI_BW : Q := 22
def ERP_QPI_BW : Q := 40
def ZPI_BW : Q := 6
def YONGFENG_ZPI_BW : Q := 9
def P9_BW : Q := 32
def ARM_BW : Q := 6

def nvlinkBw (cudaCompCap : Nat) : Q :=
  if cudaCompCap ≥ 100 then SM100_NVLINK_BW
  else if cudaCompCap ≥ 90 then SM90_NVLINK_BW
  else if cudaCompCap = 86 then SM86_NVLINK_BW
  else if cudaCompCap ≥ 80 then SM80_NVLINK_BW
  else if cudaCompCap ≥ 70 then SM70_NVLINK_BW
  else if cudaCompCap ≥ 60 then SM60_NVLINK_BW
  else SM80_NVLINK_BW

def speedArrayIntra : List Q := [40, 30, 20, 18, 15, 12, 10, 9, 7, 6, 5, 4, 3]
def speedArrayInter : List Q :=
  [48, 30, 28, 24, 20, 18, 15, 12, 10, 9, 7, 6, 5, 4, 3,
   (24 : Q) / 10, (12 : Q) / 10, (24 : Q) / 100, (12 : Q) / 100]
def sm90SpeedArrayIntra : List Q := [60, 50, 40, 30, 24, 20, 15, 12, 11, 6, 3]
def sm90SpeedArrayInter : List Q :=
  [48, 45, 42, 40, 30, 24, 22, 20, (175 : Q) / 10, 15, 12, 6, 3,
   (24 : Q) / 10, (12 : Q) / 10, (24 : Q) / 100, (12 : Q) / 100]
def sm100SpeedArrayIntra : List Q := [90, 80, 70, 60, 50, 45, 40, 30, 24, 20, 19, 18]
def sm100SpeedArrayInter : List Q :=
  [96, 48, (451 : Q) / 10, 42, 40, 30, 24, 22, 20, (175 : Q) / 10, 15, 12, 6, 3,
   (24 : Q) / 10, (12 : Q) / 10, (24 : Q) / 100, (12 : Q) / 100]

def getSpeedArrays (ccMin : Nat) (isInter : Bool) : List Q :=
  if isInter then
    if ccMin ≥ 100 then sm100SpeedArrayInter
    else if ccMin ≥ 90 then sm90SpeedArrayInter
    else speedArrayInter
  else
    if ccMin ≥ 100 then sm100SpeedArrayIntra
    else if ccMin ≥ 90 then sm90SpeedArrayIntra
    else speedArrayIntra

def SEARCH_GLOBAL_TIMEOUT : Nat := 524288
def SEARCH_TIMEOUT : Nat := 16384
def SEARCH_TIMEOUT_TREE : Nat := 16384
def SEARCH_TIMEOUT_SAMECHANNELS : Nat := 256
def MAXCHANNELS : Nat := 64
def NCCL_TOPO_PATTERN_RING : Nat := 0
def NCCL_TOPO_PATTERN_BALANCED_TREE : Nat := 1

structure GpuScore where
  g : Nat
  startIndex : Nat
  intraNhops : Nat
  intraBw : Q
  interNhops : Nat
  interPciBw : Q
  interBw : Q
deriving DecidableEq, Repr

/-- `compareGpuScores` as a boolean "sorts before or equal" relation: this is
`compareGpuScores(a, b) <= 0` for the numeric comparator of
`constants/nccl.ts` (ties with result 0 only at equal `startIndex`, where the
stable sort keeps order — matching ES2019+ `Array.prototype.sort`). -/
def gpuScoreLE (a b : GpuScore) : Bool :=
  if a.interBw ≠ b.interBw then b.interBw < a.interBw
  else if a.interPciBw ≠ b.interPciBw then b.interPciBw < a.interPciBw
  else if a.interNhops ≠ b.interNhops then a.interNhops < b.interNhops
  else if a.intraBw ≠ b.intraBw then b.intraBw < a.intraBw
  else if a.intraNhops ≠ b.intraNhops then a.intraNhops < b.intraNhops
  else a.startIndex ≤ b.startIndex

/-! ## Search (`search.ts`, mirrors NCCL `search.cc`) -/

def getGpuNodes (system : TopoSystem) : List TopoNode :=
  nbtGet system.nodesByType NodeType.GPU

def getMinComputeCap (gpus : List TopoNode) : Nat :=
  if gpus.isEmpty then 80
  else
    let minCc := gpus.foldl (fun acc g =>
      match g.gpu with
      | some gi =>
        match acc with
        | none => some gi.cudaCompCap
        | some m => if gi.cudaCompCap < m then some gi.cudaCompCap else some m
      | none => acc) none
    minCc.getD 80

def pathKey (fromId toId : String) : String := fromId ++ "->" ++ toId

def getPath (system : TopoSystem) (fromId toId : String) : Option TopoPath :=
  jsGet system.paths (pathKey fromId toId)

/-- The ordered `i < j` GPU pairs visited by `getIntraPathTypeRange`. -/
def orderedPairs : List TopoNode → List (TopoNode × TopoNode)
  | [] => []
  | x :: xs => xs.map (fun y => (x, y)) ++ orderedPairs xs

def getIntraPathTypeRange (system : TopoSystem) (gpus : List TopoNode) : Nat × Nat :=
  let r := (orderedPairs gpus).foldl (fun (acc : Nat × Nat) p =>
    match getPath system p.1.id p.2.id with
    | some pa =>
      let pt := pa.type
      (if pt < acc.1 then pt else acc.1, if pt > acc.2 then pt else acc.2)
    | none => acc) (PATH_DIS, PATH_LOC)
  if r.1 = PATH_DIS then (PATH_PIX, PATH_PHB) else r

def getInterPathTypeRange (system : TopoSystem) (gpus : List TopoNode) : Nat × Nat :=
  let nics := nbtGet system.nodesByType NodeType.NIC
  if nics.isEmpty then (PATH_SYS, PATH_NET)
  else
    let r := (gpus.flatMap (fun g => nics.map (fun n => (g, n)))).foldl
      (fun (acc : Nat × Nat) p =>
        match getPath system p.1.id p.2.id with
        | some pa =>
          let pt := pa.type
          (if pt < acc.1 then pt else acc.1, if pt > acc.2 then pt else acc.2)
        | none => acc) (PATH_DIS, PATH_LOC)
    if r.1 = PATH_DIS then (PATH_NET, PATH_NET) else r

def pathTypeToLinkType (pt : Nat) : LinkType :=
  if pt = PATH_LOC then .LOC
  else if pt = PATH_NVL ∨ pt = PATH_NVB then .NVL
  else if pt = PATH_C2C then .C2C
  else if pt = PATH_PIX ∨ pt = PATH_PXB ∨ pt = PATH_PXN ∨ pt = PATH_PHB ∨ pt = PATH_P2C
    then .PCI
  else if pt = PATH_SYS then .SYS
  else if pt = PATH_NET then .NET
  else .PCI

def scoreGpu (system : TopoSystem) (fromGpu candidate _firstGpu : TopoNode)
    (_isLast : Bool) : GpuScore :=
  let pathForward := getPath system fromGpu.id candidate.id
  let intraBw := (pathForward.map (fun p => p.bandwidth)).getD 0
  let intraNhops := (pathForward.map (fun p => p.count)).getD 999
  let nics := nbtGet system.nodesByType NodeType.NIC
  let inter := nics.foldl (fun (acc : Q × Q × Nat) nic =>
    match getPath system candidate.id nic.id with
    | some nicPath =>
      if nicPath.bandwidth > acc.1 then (nicPath.bandwidth, nicPath.bandwidth, nicPath.count)
      else acc
    | none => acc) (0, 0, 999)
  { g := candidate.index, startIndex := candidate.index,
    intraNhops := intraNhops, intraBw := intraBw,
    interNhops := inter.2.2, interPciBw := inter.2.1, interBw := inter.1 }

/-- Stable insertion used to model `Array.prototype.sort` (stable per ES2019)
with the total preorder `gpuScoreLE`. -/
def insertSorted {α : Type} (le : α → α → Bool) (x : α) : List α → List α
  | [] => [x]
  | y :: ys => if le x y then x :: y :: ys else y :: insertSorted le x ys

def stableSort {α : Type} (le : α → α → Bool) : List α → List α
  | [] => []
  | x :: xs => insertSorted le x (stableSort le xs)

structure SState where
  remainingBw : JsMap Q
  channels : List GraphChannel
  iterations : Nat
  globalIterations : Nat
  timedOut : Bool
deriving DecidableEq, Repr

/-- One iteration of the candidate-collection loop of `searchRingRec`
(search.ts:254-278): skip visited GPUs, GPUs without a path from the current
one, and GPUs without enough remaining bandwidth (including on the closing
edge when the ring is about to complete); otherwise append the GPU's score. -/
def candidateStep (system : TopoSystem) (visited : List String)
    (current first : TopoNode) (isLast : Bool) (requiredBw : Q) (rem : JsMap Q)
    (acc : List GpuScore) (gpu : TopoNode) : List GpuScore :=
  if visited.contains gpu.id then acc
  else
    match getPath system current.id gpu.id with
    | none => acc
    | some p =>
      let remaining := (jsGet rem (pathKey current.id gpu.id)).getD p.bandwidth
      if remaining < requiredBw then acc
      else if isLast then
        match getPath system gpu.id first.id with
        | none => acc
        | some closePath =>
          let closeRemaining :=
            (jsGet rem (pathKey gpu.id first.id)).getD closePath.bandwidth
          if closeRemaining < requiredBw then acc
          else acc ++ [scoreGpu system current gpu first isLast]
      else acc ++ [scoreGpu system current gpu first isLast]

/-- The candidate-collection loop of `searchRingRec` (search.ts:254-278). -/
def collectCandidates (system : TopoSystem) (gpus : List TopoNode)
    (visited : List String) (current first : TopoNode) (isLast : Bool)
    (requiredBw : Q) (rem : JsMap Q) : List GpuScore :=
  gpus.foldl (candidateStep system visited current first isLast requiredBw rem) []

/-- Accumulator of the candidate loop of `searchRingRec`: the found ring (if
any), whether iteration stopped (timeout after a failed candidate), and the
threaded state. -/
structure TryAcc where
  result : Option (List String)
  stopped : Bool
  st : SState
deriving DecidableEq, Repr

/-- One candidate trial of `searchRingRec`'s inner loop (search.ts:284-316):
consume the forward edge's bandwidth, recurse (`rec` is the recursion at the
next depth), keep the state on success, restore the edge and record the
timeout flag on backtrack.  Skips when a ring was already found or iteration
stopped. -/
def searchRingStep (system : TopoSystem) (gpus : List TopoNode)
    (rec : List String → TopoNode → TopoNode → List String → Q → SState → Nat →
      Option (List String) × SState)
    (visited : List String) (current first : TopoNode) (path : List String)
    (requiredBw : Q) (timeout : Nat) (acc : TryAcc) (score : GpuScore) : TryAcc :=
  if acc.result.isSome ∨ acc.stopped then acc
  else
    match gpus[score.g]? with
    | none => acc -- unreachable: `gpus[score.g]` faults in JS; indices are positional
    | some nextGpu =>
      let st := acc.st
      let fwdKey := pathKey current.id nextGpu.id
      -- `getPath(...)!` : the candidate filter guarantees the path exists
      let fwdBw :=
        ((getPath system current.id nextGpu.id).map (fun p => p.bandwidth)).getD 0
      let prevBw := (jsGet st.remainingBw fwdKey).getD fwdBw
      let st1 :=
        { st with remainingBw := jsSet st.remainingBw fwdKey (prevBw - requiredBw) }
      let res := rec (visited ++ [nextGpu.id]) nextGpu
        first (path ++ [nextGpu.id]) requiredBw st1 timeout
      match res.1 with
      | some r => { result := some r, stopped := false, st := res.2 }
      | none =>
        let st3 :=
          { res.2 with remainingBw := jsSet res.2.remainingBw fwdKey prevBw }
        { result := none, stopped := st3.timedOut, st := st3 }

/-- `searchRingRec` (search.ts:222-319): recursive backtracking over GPUs.
The candidate loop (search.ts:284-316) — consume bandwidth, recurse, restore
on backtrack, early-exit on success or timeout — is the inner fold.
The fuel argument bounds the recursion depth; every call site supplies
`gpus.length + 1`, which the source recursion (depth `gpus.length - path.length`)
can never exhaust. -/
def searchRingRec (system : TopoSystem) (gpus : List TopoNode) :
    Nat → List String → TopoNode → TopoNode → List String → Q → SState → Nat →
    Option (List String) × SState
  | 0, _, _, _, _, _, st, _ => (none, st)
  | fuel + 1, visited, current, first, path, requiredBw, st, timeout =>
    let st := { st with iterations := st.iterations + 1,
                        globalIterations := st.globalIterations + 1 }
    if st.iterations > timeout ∨ st.globalIterations > SEARCH_GLOBAL_TIMEOUT then
      (none, { st with timedOut := true })
    else if path.length = gpus.length then
      match getPath system current.id first.id with
      | none => (none, st)
      | some closePath =>
        let closeRemaining :=
          (jsGet st.remainingBw (pathKey current.id first.id)).getD closePath.bandwidth
        if closeRemaining < requiredBw then (none, st) else (some path, st)
    else
      let isLast := path.length = gpus.length - 1
      let candidates :=
        collectCandidates system gpus visited current first isLast requiredBw st.remainingBw
      let acc := (stableSort gpuScoreLE candidates).foldl
        (searchRingStep system gpus (searchRingRec system gpus fuel) visited current
          first path requiredBw timeout)
        { result := none, stopped := false, st := st }
      (acc.result, acc.st)

def searchRingFromStart (system : TopoSystem) (gpus : List TopoNode)
    (startGpu : TopoNode) (requiredBw : Q) (st : SState) (timeout : Nat) :
    Option (List String) × SState :=
  searchRingRec system gpus (gpus.length + 1) [startGpu.id] startGpu startGpu
    [startGpu.id] requiredBw st timeout

/-- `tryReusedRing` (search.ts:440-457). -/
def tryReusedRing (system : TopoSystem) (ring : List String) (speed : Q)
    (st : SState) : Option (List String) :=
  if (List.range ring.length).all (fun i =>
      let f := ring.getD i ""
      let t := ring.getD ((i + 1) % ring.length) ""
      match getPath system f t with
      | none => false
      | some p =>
        let remaining := (jsGet st.remainingBw (pathKey f t)).getD p.bandwidth
        decide (remaining ≥ speed)) then
    some ring
  else none

/-- One step of `consumeRingBandwidth`'s loop body (search.ts:465-476):
subtract `speed` from the remaining bandwidth of ring edge `i` (with
wrap-around to the head). -/
def consumeStep (system : TopoSystem) (ring : List String) (speed : Q)
    (st : SState) (i : Nat) : SState :=
  let f := ring.getD i ""
  let t := ring.getD ((i + 1) % ring.length) ""
  match getPath system f t with
  | none => st
  | some p =>
    let key := pathKey f t
    let prev := (jsGet st.remainingBw key).getD p.bandwidth
    { st with remainingBw := jsSet st.remainingBw key (prev - speed) }

/-- `consumeRingBandwidth` (search.ts:462-477). -/
def consumeRingBandwidth (system : TopoSystem) (ring : List String) (speed : Q)
    (st : SState) : SState :=
  (List.range ring.length).foldl (consumeStep system ring speed) st

/-- `initRemainingBw` (search.ts:483-487): copies `system.paths` bandwidths. -/
def initRemainingBw (st : SState) (paths : JsMap TopoPath) : SState :=
  { st with remainingBw :=
      paths.foldl (fun m e => jsSet m e.1 e.2.bandwidth) st.remainingBw }

/-- The per-start loop of `searchForChannels` (search.ts:398-409). -/
def searchStartLoop (system : TopoSystem) (gpus : List TopoNode)
    (requiredBw : Q) (timeout : Nat) :
    List TopoNode → SState → Option (List String) × SState
  | [], st => (none, st)
  | g :: rest, st =>
    match searchRingFromStart system gpus g requiredBw st timeout with
    | (some r, st2) => (some r, st2)
    | (none, st2) =>
      if st2.timedOut then (none, st2)
      else searchStartLoop system gpus requiredBw timeout rest st2

/-- The channel loop of `searchForChannels` (search.ts:388-430): `cnt` counts
the remaining loop iterations (`budget - ch`, where `budget` is
`min maxChannels MAXCHANNELS`). -/
def searchChannelsLoop (system : TopoSystem) (gpus : List TopoNode)
    (speed : Q) (timeout sameChannels : Nat) :
    Option (List String) → Nat → Nat → Nat → SState → Nat × SState
  | _, _, found, 0, st => (found, st)
  | firstRing, ch, found, cnt + 1, st =>
    let st := { st with iterations := 0 }
    let step : Option (List String) × SState :=
      if sameChannels = 1 ∧ firstRing.isSome then
        (tryReusedRing system (firstRing.getD []) speed st, st)
      else
        searchStartLoop system gpus speed timeout gpus st
    match step with
    | (none, st2) => (found, st2)
    | (some ring, st2) =>
      let firstRing := if ch = 0 then some ring else firstRing
      let st := consumeRingBandwidth system ring speed st2
      let st := { st with channels :=
        st.channels ++ [{ id := ch, bandwidth := speed, ringOrder := ring }] }
      if st.globalIterations > SEARCH_GLOBAL_TIMEOUT then
        (found + 1, { st with timedOut := true })
      else
        searchChannelsLoop system gpus speed timeout sameChannels firstRing
          (ch + 1) (found + 1) cnt st

/-- `searchForChannels` (search.ts:349-434).  The `typeIntra`, `typeInter` and
`crossNic` arguments are bound (as in the source, where they are the
underscore-prefixed parameters) but never read. -/
def searchForChannels (system : TopoSystem) (gpus : List TopoNode)
    (pattern : Nat) (speed : Q) (maxChannels minChannels sameChannels : Nat)
    (typeIntra typeInter : Nat) (crossNic : Int) (st : SState) : Nat × SState :=
  let _ := minChannels
  let _ := typeIntra
  let _ := typeInter
  let _ := crossNic
  if gpus.length ≤ 1 then
    let nCh := min maxChannels MAXCHANNELS
    let trivialOrder : List String :=
      match gpus with
      | [g] => [g.id]
      | _ => []
    (nCh, { st with channels := st.channels ++ (List.range nCh).map (fun c =>
        { id := c, bandwidth := speed, ringOrder := trivialOrder }) })
  else
    let timeout :=
      if sameChannels = 1 then SEARCH_TIMEOUT_SAMECHANNELS
      else if pattern = NCCL_TOPO_PATTERN_BALANCED_TREE then SEARCH_TIMEOUT_TREE
      else SEARCH_TIMEOUT
    if pattern = NCCL_TOPO_PATTERN_RING ∨ pattern = NCCL_TOPO_PATTERN_BALANCED_TREE then
      searchChannelsLoop system gpus speed timeout sameChannels none 0 0
        (min maxChannels MAXCHANNELS) st
    else (0, st)

structure SearchResult where
  nChannels : Nat
  channels : List GraphChannel
  speedIntra : Q
  speedInter : Q
  typeIntra : Nat
  typeInter : Nat
  time : Int
deriving DecidableEq, Repr

/-- Observation record for one phase-1 attempt (the parameters each
`searchForChannels` call receives, and the best result after the attempt). -/
structure AttemptInfo where
  speed : Q
  sameChannels : Nat
  maxCh : Nat
  pattern : Nat
  typeIntra : Nat
  typeInter : Nat
  crossNic : Int
  bestSpeedAfter : Option Q
  bestChannelsAfter : Option Nat
deriving DecidableEq, Repr

/-- `startSpeedIndex` (search.ts:555-563): first index whose speed fits both
`maxBw` and `speed * nGpus <= totalBw`; the index keeps advancing (ending on
the last index) when nothing fits. -/
def startSpeedIndexAux (maxBw totalBw : Q) (nGpus : Nat) :
    Nat → List Q → Nat → Nat
  | _, [], acc => acc
  | i, s :: rest, _ =>
    if s ≤ maxBw ∧ s * (nGpus : Q) ≤ totalBw then i
    else startSpeedIndexAux maxBw totalBw nGpus (i + 1) rest i

def startSpeedIndex (speedArray : List Q) (maxBw totalBw : Q) (nGpus : Nat) : Nat :=
  startSpeedIndexAux maxBw totalBw nGpus 0 speedArray 0

/-- The best-solution update after one attempt (search.ts:616-637): when the
attempt found at least `minChannels` channels, the new best records the
attempt's channels, speed and types; otherwise the previous best is kept. -/
def phase1Best (inter : Bool) (speed : Q) (lTypeIntra lTypeInter minChannels : Nat)
    (best : Option SearchResult) (nChannels : Nat) (st : SState) :
    Option SearchResult :=
  if nChannels ≥ minChannels then
    some { nChannels := nChannels, channels := st.channels,
           speedIntra := speed,
           speedInter := if inter then speed else 0,
           typeIntra := lTypeIntra, typeInter := lTypeInter,
           time := if st.timedOut then 0 else -1 }
  else best

/-- The inner relaxation loop of phase 1 (search.ts:606-756).  The fuel bounds
the number of `continue`s; the cascade measure
`2*(pattern + intraGap + interGap + crossGap) + sameChannels <= 49` shows the
source loop never runs 64 iterations without breaking. -/
def phase1Inner (system : TopoSystem) (gpus : List TopoNode) (ccMin : Nat)
    (minChannels maxChannels : Nat) (typeIntraMax typeInterMax : Nat)
    (crossNic : Int) (speed : Q) :
    Nat → Nat → Nat → Nat → Int → Nat → Option SearchResult → Nat →
    List AttemptInfo → DLog →
    Option SearchResult × Nat × Bool × List AttemptInfo × DLog
  | 0, _, _, _, _, _, best, gIter, trace, log => (best, gIter, false, trace, log)
  | fuel + 1, sameChannels, lTypeIntra, lTypeInter, lCrossNic, lPattern,
    best, gIter, trace, log =>
    let st0 : SState :=
      { remainingBw := [], channels := [], iterations := 0,
        globalIterations := gIter, timedOut := false }
    let st0 := initRemainingBw st0 system.paths
    let res := searchForChannels system gpus lPattern speed maxChannels minChannels
      sameChannels lTypeIntra lTypeInter lCrossNic st0
    let nChannels := res.1
    let st := res.2
    let gIter := st.globalIterations
    let found := nChannels ≥ minChannels
    let best' := phase1Best system.inter speed lTypeIntra lTypeInter minChannels best
      nChannels st
    let att : AttemptInfo :=
      { speed := speed, sameChannels := sameChannels,
        maxCh := maxChannels, pattern := lPattern, typeIntra := lTypeIntra,
        typeInter := lTypeInter, crossNic := lCrossNic,
        bestSpeedAfter := best'.map (fun b => b.speedIntra),
        bestChannelsAfter := best'.map (fun b => b.nChannels) }
    let trace := trace ++ [att]
    let log := if found then
        logEmit log "ringSearch" "Found channels" "attempt succeeded" "search.cc:1130"
      else log
    if found ∧ ¬st.timedOut ∧ speed * (nChannels : Q) ≥ system.totalBw then
      (best', gIter, true, trace,
       logEmit log "ringSearch" "Optimal solution found"
         "Search completed without timeout and saturates available bandwidth"
         "search.cc:1135")
    else if found ∧ nChannels ≥ maxChannels then
      (best', gIter, true, trace, log)
    else if sameChannels = 1 then
      phase1Inner system gpus ccMin minChannels maxChannels typeIntraMax typeInterMax
        crossNic speed fuel 0 lTypeIntra lTypeInter lCrossNic lPattern best' gIter trace
        (logEmit log "ringSearch"
          "Relaxation: sameChannels=0 (allow different orderings per channel)"
          "relax" "search.cc:1145" ["Keep sameChannels=1 and try lower speed"])
    else if ccMin ≥ 90 ∧ lPattern = NCCL_TOPO_PATTERN_BALANCED_TREE then
      phase1Inner system gpus ccMin minChannels maxChannels typeIntraMax typeInterMax
        crossNic speed fuel 1 lTypeIntra lTypeInter lCrossNic NCCL_TOPO_PATTERN_RING
        best' gIter trace
        (logEmit log "ringSearch"
          "Relaxation: Switch from BALANCED_TREE to RING pattern (Hopper+)"
          "Hopper and newer GPUs may find better rings with simpler pattern"
          "search.cc:1152" ["Keep BALANCED_TREE and try lower speed"])
    else if lTypeIntra < typeIntraMax then
      phase1Inner system gpus ccMin minChannels maxChannels typeIntraMax typeInterMax
        crossNic speed fuel 1 (lTypeIntra + 1) lTypeInter lCrossNic lPattern best' gIter
        trace
        (logEmit log "ringSearch" "Relaxation: Increase typeIntra"
          "Allow worse intra-node link types to find more channels"
          "search.cc:1160" ["Skip to lower speed instead"])
    else if system.inter ∧ lTypeInter < typeInterMax then
      phase1Inner system gpus ccMin minChannels maxChannels typeIntraMax typeInterMax
        crossNic speed fuel 1 lTypeIntra (lTypeInter + 1) lCrossNic lPattern best' gIter
        trace
        (logEmit log "ringSearch" "Relaxation: Increase typeInter"
          "Allow worse inter-node link types to find more channels"
          "search.cc:1167" ["Skip to lower speed instead"])
    else if system.inter ∧ crossNic = 2 ∧ lCrossNic = 0 then
      phase1Inner system gpus ccMin minChannels maxChannels typeIntraMax typeInterMax
        crossNic speed fuel 1 lTypeIntra lTypeInter 1 lPattern best' gIter trace
        (logEmit log "ringSearch" "Relaxation: Enable crossNic"
          "Allow cross-NIC paths for inter-node communication"
          "search.cc:1173" ["Skip to lower speed instead"])
    else (best', gIter, false, trace, log)

/-- The outer (decreasing-speed) loop of phase 1 (search.ts:596-771): `cnt`
counts the remaining speeds (`speedArray.length - si`).
Returns `(si, best, globalIterations, trace, log)`. -/
def phase1Outer (system : TopoSystem) (gpus : List TopoNode) (ccMin : Nat)
    (minChannels maxChannels : Nat) (typeIntra typeInter typeIntraMax typeInterMax : Nat)
    (crossNic : Int) (patternNum : Nat) (speedArray : List Q) :
    Nat → Nat → Option SearchResult → Nat → List AttemptInfo → DLog →
    Nat × Option SearchResult × Nat × List AttemptInfo × DLog
  | 0, si, best, gIter, trace, log => (si, best, gIter, trace, log)
  | cnt + 1, si, best, gIter, trace, log =>
    let speed := speedArray.getD si 0
    -- Fuel for the source's unbounded relaxation loop: every `continue`
    -- strictly decreases the measure
    -- `2*(pattern + (typeIntraMax - lTypeIntra) + (typeInterMax - lTypeInter)
    -- + crossGap) + sameChannels`, which starts below the fuel given here, so
    -- the fuel is never exhausted and the embedding agrees with the source.
    let r := phase1Inner system gpus ccMin minChannels maxChannels typeIntraMax
      typeInterMax crossNic speed (2 * (typeIntraMax + typeInterMax) + 64) 1
      typeIntra typeInter
      (if crossNic = 2 then 0 else crossNic) patternNum best gIter trace log
    match r with
    | (best, gIter, done, trace, log) =>
      if done then (si, best, gIter, trace, log)
      else
        let log :=
          if si + 1 < speedArray.length then
            logEmit log "ringSearch" "Decreasing speed"
              "All relaxations exhausted at current speed" "search.cc:1183"
          else log
        phase1Outer system gpus ccMin minChannels maxChannels typeIntra typeInter
          typeIntraMax typeInterMax crossNic patternNum speedArray cnt (si + 1) best
          gIter trace log

/-- The phase-2 optimization loop (search.ts:786-843); `cnt` counts the
iterations `optSi = si-1, ..., speedIndex`. -/
def phase2Loop (system : TopoSystem) (gpus : List TopoNode) (patternNum : Nat)
    (maxChannels minChannels : Nat) (crossNic : Int) (speedArray : List Q) :
    Nat → Nat → SearchResult → Nat → DLog → SearchResult × Nat × DLog
  | 0, _, b, gIter, log => (b, gIter, log)
  | cnt + 1, optSi, b, gIter, log =>
    let optSpeed := speedArray.getD optSi 0
    let st0 : SState :=
      { remainingBw := [], channels := [], iterations := 0,
        globalIterations := gIter, timedOut := false }
    let st0 := initRemainingBw st0 system.paths
    let res := searchForChannels system gpus patternNum optSpeed maxChannels
      minChannels 0 b.typeIntra b.typeInter (if crossNic = 2 then 0 else crossNic) st0
    let nChannels := res.1
    let st := res.2
    let gIter := st.globalIterations
    let bl : SearchResult × DLog :=
      if nChannels ≥ minChannels then
        let newTotalBw := optSpeed * (nChannels : Q)
        let oldTotalBw := b.speedIntra * (b.nChannels : Q)
        if newTotalBw > oldTotalBw then
          ({ nChannels := nChannels, channels := st.channels,
             speedIntra := optSpeed,
             speedInter := if system.inter then optSpeed else 0,
             typeIntra := b.typeIntra, typeInter := b.typeInter,
             time := if st.timedOut then 0 else -1 },
           logEmit log "ringSearch" "Phase 2: Improved solution"
             "Found higher bandwidth solution" "search.cc:1210")
        else (b, log)
      else (b, log)
    if gIter > SEARCH_GLOBAL_TIMEOUT then (bl.1, gIter, bl.2)
    else phase2Loop system gpus patternNum maxChannels minChannels crossNic speedArray
      cnt (optSi - 1) bl.1 gIter bl.2

/-- The tail of `ncclTopoCompute` after the phase-1 loop (search.ts:775-843):
destructures the phase-1 result and runs phase 2 when the best solution timed
out and a higher speed exists. -/
def computeBestFinish (system : TopoSystem) (gpus : List TopoNode)
    (patternNum maxChannels minChannels : Nat) (crossNic : Int)
    (speedArray : List Q) (speedIndex : Nat)
    (p1 : Nat × Option SearchResult × Nat × List AttemptInfo × DLog) :
    Option SearchResult × List AttemptInfo × DLog :=
  match p1 with
  | (si, best, gIter, trace, log) =>
    match best with
    | some b =>
      if b.time ≠ -1 ∧ si > 0 then
        let log := logEmit log "ringSearch" "Phase 2: Optimizing — trying higher bandwidths"
          "Current solution" "search.cc:1192"
        let p2 := phase2Loop system gpus patternNum maxChannels minChannels crossNic
          speedArray (si - speedIndex) (si - 1) b gIter log
        (some p2.1, trace, p2.2.2)
      else (some b, trace, log)
    | none => (none, trace, log)

/-- Everything `ncclTopoCompute` computes before building the result graph
(the result is independent of `Date.now()`). Returns
`(best, phase-1 attempt trace, log)`. -/
def ncclTopoComputeBest (system : TopoSystem) (pattern : Nat)
    (minChannels0 maxChannels0 : Nat) (env : EnvConfig) (log : DLog) :
    Option SearchResult × List AttemptInfo × DLog :=
  let patternNum := pattern
  let gpus := getGpuNodes system
  let nGpus := gpus.length
  let ccMin := getMinComputeCap gpus
  let crossNic0 := getEnvInt env "NCCL_CROSS_NIC"
  let crossNic := if crossNic0 = -2 then 2 else crossNic0
  let intraRange := getIntraPathTypeRange system gpus
  let interRange :=
    if system.inter then getInterPathTypeRange system gpus else (PATH_SYS, PATH_NET)
  let typeIntra := intraRange.1
  let typeInter := interRange.1
  let typeIntraMax := intraRange.2
  let typeInterMax := interRange.2
  let log := logEmit log "searchInit" "Intra path type range"
    "Determined from GPU-to-GPU and GPU-to-NIC paths in the topology" "search.cc:1060"
  let speedArray := getSpeedArrays ccMin system.inter
  let log := logEmit log "searchInit" "Selected speed array"
    "Speed array chosen by compute capability" "search.cc:1089"
  let speedIndex := startSpeedIndex speedArray system.maxBw system.totalBw nGpus
  let maxChannels := if maxChannels0 > MAXCHANNELS then MAXCHANNELS else maxChannels0
  let minChannels := if minChannels0 < 1 then 1 else minChannels0
  let log := logEmit log "searchInit" "Starting speed index"
    "first viable speed" "search.cc:1096"
  let log := logEmit log "ringSearch" "Phase 1: Searching for initial solution"
    "Try speeds from high to low, relaxing constraints until a valid ring is found"
    "search.cc:1108"
  let p1 := phase1Outer system gpus ccMin minChannels maxChannels typeIntra typeInter
    typeIntraMax typeInterMax crossNic patternNum speedArray
    (speedArray.length - speedIndex) speedIndex none 0 [] log
  computeBestFinish system gpus patternNum maxChannels minChannels crossNic
    speedArray speedIndex p1

/-- `buildEmptyGraph` (search.ts:897-924) up to the `Date.now()` suffix of the
graph id (appended by `buildEmptyGraph`). -/
def buildEmptyGraphG (pattern : Nat) (gpus : List TopoNode) : TopoGraph :=
  let fallbackOrder := gpus.map (fun g => g.id)
  let channels : List GraphChannel :=
    if gpus.length > 0 then [{ id := 0, bandwidth := 0, ringOrder := fallbackOrder }]
    else []
  { id := "graph-empty-", pattern := pattern,
    nChannels := channels.length, channels := channels,
    speedIntra := 0, speedInter := 0,
    typeIntra := LinkType.PCI, typeInter := LinkType.NET }

/-- `buildEmptyGraph` (search.ts:897-924): the fallback graph when the search
found nothing.  `now` stands for `Date.now()`; the source builds the id as
the template string `graph-empty-${Date.now()}`, modelled here by appending
`toString now` to the now-free core id. -/
def buildEmptyGraph (now : Nat) (pattern : Nat) (gpus : List TopoNode) : TopoGraph :=
  let r := buildEmptyGraphG pattern gpus
  { r with id := r.id ++ toString now }

/-- `ncclTopoCompute` (search.ts:501-891) up to the `Date.now()` suffix of the
graph id; `Date.now()` appears in the source only inside the template strings
for the graph id, so the whole computation factors through this now-free
function. -/
def ncclTopoComputeG (system : TopoSystem) (pattern : Nat)
    (minChannels maxChannels : Nat) (env : EnvConfig) (log : DLog) :
    TopoGraph × DLog :=
  let gpus := getGpuNodes system
  let r := ncclTopoComputeBest system pattern minChannels maxChannels env log
  match r with
  | (best, _trace, log) =>
    match best with
    | none =>
      (buildEmptyGraphG pattern gpus,
       logEmit log "ringSearch" "No valid ring found — returning empty graph"
         "Search exhausted all speeds and relaxations without finding a valid ring"
         "search.cc:1235")
    | some b =>
      if b.nChannels = 0 then
        (buildEmptyGraphG pattern gpus,
         logEmit log "ringSearch" "No valid ring found — returning empty graph"
           "Search exhausted all speeds and relaxations without finding a valid ring"
           "search.cc:1235")
      else
        let log := logEmit log "channelSetup" "Final result" "Search complete"
          "search.cc:1238"
        ({ id := "graph-" ++
             (if pattern = NCCL_TOPO_PATTERN_RING then "ring" else "tree") ++ "-",
           pattern := pattern, nChannels := b.nChannels,
           channels := (b.channels.enum).map (fun ci => { ci.2 with id := ci.1 }),
           speedIntra := b.speedIntra, speedInter := b.speedInter,
           typeIntra := pathTypeToLinkType b.typeIntra,
           typeInter := pathTypeToLinkType b.typeInter }, log)

/-- `ncclTopoCompute` (search.ts:501-891).  `now` stands for the `Date.now()`
read when the graph id is built (all result ids end in `${Date.now()}`). -/
def ncclTopoCompute (now : Nat) (system : TopoSystem) (pattern : Nat)
    (minChannels maxChannels : Nat) (env : EnvConfig) (log : DLog) :
    TopoGraph × DLog :=
  let r := ncclTopoComputeG system pattern minChannels maxChannels env log
  ({ r.1 with id := r.1.id ++ toString now }, r.2)

/-! ## Hardware configuration (`types.ts`) and RCCL constants (`constants/rccl.ts`) -/

def CPU_ARCH_X86 : Nat := 0
def CPU_ARCH_POWER : Nat := 1
def CPU_ARCH_ARM : Nat := 2
def CPU_VENDOR_INTEL : Nat := 0
def CPU_VENDOR_AMD : Nat := 1
def CPU_VENDOR_ZHAOXIN : Nat := 2
def INTEL_BDW : Nat := 1
def INTEL_SKL : Nat := 2
def INTEL_SRP : Nat := 3
def INTEL_ERP : Nat := 4

structure GPUConfig where
  count : Nat
  type : String
  cudaCompCap : Nat
  nvlinksPerPair : Nat
  gdrSupport : Bool
deriving DecidableEq, Repr

structure CPUConfig where
  count : Nat
  arch : Nat
  vendor : Nat
  model : Nat
deriving DecidableEq, Repr

structure NICConfig where
  count : Nat
  speed : Q
  gdrSupport : Bool
  collSupport : Bool
deriving DecidableEq, Repr

structure PCIeConfig where
  gen : Nat
  width : Nat
  switchesPerCPU : Nat
deriving DecidableEq, Repr

structure NVSwitchConfig where
  count : Nat
deriving DecidableEq, Repr

structure HardwareConfig where
  name : String
  gpu : GPUConfig
  cpu : CPUConfig
  nic : NICConfig
  pcie : PCIeConfig
  nvswitch : NVSwitchConfig
  numaMapping : List Nat
deriving DecidableEq, Repr

def VEGA_XGMI_WIDTH : Q := 24
def MI200_XGMI_WIDTH : Q := 36
def GFX94X_XGMI_WIDTH : Q := 48
def GFX95X_XGMI_WIDTH : Q := 48

def xgmiWidth (gcnArch : String) : Q :=
  if strStartsWith gcnArch "gfx95" then GFX95X_XGMI_WIDTH
  else if gcnArch = "gfx942" ∨ strStartsWith gcnArch "gfx94" then GFX94X_XGMI_WIDTH
  else if gcnArch = "gfx90a" then MI200_XGMI_WIDTH
  else VEGA_XGMI_WIDTH

def gpuTypeToGcnArch (gpuType : String) : Option String :=
  if gpuType = "MI300X" then some "gfx942"
  else if gpuType = "MI300A" then some "gfx942"
  else if gpuType = "MI250X" then some "gfx90a"
  else if gpuType = "MI250" then some "gfx90a"
  else if gpuType = "MI210" then some "gfx90a"
  else if gpuType = "MI100" then some "gfx908"
  else if gpuType = "MI60" then some "gfx906"
  else if gpuType = "MI50" then some "gfx906"
  else none

/-! ## Topology builder (`topo.ts`) -/

def pcieBandwidth (gen width : Nat) : Q :=
  PCI_BW * ((gen : Q) / 3) * ((width : Q) / 16)

def interSocketBw (arch vendor model : Nat) : Q :=
  if arch = CPU_ARCH_POWER then P9_BW
  else if arch = CPU_ARCH_ARM then ARM_BW
  else if vendor = CPU_VENDOR_AMD then AMD_BW
  else if vendor = CPU_VENDOR_ZHAOXIN then
    (if model = 1 then YONGFENG_ZPI_BW else ZPI_BW)
  else
    if model = INTEL_BDW then BDW_QPI_BW
    else if model = INTEL_SKL then SKL_QPI_BW
    else if model = INTEL_SRP then SRP_QPI_BW
    else if model = INTEL_ERP then ERP_QPI_BW
    else BDW_QPI_BW

def isAmdGpu (gpuType : String) : Bool := (gpuTypeToGcnArch gpuType).isSome

def cpuModelLabel (arch vendor model : Nat) : String :=
  if arch = CPU_ARCH_POWER then "POWER9"
  else if arch = CPU_ARCH_ARM then "ARM"
  else if vendor = CPU_VENDOR_AMD then
    (if model = 1 then "Rome" else if model = 2 then "Milan"
     else if model = 3 then "Genoa" else "AMD")
  else if vendor = CPU_VENDOR_ZHAOXIN then "Zhaoxin"
  else
    (if model = 1 then "BDW" else if model = 2 then "SKL"
     else if model = 3 then "SRP" else if model = 4 then "ERP" else "Intel")

/-- `Math.round(speedGBs * 8)` for the NIC label (speeds are non-negative). -/
def nicSpeedLabel (speedGBs : Q) : String :=
  toString ((speedGBs * 8 + 1 / 2).floor) ++ "G"

def nodeIdGpu (i : Nat) : String := "gpu-" ++ toString i
def nodeIdCpu (i : Nat) : String := "cpu-" ++ toString i
def nodeIdNic (i : Nat) : String := "nic-" ++ toString i
def nodeIdNvs (i : Nat) : String := "nvs-" ++ toString i
def nodeIdPci (i : Nat) : String := "pci-" ++ toString i

/-- Step 7 of `buildTopoSystem` (topo.ts lines 338-362): fold over GPUs adding
host-hierarchy links.  The `links.some(...)` dedup check reads the links
accumulated so far. -/
def addGpuHostLinks (config : HardwareConfig) (pciBw : Q)
    (totalPciSwitches switchesPerCpu : Nat) (links : List TopoLink) : List TopoLink :=
  (List.range config.gpu.count).foldl (fun links g =>
    let numaIdx := config.numaMapping.getD g 0
    if totalPciSwitches > 0 then
      let gpuIndexOnCpu := ((config.numaMapping.take g).filter (fun n => n = numaIdx)).length
      let pciIdx := numaIdx * switchesPerCpu + gpuIndexOnCpu % switchesPerCpu
      let links := links ++
        [{ fromId := nodeIdGpu g, toId := nodeIdPci pciIdx, type := LinkType.PCI, bandwidth := pciBw },
         { fromId := nodeIdPci pciIdx, toId := nodeIdGpu g, type := LinkType.PCI, bandwidth := pciBw }]
      if links.any (fun l => l.fromId = nodeIdPci pciIdx ∧ l.toId = nodeIdCpu numaIdx) then
        links
      else
        links ++
        [{ fromId := nodeIdPci pciIdx, toId := nodeIdCpu numaIdx, type := LinkType.PCI, bandwidth := pciBw },
         { fromId := nodeIdCpu numaIdx, toId := nodeIdPci pciIdx, type := LinkType.PCI, bandwidth := pciBw }]
    else
      links ++
      [{ fromId := nodeIdGpu g, toId := nodeIdCpu numaIdx, type := LinkType.PCI, bandwidth := pciBw },
       { fromId := nodeIdCpu numaIdx, toId := nodeIdGpu g, type := LinkType.PCI, bandwidth := pciBw }]) links

/-- Step 8 of `buildTopoSystem` (topo.ts lines 370-395): NIC host links. -/
def addNicHostLinks (config : HardwareConfig) (pciBw : Q)
    (totalPciSwitches switchesPerCpu : Nat) (links : List TopoLink) : List TopoLink :=
  (List.range config.nic.count).foldl (fun links n =>
    let cpuIdx :=
      if n < config.numaMapping.length then config.numaMapping.getD n 0
      else n % config.cpu.count
    if totalPciSwitches > 0 then
      let nicIndexOnCpu := ((config.numaMapping.take n).filter (fun c => c = cpuIdx)).length
      let pciIdx := cpuIdx * switchesPerCpu + nicIndexOnCpu % switchesPerCpu
      let links := links ++
        [{ fromId := nodeIdNic n, toId := nodeIdPci pciIdx, type := LinkType.PCI, bandwidth := pciBw },
         { fromId := nodeIdPci pciIdx, toId := nodeIdNic n, type := LinkType.PCI, bandwidth := pciBw }]
      if links.any (fun l => l.fromId = nodeIdPci pciIdx ∧ l.toId = nodeIdCpu cpuIdx) then
        links
      else
        links ++
        [{ fromId := nodeIdPci pciIdx, toId := nodeIdCpu cpuIdx, type := LinkType.PCI, bandwidth := pciBw },
         { fromId := nodeIdCpu cpuIdx, toId := nodeIdPci pciIdx, type := LinkType.PCI, bandwidth := pciBw }]
    else
      links ++
      [{ fromId := nodeIdNic n, toId := nodeIdCpu cpuIdx, type := LinkType.PCI, bandwidth := pciBw },
       { fromId := nodeIdCpu cpuIdx, toId := nodeIdNic n, type := LinkType.PCI, bandwidth := pciBw }]) links

/-- `buildTopoSystem` (topo.ts:139-466). -/
def buildTopoSystem (config : HardwareConfig) (_env : EnvConfig) (log : DLog) :
    TopoSystem × DLog :=
  let gpuNodes := (List.range config.gpu.count).map (fun i =>
    ({ id := nodeIdGpu i, type := NodeType.GPU, index := i,
       label := some ("GPU" ++ toString i),
       gpu := some { dev := i, rank := i, cudaCompCap := config.gpu.cudaCompCap,
                     gdrSupport := config.gpu.gdrSupport } } : TopoNode))
  let log := logEmit log "topoGetSystem" "Created GPU nodes" "GPU type" "topo.cc:1423"
  let cpuNodes := (List.range config.cpu.count).map (fun i =>
    ({ id := nodeIdCpu i, type := NodeType.CPU, index := i,
       label := some ("CPU" ++ toString i ++ " (" ++
         cpuModelLabel config.cpu.arch config.cpu.vendor config.cpu.model ++ ")"),
       cpu := some { arch := config.cpu.arch, vendor := config.cpu.vendor,
                     model := config.cpu.model, numaId := i } } : TopoNode))
  let nicNodes := (List.range config.nic.count).map (fun i =>
    ({ id := nodeIdNic i, type := NodeType.NIC, index := i,
       label := some ("NIC" ++ toString i ++ " (" ++ nicSpeedLabel config.nic.speed ++ ")"),
       net := some { dev := i, speed := config.nic.speed,
                     gdrSupport := config.nic.gdrSupport,
                     collSupport := config.nic.collSupport, maxChannels := 64 } } : TopoNode))
  let nvsNodes := (List.range config.nvswitch.count).map (fun i =>
    ({ id := nodeIdNvs i, type := NodeType.NVS, index := i,
       label := some ("NVS" ++ toString i) } : TopoNode))
  let totalPciSwitches := config.pcie.switchesPerCPU * config.cpu.count
  let pciNodes := (List.range totalPciSwitches).map (fun i =>
    ({ id := nodeIdPci i, type := NodeType.PCI, index := i,
       label := some ("PCI" ++ toString i),
       pci := some { gen := config.pcie.gen, width := config.pcie.width } } : TopoNode))
  let nodes := gpuNodes ++ cpuNodes ++ nicNodes ++ nvsNodes ++ pciNodes
  let compCap := config.gpu.cudaCompCap
  let pciBw := pcieBandwidth config.pcie.gen config.pcie.width
  -- Step 6: GPU interconnect
  let gpuInterconnect : List TopoLink × DLog :=
    if config.nvswitch.count > 0 then
      let nvBw := nvlinkBw compCap
      ((List.range config.gpu.count).flatMap (fun g =>
        (List.range config.nvswitch.count).flatMap (fun s =>
          [{ fromId := nodeIdGpu g, toId := nodeIdNvs s, type := LinkType.NVL, bandwidth := nvBw },
           { fromId := nodeIdNvs s, toId := nodeIdGpu g, type := LinkType.NVL, bandwidth := nvBw }])),
       logEmit log "topoGetSystem" "Created NVSwitch topology" "NVSwitch links" "topo.cc"
         ["Direct NVLink mesh", "xGMI mesh"])
    else if isAmdGpu config.gpu.type then
      let gcnArch := (gpuTypeToGcnArch config.gpu.type).getD ""
      let xBw := xgmiWidth gcnArch
      ((List.range config.gpu.count).flatMap (fun i =>
        ((List.range config.gpu.count).filter (fun j => i ≠ j)).map (fun j =>
          ({ fromId := nodeIdGpu i, toId := nodeIdGpu j, type := LinkType.NVL,
             bandwidth := xBw } : TopoLink))),
       logEmit log "topoGetSystem" "Created xGMI mesh topology" "xGMI links" "topo.cc"
         ["NVSwitch topology", "Direct NVLink mesh"])
    else if config.gpu.nvlinksPerPair > 0 then
      let nvBw := nvlinkBw compCap * (config.gpu.nvlinksPerPair : Q)
      ((List.range config.gpu.count).flatMap (fun i =>
        ((List.range config.gpu.count).filter (fun j => i ≠ j)).map (fun j =>
          ({ fromId := nodeIdGpu i, toId := nodeIdGpu j, type := LinkType.NVL,
             bandwidth := nvBw } : TopoLink))),
       logEmit log "topoGetSystem" "Created NVLink mesh topology" "NVLink links" "topo.cc"
         ["NVSwitch topology", "PCIe-only topology"])
    else
      ([],
       logEmit log "topoGetSystem" "No GPU-to-GPU direct links"
         "nvlinksPerPair=0 and no NVSwitches — GPUs communicate via PCIe/SYS only"
         "topo.cc" ["NVLink mesh", "NVSwitch topology"])
  let links := gpuInterconnect.1
  let log := gpuInterconnect.2
  let links := addGpuHostLinks config pciBw totalPciSwitches config.pcie.switchesPerCPU links
  let links := addNicHostLinks config pciBw totalPciSwitches config.pcie.switchesPerCPU links
  -- Step 9: CPU <-> CPU
  let sysBw := interSocketBw config.cpu.arch config.cpu.vendor config.cpu.model
  let links := links ++ (List.range config.cpu.count).flatMap (fun i =>
    ((List.range config.cpu.count).filter (fun j => i ≠ j)).map (fun j =>
      ({ fromId := nodeIdCpu i, toId := nodeIdCpu j, type := LinkType.SYS,
         bandwidth := sysBw } : TopoLink)))
  let nodesByType := buildNodesByType nodes
  let maxBw := links.foldl (fun acc l => if l.bandwidth > acc then l.bandwidth else acc) 0
  let totalBw := links.foldl (fun acc l => acc + l.bandwidth) 0
  let system : TopoSystem :=
    { nodes := nodes, links := links, paths := [], maxBw := maxBw,
      totalBw := totalBw, inter := false, nodesByType := nodesByType }
  (system,
   logEmit log "topoGetSystem" "Topology system built" "node and link counts" "topo.cc:1423")

/-! ## Path engine (`paths.ts`) -/

abbrev AdjEntry := TopoLink × TopoNode

/-- `classifyHop` (paths.ts:297-353). -/
def classifyHop (fromNode toNode : TopoNode) (linkType : LinkType)
    (pathSoFar : Nat) (hopCount : Nat) : Nat :=
  let hopType :=
    if linkType = LinkType.NET then PATH_LOC
    else if fromNode.type = NodeType.PCI ∧ toNode.type = NodeType.PCI then PATH_PXB
    else if linkType = LinkType.PCI ∧
        (fromNode.type = NodeType.CPU ∨ toNode.type = NodeType.CPU) then PATH_PHB
    else if fromNode.type = NodeType.GPU ∧ pathSoFar = PATH_NVL ∧
        linkType = LinkType.NVL ∧ hopCount > 1 then PATH_NVB
    else
      match linkType with
      | LinkType.LOC => PATH_LOC
      | LinkType.NVL => PATH_NVL
      | LinkType.PCI => PATH_PIX
      | LinkType.C2C => PATH_C2C
      | LinkType.SYS => PATH_SYS
      | _ => PATH_SYS
  max pathSoFar hopType

structure SPFAEntry where
  nodeId : String
  pathType : Nat
  bandwidth : Q
  hops : List TopoPathHop
  hopCount : Nat
deriving DecidableEq, Repr

/-- The domination decision of `spfaFromSource` (paths.ts:442-450) for the case
where an entry for the neighbor already exists: the new path replaces the old
one iff `(existing.bw == 0 || existing.count > current.count) && existing.bw < newBw`. -/
def spfaReplaceExisting (existingBw : Q) (existingCount currentCount : Nat)
    (newBw : Q) : Bool :=
  (existingBw = 0 ∨ existingCount > currentCount) ∧ existingBw < newBw

/-- One node expansion of the layered BFS: processes all neighbors of one node.
State is `(best, nextLayerSet, nextLayer)`. -/
def spfaExpandNode (source : TopoNode) (adj : JsMap (List AdjEntry))
    (nodeMap : JsMap TopoNode) (nvbDisabled : Bool) (currentId : String)
    (acc : JsMap SPFAEntry × List String × List String) :
    JsMap SPFAEntry × List String × List String :=
  match jsGet acc.1 currentId, jsGet nodeMap currentId with
  | some currentEntry, some currentNode =>
    let neighbors := (jsGet adj currentId).getD []
    neighbors.foldl (fun acc en =>
      let link := en.1
      let neighbor := en.2
      if currentNode.type = NodeType.GPU ∧ currentNode.id ≠ source.id ∧
          (nvbDisabled ∨ link.type ≠ LinkType.NVL ∨ neighbor.type ≠ NodeType.GPU ∨
           currentEntry.hopCount > 1) then
        acc
      else
        let newBw := min currentEntry.bandwidth link.bandwidth
        let newCount := currentEntry.hopCount + 1
        let accept :=
          match jsGet acc.1 neighbor.id with
          | none => true
          | some existing =>
            spfaReplaceExisting existing.bandwidth existing.hopCount
              currentEntry.hopCount newBw
        if accept then
          let newPathType := classifyHop currentNode neighbor link.type
            currentEntry.pathType newCount
          let newHop : TopoPathHop :=
            { linkType := link.type, bandwidth := link.bandwidth, nodeId := neighbor.id }
          let newEntry : SPFAEntry :=
            { nodeId := neighbor.id, pathType := newPathType, bandwidth := newBw,
              hops := currentEntry.hops ++ [newHop], hopCount := newCount }
          let best := jsSet acc.1 neighbor.id newEntry
          if acc.2.1.contains neighbor.id then (best, acc.2.1, acc.2.2)
          else (best, acc.2.1 ++ [neighbor.id], acc.2.2 ++ [neighbor.id])
        else acc) acc
  | _, _ => acc

structure BtreeInfo where
  up : Int
  down0 : Int
  down1 : Int
deriving DecidableEq, Repr

/-- `getBtree` (trees.ts:17-53): heap-style implicit binary tree
(`parent = (r-1)/2`, children `2r+1`, `2r+2`). -/
def getBtree (nRanks rank : Nat) : BtreeInfo :=
  if nRanks < 1 then { up := -1, down0 := -1, down1 := -1 }
  else
    let up : Int := if rank = 0 then -1 else ((rank : Int) - 1) / 2
    let leftChild := 2 * rank + 1
    let rightChild := 2 * rank + 2
    { up := up,
      down0 := if leftChild < nRanks then (leftChild : Int) else -1,
      down1 := if rightChild < nRanks then (rightChild : Int) else -1 }

/-- `ncclGetDtree` (trees.ts:66-104): tree0 is `getBtree`; tree1 is the mirror
(even `nRanks`) or shift (odd `nRanks`) tree. -/
def ncclGetDtree (nRanks rank : Nat) : BtreeInfo × BtreeInfo :=
  let tree0 := getBtree nRanks rank
  let tree1 :=
    if nRanks % 2 = 0 then
      let mirrorRank := nRanks - 1 - rank
      let m := getBtree nRanks mirrorRank
      { up := if m.up = -1 then -1 else (nRanks : Int) - 1 - m.up,
        down0 := if m.down0 = -1 then -1 else (nRanks : Int) - 1 - m.down0,
        down1 := if m.down1 = -1 then -1 else (nRanks : Int) - 1 - m.down1 : BtreeInfo }
    else
      -- `(rank - 1 + nRanks) % nRanks` in JS; written without Nat underflow.
      let shiftRank := (rank + nRanks - 1) % nRanks
      let s := getBtree nRanks shiftRank
      { up := if s.up = -1 then -1 else (s.up + 1) % (nRanks : Int),
        down0 := if s.down0 = -1 then -1 else (s.down0 + 1) % (nRanks : Int),
        down1 := if s.down1 = -1 then -1 else (s.down1 + 1) % (nRanks : Int) : BtreeInfo }
  (tree0, tree1)

/-- `Int.toNat` of a tree index known to be `≥ 0` (the `!== -1` branches). -/
def treeIdx (i : Int) : Nat := i.toNat

/-- `buildTreeGraph` (trees.ts:114-204): one tree channel per ring channel,
wired from `tree0` of `ncclGetDtree` over rank ids `gpu-0..gpu-(nRanks-1)`. -/
def buildTreeGraph (ringGraph : TopoGraph) (nRanks : Nat) (log : DLog) :
    TopoGraph × DLog :=
  let log := logEmit log "treeSearch" "Building tree graph from ring graph"
    "Using ncclGetDtree (double binary tree)" "trees.cc:88"
    ["Single binary tree", "Binomial tree"]
  let channels := (List.range ringGraph.nChannels).map (fun ch =>
    let ringChannel := ringGraph.channels.getD ch
      { id := 0, bandwidth := 0, ringOrder := [] }
    let wiring := (List.range nRanks).foldl
      (fun (acc : List (String × String) × JsMap String × JsMap (List String)) rank =>
        let gpuId := nodeIdGpu rank
        let t := ncclGetDtree nRanks rank
        let tree0 := t.1
        let acc :=
          if tree0.up ≠ -1 then
            let parentId := nodeIdGpu (treeIdx tree0.up)
            (acc.1 ++ [(parentId, gpuId)], jsSet acc.2.1 gpuId parentId, acc.2.2)
          else acc
        let downChildren :=
          (if tree0.down0 ≠ -1 then [nodeIdGpu (treeIdx tree0.down0)] else []) ++
          (if tree0.down1 ≠ -1 then [nodeIdGpu (treeIdx tree0.down1)] else [])
        if downChildren.length > 0 then
          (acc.1, acc.2.1, jsSet acc.2.2 gpuId downChildren)
        else acc) ([], [], [])
    ({ id := ch, bandwidth := ringChannel.bandwidth,
       ringOrder := ringChannel.ringOrder,
       treeLinks := wiring.1, treeUp := wiring.2.1,
       treeDown := wiring.2.2 } : GraphChannel))
  let treeGraph : TopoGraph :=
    { id := "tree", pattern := NCCL_TOPO_PATTERN_BALANCED_TREE,
      nChannels := channels.length, channels := channels,
      speedIntra := ringGraph.speedIntra, speedInter := ringGraph.speedInter,
      typeIntra := ringGraph.typeIntra, typeInter := ringGraph.typeInter }
  (treeGraph, logEmit log "treeSearch" "Tree graph built" "channels wired" "trees.cc:109")

/-! ## Ring setup (`rings.ts`) -/

/-- The circular prev/next maps for one ring order (rings.ts:56-63 and
connect.ts:56-62 share this loop). -/
def ringPrevNext (order : List String) : JsMap String × JsMap String :=
  (List.range order.length).foldl (fun (acc : JsMap String × JsMap String) i =>
    let len := order.length
    let current := order.getD i ""
    let nextNode := order.getD ((i + 1) % len) ""
    -- `(i - 1 + len) % len` in JS; written without Nat underflow.
    let prevNode := order.getD ((i + len - 1) % len) ""
    (jsSet acc.1 current prevNode, jsSet acc.2 current nextNode)) ([], [])

/-- The `{ parentId, childId }` tree links of one `ncclGetDtree` sub-tree over
all ranks (connect.ts:108-135 inner loop), for `which = 0` (tree0, even
channel) or `which = 1` (tree1, odd channel). -/
def dtreeWiring (nRanks : Nat) (which : Nat) :
    List (String × String) × JsMap String × JsMap (List String) :=
  (List.range nRanks).foldl
    (fun (acc : List (String × String) × JsMap String × JsMap (List String)) rank =>
      let gpuId := nodeIdGpu rank
      let t := ncclGetDtree nRanks rank
      let tree := if which = 0 then t.1 else t.2
      let acc :=
        if tree.up ≠ -1 then
          let parentId := nodeIdGpu (treeIdx tree.up)
          (acc.1 ++ [(parentId, gpuId)], jsSet acc.2.1 gpuId parentId, acc.2.2)
        else acc
      let downChildren :=
        (if tree.down0 ≠ -1 then [nodeIdGpu (treeIdx tree.down0)] else []) ++
        (if tree.down1 ≠ -1 then [nodeIdGpu (treeIdx tree.down1)] else [])
      if downChildren.length > 0 then
        (acc.1, acc.2.1, jsSet acc.2.2 gpuId downChildren)
      else acc) ([], [], [])

/-- `setupChannels` (connect.ts:26-200): finalizes ring prev/next and emits two
tree channels (tree0/tree1 of `ncclGetDtree`) per input tree channel. -/
def setupChannels (_system : TopoSystem) (ringGraph treeGraph : TopoGraph)
    (log : DLog) :
    (TopoGraph × TopoGraph) × DLog :=
  let log := logEmit log "channelSetup" "Setting up channels (connect.cc)"
    "Ring and tree channel counts" "connect.cc:580"
  -- 1. ring prev/next
  let ringChannels := ringGraph.channels.enum.map (fun ci =>
    if ci.1 < ringGraph.nChannels ∧ ci.2.ringOrder.length ≠ 0 then
      let pn := ringPrevNext ci.2.ringOrder
      { ci.2 with ringPrev := pn.1, ringNext := pn.2 }
    else ci.2)
  let ringGraph := { ringGraph with channels := ringChannels }
  let log := logEmit log "channelSetup" "Ring connections set"
    "Each channel has prev/next maps derived from ring ordering" "connect.cc:600"
  -- 2. double the tree channels
  let nRanks := match ringGraph.channels.head? with
    | some c => c.ringOrder.length
    | none => 0
  let doubledTreeChannels := (List.range treeGraph.nChannels).flatMap (fun ch =>
    let srcChannel := treeGraph.channels.getD ch { id := 0, bandwidth := 0, ringOrder := [] }
    let w0 := dtreeWiring nRanks 0
    let w1 := dtreeWiring nRanks 1
    [({ id := 2 * ch, bandwidth := srcChannel.bandwidth,
        ringOrder := srcChannel.ringOrder, treeLinks := w0.1,
        treeUp := w0.2.1, treeDown := w0.2.2 } : GraphChannel),
     ({ id := 2 * ch + 1, bandwidth := srcChannel.bandwidth,
        ringOrder := srcChannel.ringOrder, treeLinks := w1.1,
        treeUp := w1.2.1, treeDown := w1.2.2 } : GraphChannel)])
  let doubledTreeGraph : TopoGraph :=
    { id := "tree-doubled", pattern := NCCL_TOPO_PATTERN_BALANCED_TREE,
      nChannels := doubledTreeChannels.length, channels := doubledTreeChannels,
      speedIntra := treeGraph.speedIntra, speedInter := treeGraph.speedInter,
      typeIntra := treeGraph.typeIntra, typeInter := treeGraph.typeInter }
  let log := logEmit log "channelSetup" "Tree channels doubled"
    "Each ring channel produces 2 tree channels (tree0 + tree1 from ncclGetDtree)"
    "connect.cc:650"
  ((ringGraph, doubledTreeGraph),
   logEmit log "channelSetup" "Channel setup complete" "Final counts" "connect.cc:700")

/-! ## RCCL Rome models (`rccl/rome-models.ts`) -/

structure RcclRomeModel where
  id : String
  nGpus : Nat
  nCpus : Nat
  nNics : Nat
  nLinks : Nat
  gpuNuma : List Nat
  nicNuma : List Nat
  connMatrix : List Nat
  gdrLevel : List Nat
  pattern : String
  ringBase : String
deriving DecidableEq, Repr

def rome_model_22 : RcclRomeModel :=
  { id := "rome_model_22", nGpus := 8, nCpus := 4, nNics := 1, nLinks := 2,
    gpuNuma := [1, 0, 1, 2, 3, 1, 2, 3], nicNuma := [2],
    connMatrix :=
      [0, 1, 0, 0, 0, 0, 1, 0,
       1, 0, 1, 0, 0, 0, 0, 0,
       0, 1, 0, 1, 0, 0, 0, 0,
       0, 0, 1, 0, 0, 0, 0, 1,
       0, 0, 0, 0, 0, 1, 0, 1,
       0, 0, 0, 0, 1, 0, 1, 0,
       1, 0, 0, 0, 0, 1, 0, 0,
       0, 0, 0, 1, 1, 0, 0, 0],
    gdrLevel := [PATH_SYS, PATH_SYS, PATH_SYS, PATH_PHB, PATH_SYS, PATH_SYS, PATH_PHB, PATH_SYS],
    pattern := "10302120",
    ringBase := "7 4 5 3 1 0 6 2|4 7 3 5 0 1 2 6" }

def rome_model_25 : RcclRomeModel :=
  { id := "rome_model_25", nGpus := 8, nCpus := 4, nNics := 2, nLinks := 2,
    gpuNuma := [0, 1, 1, 1, 2, 2, 2, 3], nicNuma := [0, 3],
    connMatrix :=
      [0, 1, 0, 1, 0, 0, 0, 0,
       1, 0, 1, 0, 0, 0, 0, 0,
       0, 1, 0, 1, 0, 0, 0, 0,
       1, 0, 1, 0, 0, 0, 0, 0,
       0, 0, 0, 0, 0, 1, 0, 1,
       0, 0, 0, 0, 1, 0, 1, 0,
       0, 0, 0, 0, 0, 1, 0, 1,
       0, 0, 0, 0, 1, 0, 1, 0],
    gdrLevel :=
      [PATH_PHB, PATH_SYS, PATH_SYS, PATH_SYS, PATH_SYS, PATH_SYS, PATH_SYS, PATH_SYS,
       PATH_SYS, PATH_SYS, PATH_SYS, PATH_SYS, PATH_SYS, PATH_SYS, PATH_SYS, PATH_PHB],
    pattern := "11303011",
    ringBase := "2 1 0 3 6 7 5 4|7 6 4 5 1 2 3 0" }

def rome_model_29 : RcclRomeModel :=
  { id := "rome_model_29", nGpus := 8, nCpus := 4, nNics := 1, nLinks := 3,
    gpuNuma := [0, 1, 1, 1, 2, 2, 3, 3], nicNuma := [2],
    connMatrix :=
      [0, 1, 1, 1, 0, 0, 0, 0,
       1, 0, 1, 1, 0, 0, 0, 0,
       1, 1, 0, 1, 0, 0, 0, 0,
       1, 1, 1, 0, 0, 0, 0, 0,
       0, 0, 0, 0, 0, 1, 1, 1,
       0, 0, 0, 0, 1, 0, 1, 1,
       0, 0, 0, 0, 1, 1, 0, 1,
       0, 0, 0, 0, 1, 1, 1, 0],
    gdrLevel := [PATH_SYS, PATH_SYS, PATH_SYS, PATH_SYS, PATH_PHB, PATH_PHB, PATH_SYS, PATH_SYS],
    pattern := "10302120",
    ringBase := "0 1 3 2 4 5 7 6|6 7 5 4 2 3 1 0|0 1 2 3 4 6 7 5|5 7 6 4 3 2 1 0" }

def rome_model_52 : RcclRomeModel :=
  { id := "rome_model_52", nGpus := 8, nCpus := 1, nNics := 0, nLinks := 3,
    gpuNuma := [0, 0, 0, 0, 0, 0, 0, 0], nicNuma := [],
    connMatrix :=
      [0, 1, 1, 0, 0, 0, 1, 0,
       1, 0, 0, 1, 0, 1, 0, 0,
       1, 0, 0, 1, 1, 0, 0, 0,
       0, 1, 1, 0, 0, 0, 0, 1,
       0, 0, 1, 0, 0, 1, 1, 0,
       0, 1, 0, 0, 1, 0, 0, 1,
       1, 0, 0, 0, 1, 0, 0, 1,
       0, 0, 0, 1, 0, 1, 1, 0],
    gdrLevel := [], pattern := "80",
    ringBase := "0 1 3 2 4 5 7 6|6 7 5 4 2 3 1 0|0 1 5 4 6 7 3 2|2 3 7 6 4 5 1 0" }

def rome_model_53 : RcclRomeModel :=
  { id := "rome_model_53", nGpus := 8, nCpus := 4, nNics := 4, nLinks := 3,
    gpuNuma := [1, 1, 3, 3, 5, 5, 7, 7], nicNuma := [1, 3, 5, 7],
    connMatrix :=
      [0, 1, 1, 1, 0, 0, 0, 0,
       1, 0, 1, 1, 0, 0, 0, 0,
       1, 1, 0, 1, 0, 0, 0, 0,
       1, 1, 1, 0, 0, 0, 0, 0,
       0, 0, 0, 0, 0, 1, 1, 1,
       0, 0, 0, 0, 1, 0, 1, 1,
       0, 0, 0, 0, 1, 1, 0, 1,
       0, 0, 0, 0, 1, 1, 1, 0],
    gdrLevel :=
      [PATH_PXB, PATH_PXB, PATH_SYS, PATH_SYS, PATH_SYS, PATH_SYS, PATH_SYS, PATH_SYS,
       PATH_SYS, PATH_SYS, PATH_PXB, PATH_PXB, PATH_SYS, PATH_SYS, PATH_SYS, PATH_SYS,
       PATH_SYS, PATH_SYS, PATH_SYS, PATH_SYS, PATH_PXB, PATH_PXB, PATH_SYS, PATH_SYS,
       PATH_SYS, PATH_SYS, PATH_SYS, PATH_SYS, PATH_SYS, PATH_SYS, PATH_PXB, PATH_PXB],
    pattern := "21212121",
    ringBase := "N0 0 1 2 3 4 5 6 7 N3|N3 7 6 5 4 3 2 1 0 N0|N1 2 3 0 1 6 7 4 5 N2|N2 5 4 7 6 1 0 3 2 N1" }

def rome_model_43 : RcclRomeModel :=
  { id := "rome_model_43", nGpus := 8, nCpus := 4, nNics := 0, nLinks := 3,
    gpuNuma := [0, 0, 1, 1, 2, 2, 3, 3], nicNuma := [],
    connMatrix :=
      [0, 1, 1, 1, 0, 0, 0, 0,
       1, 0, 1, 1, 0, 0, 0, 0,
       1, 1, 0, 1, 0, 0, 0, 0,
       1, 1, 1, 0, 0, 0, 0, 0,
       0, 0, 0, 0, 0, 1, 1, 1,
       0, 0, 0, 0, 1, 0, 1, 1,
       0, 0, 0, 0, 1, 1, 0, 1,
       0, 0, 0, 0, 1, 1, 1, 0],
    gdrLevel := [], pattern := "20202020",
    ringBase := "0 1 3 2 4 5 7 6|6 7 5 4 2 3 1 0|0 2 3 1 4 6 7 5|5 7 6 4 1 3 2 0" }

def allToAllConn8 : List Nat :=
  [0, 1, 1, 1, 1, 1, 1, 1,
   1, 0, 1, 1, 1, 1, 1, 1,
   1, 1, 0, 1, 1, 1, 1, 1,
   1, 1, 1, 0, 1, 1, 1, 1,
   1, 1, 1, 1, 0, 1, 1, 1,
   1, 1, 1, 1, 1, 0, 1, 1,
   1, 1, 1, 1, 1, 1, 0, 1,
   1, 1, 1, 1, 1, 1, 1, 0]

def rome_model_55 : RcclRomeModel :=
  { id := "rome_model_55", nGpus := 8, nCpus := 2, nNics := 0, nLinks := 7,
    gpuNuma := [0, 0, 0, 0, 1, 1, 1, 1], nicNuma := [],
    connMatrix := allToAllConn8, gdrLevel := [], pattern := "4040",
    ringBase := "0 1 2 3 4 5 6 7|7 6 5 4 3 2 1 0|0 2 1 3 4 6 5 7|7 5 6 4 3 1 2 0|0 3 2 1 4 7 6 5|5 6 7 4 1 2 3 0" }

def rome_model_56 : RcclRomeModel :=
  { id := "rome_model_56", nGpus := 8, nCpus := 2, nNics := 2, nLinks := 7,
    gpuNuma := [0, 0, 0, 0, 1, 1, 1, 1], nicNuma := [0, 1],
    connMatrix := allToAllConn8,
    gdrLevel :=
      [PATH_PHB, PATH_PHB, PATH_PHB, PATH_PHB, PATH_SYS, PATH_SYS, PATH_SYS, PATH_SYS,
       PATH_SYS, PATH_SYS, PATH_SYS, PATH_SYS, PATH_PHB, PATH_PHB, PATH_PHB, PATH_PHB],
    pattern := "4141",
    ringBase := "N0 0 1 2 3 4 5 6 7 N1|N1 7 6 5 4 3 2 1 0 N0|N0 0 2 1 3 4 6 5 7 N1|N1 7 5 6 4 3 1 2 0 N0" }

def rome_model_58 : RcclRomeModel :=
  { id := "rome_model_58", nGpus := 8, nCpus := 2, nNics := 4, nLinks := 7,
    gpuNuma := [0, 0, 0, 0, 1, 1, 1, 1], nicNuma := [0, 0, 1, 1],
    connMatrix := allToAllConn8,
    gdrLevel :=
      [PATH_PHB, PATH_PHB, PATH_PHB, PATH_PHB, PATH_SYS, PATH_SYS, PATH_SYS, PATH_SYS,
       PATH_PHB, PATH_PHB, PATH_PHB, PATH_PHB, PATH_SYS, PATH_SYS, PATH_SYS, PATH_SYS,
       PATH_SYS, PATH_SYS, PATH_SYS, PATH_SYS, PATH_PHB, PATH_PHB, PATH_PHB, PATH_PHB,
       PATH_SYS, PATH_SYS, PATH_SYS, PATH_SYS, PATH_PHB, PATH_PHB, PATH_PHB, PATH_PHB],
    pattern := "4242",
    ringBase := "N0 0 1 2 3 4 5 6 7 N3|N3 7 6 5 4 3 2 1 0 N0|N1 0 2 1 3 4 6 5 7 N2|N2 7 5 6 4 3 1 2 0 N1" }

def rome_model_59 : RcclRomeModel :=
  { id := "rome_model_59", nGpus := 8, nCpus := 2, nNics := 8, nLinks := 7,
    gpuNuma := [0, 0, 0, 0, 1, 1, 1, 1], nicNuma := [0, 0, 0, 0, 1, 1, 1, 1],
    connMatrix := allToAllConn8,
    gdrLevel :=
      [PATH_PHB, PATH_PHB, PATH_PHB, PATH_PHB, PATH_SYS, PATH_SYS, PATH_SYS, PATH_SYS,
       PATH_PHB, PATH_PHB, PATH_PHB, PATH_PHB, PATH_SYS, PATH_SYS, PATH_SYS, PATH_SYS,
       PATH_PHB, PATH_PHB, PATH_PHB, PATH_PHB, PATH_SYS, PATH_SYS, PATH_SYS, PATH_SYS,
       PATH_PHB, PATH_PHB, PATH_PHB, PATH_PHB, PATH_SYS, PATH_SYS, PATH_SYS, PATH_SYS,
       PATH_SYS, PATH_SYS, PATH_SYS, PATH_SYS, PATH_PHB, PATH_PHB, PATH_PHB, PATH_PHB,
       PATH_SYS, PATH_SYS, PATH_SYS, PATH_SYS, PATH_PHB, PATH_PHB, PATH_PHB, PATH_PHB,
       PATH_SYS, PATH_SYS, PATH_SYS, PATH_SYS, PATH_PHB, PATH_PHB, PATH_PHB, PATH_PHB,
       PATH_SYS, PATH_SYS, PATH_SYS, PATH_SYS, PATH_PHB, PATH_PHB, PATH_PHB, PATH_PHB],
    pattern := "4848",
    ringBase := "N0 0 1 2 3 4 5 6 7 N7|N7 7 6 5 4 3 2 1 0 N0|N1 0 2 1 3 4 6 5 7 N6|N6 7 5 6 4 3 1 2 0 N1|N2 0 3 2 1 4 7 6 5 N5|N5 5 6 7 4 1 2 3 0 N2|N3 0 1 3 2 4 5 7 6 N4|N4 6 7 5 4 2 3 1 0 N3" }

def rome_model_62 : RcclRomeModel :=
  { id := "rome_model_62", nGpus := 8, nCpus := 4, nNics := 0, nLinks := 7,
    gpuNuma := [0, 0, 1, 1, 2, 2, 3, 3], nicNuma := [],
    connMatrix := allToAllConn8, gdrLevel := [], pattern := "20202020",
    ringBase := "0 1 2 3 4 5 6 7|7 6 5 4 3 2 1 0|0 2 1 3 4 6 5 7|7 5 6 4 3 1 2 0|0 3 2 1 4 7 6 5|5 6 7 4 1 2 3 0" }

def rome_model_65 : RcclRomeModel :=
  { id := "rome_model_65", nGpus := 8, nCpus := 4, nNics := 4, nLinks := 7,
    gpuNuma := [0, 0, 1, 1, 2, 2, 3, 3], nicNuma := [0, 1, 2, 3],
    connMatrix := allToAllConn8,
    gdrLevel :=
      [PATH_PXB, PATH_PXB, PATH_SYS, PATH_SYS, PATH_SYS, PATH_SYS, PATH_SYS, PATH_SYS,
       PATH_SYS, PATH_SYS, PATH_PXB, PATH_PXB, PATH_SYS, PATH_SYS, PATH_SYS, PATH_SYS,
       PATH_SYS, PATH_SYS, PATH_SYS, PATH_SYS, PATH_PXB, PATH_PXB, PATH_SYS, PATH_SYS,
       PATH_SYS, PATH_SYS, PATH_SYS, PATH_SYS, PATH_SYS, PATH_SYS, PATH_PXB, PATH_PXB],
    pattern := "21212121",
    ringBase := "N0 0 1 2 3 4 5 6 7 N3|N3 7 6 5 4 3 2 1 0 N0|N1 2 3 0 1 6 7 4 5 N2|N2 5 4 7 6 1 0 3 2 N1" }

def rome_model_66 : RcclRomeModel :=
  { id := "rome_model_66", nGpus := 8, nCpus := 4, nNics := 8, nLinks := 7,
    gpuNuma := [0, 0, 1, 1, 2, 2, 3, 3], nicNuma := [0, 0, 1, 1, 2, 2, 3, 3],
    connMatrix := allToAllConn8,
    gdrLevel :=
      [PATH_PXB, PATH_PXB, PATH_SYS, PATH_SYS, PATH_SYS, PATH_SYS, PATH_SYS, PATH_SYS,
       PATH_PXB, PATH_PXB, PATH_SYS, PATH_SYS, PATH_SYS, PATH_SYS, PATH_SYS, PATH_SYS,
       PATH_SYS, PATH_SYS, PATH_PXB, PATH_PXB, PATH_SYS, PATH_SYS, PATH_SYS, PATH_SYS,
       PATH_SYS, PATH_SYS, PATH_PXB, PATH_PXB, PATH_SYS, PATH_SYS, PATH_SYS, PATH_SYS,
       PATH_SYS, PATH_SYS, PATH_SYS, PATH_SYS, PATH_PXB, PATH_PXB, PATH_SYS, PATH_SYS,
       PATH_SYS, PATH_SYS, PATH_SYS, PATH_SYS, PATH_PXB, PATH_PXB, PATH_SYS, PATH_SYS,
       PATH_SYS, PATH_SYS, PATH_SYS, PATH_SYS, PATH_SYS, PATH_SYS, PATH_PXB, PATH_PXB,
       PATH_SYS, PATH_SYS, PATH_SYS, PATH_SYS, PATH_SYS, PATH_SYS, PATH_PXB, PATH_PXB],
    pattern := "22222222",
    ringBase := "N0 0 1 2 3 4 5 6 7 N7|N7 7 6 5 4 3 2 1 0 N0|N1 0 2 1 3 4 6 5 7 N6|N6 7 5 6 4 3 1 2 0 N1|N2 0 3 2 1 4 7 6 5 N5|N5 5 6 7 4 1 2 3 0 N2|N3 0 1 3 2 4 5 7 6 N4|N4 6 7 5 4 2 3 1 0 N3" }

def romeTopoModels : List RcclRomeModel :=
  [rome_model_22, rome_model_25, rome_model_29, rome_model_52, rome_model_53,
   rome_model_43, rome_model_55, rome_model_56, rome_model_58, rome_model_59,
   rome_model_62, rome_model_65, rome_model_66]

/-! ## RCCL Rome model matching (`rccl/rome-match.ts`) -/

structure ExtractedTopology where
  nGpus : Nat
  nCpus : Nat
  nNics : Nat
  nLinks : Nat
  gpuNuma : List Nat
  nicNuma : List Nat
  connMatrix : List Nat
  pattern : String
deriving DecidableEq, Repr

def matGet (m : List Nat) (idx : Nat) : Nat := m.getD idx 0

/-- The partial-mesh connectivity construction (rome-match.ts:84-97). -/
def partialMeshRow (nGpus nLinks i : Nat) (mat : List Nat) : List Nat :=
  ((List.range nGpus).foldl (fun (acc : List Nat × Nat) j =>
    if acc.2 ≥ nLinks then acc
    else if i = j then acc
    else if matGet acc.1 (i * nGpus + j) = 0 then
      ((acc.1.set (i * nGpus + j) 1).set (j * nGpus + i) 1, acc.2 + 1)
    else acc) (mat, 0)).1

def extractTopology (config : HardwareConfig) : ExtractedTopology :=
  let nGpus := config.gpu.count
  let nCpus := config.cpu.count
  let nNics := config.nic.count
  let nLinks := min config.gpu.nvlinksPerPair (nGpus - 1)
  let gpuNuma := config.numaMapping.take nGpus
  let nicNuma := (List.range nNics).map (fun i => i % nCpus)
  let connMatrix :=
    if nLinks ≥ nGpus - 1 then
      (List.range nGpus).flatMap (fun i =>
        (List.range nGpus).map (fun j => if i ≠ j then 1 else 0))
    else
      (List.range nGpus).foldl (fun mat i => partialMeshRow nGpus nLinks i mat)
        (List.replicate (nGpus * nGpus) 0)
  let numaGpuCount := fun i => (gpuNuma.filter (fun numa => numa = i)).length
  let numaNicCount := fun i => (nicNuma.filter (fun numa => numa = i)).length
  let pattern := (List.range nCpus).foldl (fun s i =>
    s ++ toString (numaGpuCount i) ++ toString (numaNicCount i)) ""
  { nGpus := nGpus, nCpus := nCpus, nNics := nNics, nLinks := nLinks,
    gpuNuma := gpuNuma, nicNuma := nicNuma, connMatrix := connMatrix,
    pattern := pattern }

def MAX_PERMUTE_TIME : Nat := 100000

def listSwap (l : List Nat) (a b : Nat) : List Nat :=
  (l.set a (l.getD b 0)).set b (l.getD a 0)

/-- The base-case match check of `permuteGpuIds` (rome-match.ts:138-154).
Out-of-range reads are `undefined` in JS and compare equal to each other,
hence the `Option`-valued comparisons. -/
def gpuPermCheck (ref : RcclRomeModel) (topo : ExtractedTopology)
    (perm : List Nat) : Bool :=
  ((List.range ref.nGpus).all (fun i =>
     ref.gpuNuma.get? i = (perm.get? i).bind (fun p => topo.gpuNuma.get? p))) ∧
  ((List.range ref.nGpus).all (fun i =>
     (List.range ref.nGpus).all (fun j =>
       ref.connMatrix.get? (i * ref.nGpus + j) =
         ((perm.get? i).bind (fun pi =>
           (perm.get? j).map (fun pj => pi * ref.nGpus + pj))).bind
           (fun idx => topo.connMatrix.get? idx))))

/-- One swap trial of the permutation search (rome-match.ts:157-170): swap
positions `pos` and `pos + k`, recurse at the next position (`rec` is the
recursion at the next depth), keep the permutation on success, and restore
(the recursion's swap-backs leave `acc.2.1` unchanged) on failure. -/
def permuteTrialStep (rec : List Nat → Nat → Nat → Nat → Bool × List Nat × Nat)
    (pos last : Nat) (acc : Bool × List Nat × Nat) (k : Nat) :
    Bool × List Nat × Nat :=
  if acc.1 then acc
  else
    let i := pos + k
    let r := rec (listSwap acc.2.1 pos i) (pos + 1) last acc.2.2
    if r.1 then r else (false, acc.2.1, r.2.2)

/-- `permuteGpuIds` (rome-match.ts:126-172): exhaustive swap-based permutation
search.  Returns `(found, perm, time)`; on success `perm` is left in the
successful (mid-swap) state, on failure the swap-backs restore it.  The fuel
bounds the `pos` recursion depth; callers supply `nGpus + 1`. -/
def permuteGpuIds (ref : RcclRomeModel) (topo : ExtractedTopology) :
    Nat → List Nat → Nat → Nat → Nat → Bool × List Nat × Nat
  | 0, perm, _, _, time => (false, perm, time)
  | fuel + 1, perm, pos, last, time =>
    let time := time + 1
    if time > MAX_PERMUTE_TIME then (false, perm, time)
    else if pos = last then (gpuPermCheck ref topo perm, perm, time)
    else
      (List.range (last + 1 - pos)).foldl
        (permuteTrialStep (permuteGpuIds ref topo fuel) pos last)
        (false, perm, time)

/-- The base-case check of `permuteNetIds` (NIC NUMA only; rome-match.ts:189-199). -/
def netPermCheck (ref : RcclRomeModel) (topo : ExtractedTopology)
    (perm : List Nat) : Bool :=
  (List.range ref.nNics).all (fun i =>
    ref.nicNuma.get? i = (perm.get? i).bind (fun p => topo.nicNuma.get? p))

/-- `permuteNetIds` (rome-match.ts:177-213). -/
def permuteNetIds (ref : RcclRomeModel) (topo : ExtractedTopology) :
    Nat → List Nat → Nat → Nat → Nat → Bool × List Nat × Nat
  | 0, perm, _, _, time => (false, perm, time)
  | fuel + 1, perm, pos, last, time =>
    let time := time + 1
    if time > MAX_PERMUTE_TIME then (false, perm, time)
    else if pos = last then (netPermCheck ref topo perm, perm, time)
    else
      (List.range (last + 1 - pos)).foldl
        (fun (acc : Bool × List Nat × Nat) k =>
          if acc.1 then acc
          else
            let i := pos + k
            let r := permuteNetIds ref topo fuel (listSwap acc.2.1 pos i)
              (pos + 1) last acc.2.2
            if r.1 then r else (false, acc.2.1, r.2.2))
        (false, perm, time)

/-- The model-index segments of a `ringBase` string: split on `|`, tokenize
each segment on spaces, drop `N`-prefixed (NIC) and non-numeric tokens, and
drop empty segments (the token walk of rome-match.ts:226-249 before the
permutation translation is applied). -/
def ringSegments (ringBase : String) : List (List Nat) :=
  (strSplitOn ringBase '|').foldl (fun (segs : List (List Nat)) ringStr =>
    let tokens := (strSplitOn (strTrim ringStr) ' ').filter (fun t => t ≠ "")
    let idxs : List Nat := tokens.foldl (fun (acc : List Nat) token =>
      if strStartsWith token "N" then acc
      else
        match strToNat token with
        | none => acc
        | some modelIdx => acc ++ [modelIdx]) []
    if idxs.length > 0 then segs ++ [idxs] else segs) []

/-- `parseRingBase` (rome-match.ts:226-254): split on `|`, strip `N` tokens,
translate model GPU indices through the permutation (each surviving token
`modelIdx` becomes `gpu-${gpuPermutation[modelIdx] ?? 0}`). -/
def parseRingBase (ringBase : String) (gpuPermutation : List Nat) :
    List (List String) :=
  (ringSegments ringBase).map (fun seg =>
    seg.map (fun modelIdx => nodeIdGpu (gpuPermutation.getD modelIdx 0)))

structure RomeMatchResult where
  model : RcclRomeModel
  gpuPermutation : List Nat
  nicPermutation : List Nat
  ringGraph : TopoGraph
deriving DecidableEq, Repr

/-- The per-model attempt inside `matchRomeModel`'s loop (rome-match.ts:299-412). -/
def tryRomeModel (config : HardwareConfig) (system : TopoSystem)
    (topo : ExtractedTopology) (model : RcclRomeModel) (log : DLog) :
    Option RomeMatchResult × DLog :=
  let _ := config
  if model.nGpus ≠ topo.nGpus ∨ model.nCpus ≠ topo.nCpus ∨
     model.nNics ≠ topo.nNics ∨ model.nLinks ≠ topo.nLinks ∨
     model.pattern ≠ topo.pattern then
    (none, log)
  else
    let log := logEmit log "romeModelMatch" "Trying model"
      "Pattern matches, attempting GPU permutation" "rome_models.cc:2450"
      ["Skip and try next"]
    let gpuPerm0 := List.range topo.nGpus
    let gr := permuteGpuIds model topo (topo.nGpus + 1) gpuPerm0 0 (topo.nGpus - 1) 0
    if ¬gr.1 then
      (none,
       logEmit log "romeModelMatch" "GPU permutation failed"
         "Connectivity matrix does not match under any GPU permutation"
         "rome_models.cc:2399")
    else
      let gpuPerm := gr.2.1
      let nicPerm0 := List.range topo.nNics
      let nicAttempt :=
        if topo.nNics > 0 then
          let nr := permuteNetIds model topo (topo.nNics + 1) nicPerm0 0 (topo.nNics - 1) 0
          if ¬nr.1 then none else some nr.2.1
        else some ([] : List Nat)
      match nicAttempt with
      | none =>
        (none,
         logEmit log "romeModelMatch" "NIC permutation failed"
           "NIC NUMA assignments do not match under any permutation"
           "rome_models.cc:2437")
      | some nicPerm =>
        let log := logEmit log "romeModelMatch" "Model matched"
          "GPU and NIC permutations found" "rome_models.cc:2460"
        let rings := parseRingBase model.ringBase gpuPerm
        let log := logEmit log "romeModelMatch" "Parsed pre-computed rings from model"
          "Ring orderings" "rome_models.cc:2470"
        let gpus := nbtGet system.nodesByType NodeType.GPU
        let ringBw0 : Q :=
          if gpus.length ≥ 2 then
            match rings.head? with
            | some (a :: b :: _) =>
              ((jsGet system.paths (a ++ "->" ++ b)).map (fun p => p.bandwidth)).getD 0
            | _ => 0
          else 0
        let ringBw := if ringBw0 = 0 then system.maxBw else ringBw0
        let channels := rings.enum.map (fun ri =>
          ({ id := ri.1, bandwidth := ringBw, ringOrder := ri.2 } : GraphChannel))
        let ringGraph : TopoGraph :=
          { id := "rome-match-" ++ model.id, pattern := NCCL_TOPO_PATTERN_RING,
            nChannels := channels.length, channels := channels,
            speedIntra := ringBw, speedInter := 0,
            typeIntra := LinkType.NVL, typeInter := LinkType.NET }
        let log := logEmit log "romeModelMatch" "Rome model ring graph"
          "Using pre-computed orderings, skipping dynamic search"
          "rome_models.cc:2480" ["Fall through to dynamic search instead"]
        (some { model := model, gpuPermutation := gpuPerm,
                nicPermutation := nicPerm, ringGraph := ringGraph }, log)

/-- `matchRomeModel` (rome-match.ts:269-422). -/
def matchRomeModel (config : HardwareConfig) (system : TopoSystem)
    (env : EnvConfig) (log : DLog) : Option RomeMatchResult × DLog :=
  if getEnvInt env "RCCL_MODEL_MATCHING_DISABLE" = 1 then
    (none,
     logEmit log "romeModelMatch" "Rome model matching disabled"
       "Falling through to dynamic graph search" "rome_models.cc:1811")
  else
    let topo := extractTopology config
    let log := logEmit log "romeModelMatch" "Attempting Rome model match"
      "Pattern and counts" "rome_models.cc:2440"
    let r := romeTopoModels.foldl
      (fun (acc : Option RomeMatchResult × DLog) model =>
        match acc.1 with
        | some _ => acc
        | none => tryRomeModel config system topo model acc.2) (none, log)
    match r.1 with
    | some res => (some res, r.2)
    | none =>
      (none,
       logEmit r.2 "romeModelMatch" "No Rome model matched"
         "none matched the topology" "rome_models.cc:2490")

/-! ## Init driver (`init.ts`) -/

/-- `performRingSearch` (init.ts:346-388). -/
def performRingSearch (now : Nat) (system : TopoSystem)
    (minChannels maxChannels _nGpus : Nat) (env : EnvConfig) (log : DLog) :
    TopoGraph × DLog :=
  let ringMaxChannels := max 1 (maxChannels / 2)
  let log := logEmit log "searchInit" "Step 5: Ring search"
    "Searching for Hamiltonian rings through all GPUs" "init.cc:1074"
  let r := ncclTopoCompute now system NCCL_TOPO_PATTERN_RING minChannels
    ringMaxChannels env log
  (r.1, logEmit r.2 "searchInit" "Ring search result" "Ring graph" "init.cc:1082")

/-- Step 5 of `runInit` (init.ts): the ring graph is produced either by the
RCCL Rome-model matcher (when in RCCL mode and a model matches) or by the
dynamic ring search. -/
def runInitRingStep (now : Nat) (config : HardwareConfig) (system : TopoSystem)
    (nGpus minChannels maxChannels : Nat) (env : EnvConfig) (log : DLog)
    (rcclMode : Bool) : TopoGraph × Option String × DLog :=
  if rcclMode then
    let log := logEmit log "searchInit" "Step 5a: Attempting RCCL Rome model match"
      "RCCL mode: checking pre-computed models before expensive search"
      "rome_models.cc:2440"
    let m := matchRomeModel config system env log
    match m.1 with
    | some res =>
      (res.ringGraph, some res.model.id,
       logEmit m.2 "searchInit" "Rome model matched — using pre-computed rings"
         "channels at speed" "rome_models.cc:2480" ["Fall through to dynamic search"])
    | none =>
      let log := logEmit m.2 "searchInit"
        "No Rome model matched — falling through to dynamic ring search"
        "Will use generic NCCL-style ring search for RCCL topology"
        "rome_models.cc:2490"
      let r := performRingSearch now system minChannels maxChannels nGpus env log
      (r.1, none, r.2)
  else
    let r := performRingSearch now system minChannels maxChannels nGpus env log
    (r.1, none, r.2)

def mkGpuNode (i : Nat) : TopoNode :=
  { id := nodeIdGpu i, type := NodeType.GPU, index := i,
    gpu := some { dev := i, rank := i, cudaCompCap := 80, gdrSupport := true } }

/-- Two GPUs with no links and no paths (a disconnected system). -/
def sysNoPaths : TopoSystem :=
  { nodes := [mkGpuNode 0, mkGpuNode 1], links := [], paths := [],
    maxBw := 0, totalBw := 0, inter := false,
    nodesByType := buildNodesByType [mkGpuNode 0, mkGpuNode 1] }

/-- A system identical to `sysNoPaths` except for its advertised bandwidth
stats (`maxBw = 40`, `totalBw = 50`), used to observe the starting speed
index. -/
def sysBw40 : TopoSystem :=
  { sysNoPaths with maxBw := 40, totalBw := 50 }

def mkP (a b : String) (bw : Q) : TopoPath :=
  { fromId := a, toId := b, type := PATH_NVL, bandwidth := bw, hops := [], count := 1 }

/-- Two GPUs joined by 30 GB/s paths in both directions. -/
def sysTwo30 : TopoSystem :=
  { nodes := [mkGpuNode 0, mkGpuNode 1], links := [],
    paths := [(pathKey "gpu-0" "gpu-1", mkP "gpu-0" "gpu-1" 30),
              (pathKey "gpu-1" "gpu-0", mkP "gpu-1" "gpu-0" 30)],
    maxBw := 30, totalBw := 60, inter := false,
    nodesByType := buildNodesByType [mkGpuNode 0, mkGpuNode 1] }

/-- Two GPUs joined by 10 GB/s paths in both directions. -/
def sysTwo10 : TopoSystem :=
  { nodes := [mkGpuNode 0, mkGpuNode 1], links := [],
    paths := [(pathKey "gpu-0" "gpu-1", mkP "gpu-0" "gpu-1" 10),
              (pathKey "gpu-1" "gpu-0", mkP "gpu-1" "gpu-0" 10)],
    maxBw := 10, totalBw := 20, inter := false,
    nodesByType := buildNodesByType [mkGpuNode 0, mkGpuNode 1] }

/-- The search state after `initRemainingBw` on `sysTwo10`. -/
def stTwo10 : SState :=
  initRemainingBw
    { remainingBw := [], channels := [], iterations := 0, globalIterations := 0,
      timedOut := false }
    sysTwo10.paths

/-- A one-channel intra-node ring graph over three GPUs with ring order
`gpu-2, gpu-0, gpu-1`. -/
def rgThree : TopoGraph :=
  { id := "r", pattern := NCCL_TOPO_PATTERN_RING, nChannels := 1,
    channels := [{ id := 0, bandwidth := 10, ringOrder := ["gpu-2", "gpu-0", "gpu-1"] }],
    speedIntra := 10, speedInter := 0, typeIntra := LinkType.NVL,
    typeInter := LinkType.NET }

/-- A configuration whose NUMA mapping references CPU index 1 although only
one CPU (index 0) is configured. -/
def cfgBadNuma : HardwareConfig :=
  { name := "bad",
    gpu := { count := 1, type := "H100", cudaCompCap := 90, nvlinksPerPair := 0,
             gdrSupport := true },
    cpu := { count := 1, arch := CPU_ARCH_X86, vendor := CPU_VENDOR_INTEL, model := 3 },
    nic := { count := 0, speed := 50, gdrSupport := true, collSupport := false },
    pcie := { gen := 5, width := 16, switchesPerCPU := 0 },
    nvswitch := { count := 0 }, numaMapping := [1] }

/-- An MI300X-like 8-GPU configuration that matches a Rome model. -/
def cfgMi300 : HardwareConfig :=
  { name := "mi300x",
    gpu := { count := 8, type := "MI300X", cudaCompCap := 90, nvlinksPerPair := 7,
             gdrSupport := true },
    cpu := { count := 2, arch := CPU_ARCH_X86, vendor := CPU_VENDOR_AMD, model := 3 },
    nic := { count := 0, speed := 50, gdrSupport := true, collSupport := false },
    pcie := { gen := 5, width := 16, switchesPerCPU := 0 },
    nvswitch := { count := 0 }, numaMapping := [0, 0, 0, 0, 1, 1, 1, 1] }

def sysMi300 : TopoSystem := (buildTopoSystem cfgMi300 {} []).1

/-- SPFA expansion fixture: current node `gpu-0` (= source, entry bandwidth 2,
hop count 1) expands a bandwidth-2 NVLink to `gpu-1`, whose stored entry has
bandwidth 1 and hop count 2. -/
def nodeA : TopoNode := mkGpuNode 0

def nodeB : TopoNode := mkGpuNode 1

def linkAB : TopoLink :=
  { fromId := "gpu-0", toId := "gpu-1", type := LinkType.NVL, bandwidth := 2 }

def adjAB : JsMap (List AdjEntry) := [("gpu-0", [(linkAB, nodeB)])]

def nodeMapAB : JsMap TopoNode := [("gpu-0", nodeA), ("gpu-1", nodeB)]

def entCur : SPFAEntry :=
  { nodeId := "gpu-0", pathType := PATH_LOC, bandwidth := 2, hops := [], hopCount := 1 }

def entEx : SPFAEntry :=
  { nodeId := "gpu-1", pathType := PATH_NVL, bandwidth := 1, hops := [], hopCount := 2 }

def bestAB : JsMap SPFAEntry := [("gpu-0", entCur), ("gpu-1", entEx)]

/-! ## Predicates following the specification text (for refinement claims) -/

/-- The domination contract exactly as the spec words it: a new path (with hop
count `newCount`) dominates the stored one iff
`old.bandwidth = 0, or (old.hopCount > new.hopCount and old.bw < new.bw)`.
This follows the spec sentence, to be compared with `spfaReplaceExisting`,
which embeds the source. -/
def spfaSpecReplaces (oldBw : Q) (oldCount newCount : Nat) (newBw : Q) : Bool :=
  oldBw = 0 ∨ (oldCount > newCount ∧ oldBw < newBw)

/-- The parent-to-child edges of the linear chain over `order` that the spec
describes for tree channels: the first element is the root and every element's
parent is the previous element. -/
def chainPairs (order : List String) : List (String × String) :=
  order.zip order.tail

/-- The entry one SPFA expansion writes for the neighbor when the domination
check accepts (spelled out for the statements below). -/
def spfaNewEntry (current neighbor : TopoNode) (link : TopoLink)
    (curEntry : SPFAEntry) : SPFAEntry :=
  { nodeId := neighbor.id,
    pathType := classifyHop current neighbor link.type curEntry.pathType
      (curEntry.hopCount + 1),
    bandwidth := min curEntry.bandwidth link.bandwidth,
    hops := curEntry.hops ++
      [{ linkType := link.type, bandwidth := link.bandwidth, nodeId := neighbor.id }],
    hopCount := curEntry.hopCount + 1 }

/-- `m` has an entry for every path key of `paths`. -/
def covers (paths : JsMap TopoPath) (m : JsMap Q) : Prop :=
  ∀ e ∈ paths, (jsGet m e.1).isSome = true

instance (paths : JsMap TopoPath) (m : JsMap Q) : Decidable (covers paths m) :=
  inferInstanceAs (Decidable (∀ e ∈ paths, (jsGet m e.1).isSome = true))

theorem covers_of_get {paths : JsMap TopoPath} {m : JsMap Q}
    (h : covers paths m) (k : String) (hk : (jsGet paths k).isSome = true) :
    (jsGet m k).isSome = true := by
  unfold jsGet at hk
  rcases hf : paths.find? (fun e => e.1 = k) with _ | e
  · rw [hf] at hk; simp at hk
  · have hmem := List.mem_of_find?_eq_some hf
    have hkey : e.1 = k := by simpa using List.find?_some hf
    rw [← hkey]
    exact h e hmem

theorem covers_jsSet {paths : JsMap TopoPath} {m : JsMap Q}
    (h : covers paths m) (k : String) (v : Q) : covers paths (jsSet m k v) :=
  fun e he => isSome_jsGet_jsSet _ _ _ _ (h e he)

theorem covers_getPath {system : TopoSystem} {m : JsMap Q}
    (h : covers system.paths m) {a b : String} {p : TopoPath}
    (hp : getPath system a b = some p) :
    (jsGet m (pathKey a b)).isSome = true := by
  apply covers_of_get h
  unfold getPath at hp
  simp [hp]

theorem jsGet_isSome_foldl_set (l : JsMap TopoPath) :
    ∀ (m : JsMap Q) (k : String), (jsGet m k).isSome = true →
      (jsGet (l.foldl (fun m e => jsSet m e.1 e.2.bandwidth) m) k).isSome = true := by
  induction l with
  | nil => intro m k h; exact h
  | cons e t ih =>
    intro m k h
    exact ih _ _ (isSome_jsGet_jsSet _ _ _ _ h)

theorem covers_initRemainingBw (st : SState) (paths : JsMap TopoPath) :
    covers paths (initRemainingBw st paths).remainingBw := by
  unfold initRemainingBw
  suffices hgen : ∀ (l : JsMap TopoPath) (m : JsMap Q), ∀ e ∈ l,
      (jsGet (l.foldl (fun m e => jsSet m e.1 e.2.bandwidth) m) e.1).isSome = true by
    intro e he
    exact hgen paths st.remainingBw e he
  intro l
  induction l with
  | nil => intro m e he; simp at he
  | cons hd t ih =>
    intro m e he
    rcases List.mem_cons.mp he with he | he
    · subst he
      exact jsGet_isSome_foldl_set t _ _ (by simp [jsGet_jsSet_self])
    · exact ih _ e he

theorem covers_consumeStep {system : TopoSystem} (ring : List String) (speed : Q)
    {st : SState} (i : Nat) (h : covers system.paths st.remainingBw) :
    covers system.paths (consumeStep system ring speed st i).remainingBw := by
  simp only [consumeStep]
  rcases hp : getPath system (ring.getD i "") (ring.getD ((i + 1) % ring.length) "")
    with _ | p
  · exact h
  · exact covers_jsSet h _ _

theorem covers_foldl_consumeStep {system : TopoSystem} (ring : List String)
    (speed : Q) : ∀ (l : List Nat) (st : SState),
    covers system.paths st.remainingBw →
    covers system.paths ((l.foldl (consumeStep system ring speed) st)).remainingBw := by
  intro l
  induction l with
  | nil => intro st h; exact h
  | cons i t ih =>
    intro st h
    exact ih _ (covers_consumeStep ring speed i h)

theorem covers_consumeRingBandwidth {system : TopoSystem} (ring : List String)
    (speed : Q) {st : SState} (h : covers system.paths st.remainingBw) :
    covers system.paths (consumeRingBandwidth system ring speed st).remainingBw := by
  unfold consumeRingBandwidth
  exact covers_foldl_consumeStep ring speed _ _ h

/-! ## Small list facts -/

theorem insertSorted_perm {α : Type} (le : α → α → Bool) (x : α) :
    ∀ l : List α, (insertSorted le x l).Perm (x :: l) := by
  intro l
  induction l with
  | nil => simp [insertSorted]
  | cons y ys ih =>
    by_cases h : le x y
    · simp [insertSorted, h]
    · simp only [insertSorted, if_neg h]
      exact (ih.cons y).trans (List.Perm.swap x y ys)

theorem stableSort_perm {α : Type} (le : α → α → Bool) :
    ∀ l : List α, (stableSort le l).Perm l := by
  intro l
  induction l with
  | nil => exact List.Perm.refl _
  | cons x xs ih =>
    exact (insertSorted_perm le x (stableSort le xs)).trans (ih.cons x)

theorem mem_of_mem_stableSort {α : Type} {le : α → α → Bool} {x : α} {l : List α}
    (h : x ∈ stableSort le l) : x ∈ l :=
  (stableSort_perm le l).mem_iff.mp h

theorem getD_set_self_eq (l : List Nat) :
    ∀ i, i < l.length → l.set i (l.getD i 0) = l := by
  induction l with
  | nil => intro i h; simp at h
  | cons x xs ih =>
    intro i h
    cases i with
    | zero => simp
    | succ j =>
      simp only [List.getD_cons_succ, List.set_cons_succ, List.cons.injEq, true_and]
      exact ih j (by simpa using h)

theorem swap_head_perm (x : Nat) :
    ∀ (xs : List Nat) (b : Nat), b < xs.length →
      ((xs.getD b 0) :: xs.set b x).Perm (x :: xs) := by
  intro xs
  induction xs with
  | nil => intro b h; simp at h
  | cons y ys ih =>
    intro b h
    cases b with
    | zero => simpa using List.Perm.swap x y ys
    | succ b' =>
      simp only [List.getD_cons_succ, List.set_cons_succ]
      exact (List.Perm.swap _ _ _).trans
        (((ih b' (by simpa using h)).cons y).trans (List.Perm.swap _ _ _))

theorem listSwap_perm : ∀ (l : List Nat) (a b : Nat), a < l.length → b < l.length →
    (listSwap l a b).Perm l := by
  intro l a
  induction l generalizing a with
  | nil => intro b ha; simp at ha
  | cons x xs ih =>
    intro b ha hb
    by_cases hab : a = b
    · subst hab
      unfold listSwap
      rw [List.set_set, getD_set_self_eq _ _ ha]
    · cases a with
      | zero =>
        cases b with
        | zero => exact absurd rfl hab
        | succ b' =>
          unfold listSwap
          simp only [List.getD_cons_zero, List.getD_cons_succ, List.set_cons_zero,
            List.set_cons_succ]
          exact swap_head_perm x xs b' (by simpa using hb)
      | succ a' =>
        cases b with
        | zero =>
          unfold listSwap
          rw [List.set_comm _ _ _ hab]
          simp only [List.getD_cons_zero, List.getD_cons_succ, List.set_cons_zero,
            List.set_cons_succ]
          exact swap_head_perm x xs a' (by simpa using ha)
        | succ b' =>
          unfold listSwap
          simp only [List.getD_cons_succ, List.set_cons_succ]
          exact (ih a' b' (by simpa using ha) (by simpa using hb)).cons x

theorem listSwap_length (l : List Nat) (a b : Nat) :
    (listSwap l a b).length = l.length := by
  simp [listSwap]

theorem map_getD_range {α : Type} (l : List α) (d : α) :
    (List.range l.length).map (fun t => l.getD t d) = l := by
  induction l with
  | nil => simp
  | cons x xs ih =>
    rw [List.length_cons, List.range_succ_eq_map]
    simp only [List.map_cons, List.getD_cons_zero, List.map_map]
    refine congrArg (fun t => x :: t) ?_
    rw [show ((fun t => (x :: xs).getD t d) ∘ Nat.succ) = (fun t => xs.getD t d)
      from rfl, ih]

/-! ## Search invariants: candidates -/

def gpuIds (gpus : List TopoNode) : List String := gpus.map TopoNode.id

/-- Injectivity of `pathKey` on the GPU ids of the search (true of the
`gpu-<i>` ids real systems use; hypothesised where the proofs need it). -/
def pkInj (gpus : List TopoNode) : Prop :=
  ∀ a ∈ gpuIds gpus, ∀ b ∈ gpuIds gpus, ∀ c ∈ gpuIds gpus, ∀ d ∈ gpuIds gpus,
    pathKey a b = pathKey c d → a = c ∧ b = d

instance (gpus : List TopoNode) : Decidable (pkInj gpus) :=
  inferInstanceAs (Decidable (∀ a ∈ gpuIds gpus, ∀ b ∈ gpuIds gpus,
    ∀ c ∈ gpuIds gpus, ∀ d ∈ gpuIds gpus, pathKey a b = pathKey c d → a = c ∧ b = d))

theorem candidateStep_spec (system : TopoSystem) (visited : List String)
    (current first : TopoNode) (isLast : Bool) (requiredBw : Q) (rem : JsMap Q)
    (acc : List GpuScore) (gpu : TopoNode) :
    ∀ s ∈ candidateStep system visited current first isLast requiredBw rem acc gpu,
      s ∈ acc ∨ (visited.contains gpu.id = false ∧
        (getPath system current.id gpu.id).isSome = true ∧
        s = scoreGpu system current gpu first isLast) := by
  intro s hs
  by_cases hv : visited.contains gpu.id = true
  · rw [candidateStep, if_pos hv] at hs
    exact Or.inl hs
  · rw [candidateStep, if_neg hv] at hs
    rcases hp : getPath system current.id gpu.id with _ | p
    · rw [hp] at hs
      exact Or.inl hs
    · rw [hp] at hs
      simp only at hs
      have hfin : s ∈ acc ∨ s = scoreGpu system current gpu first isLast := by
        split at hs
        · exact Or.inl hs
        · split at hs
          · rcases hcp : getPath system gpu.id first.id with _ | cp
            · rw [hcp] at hs
              exact Or.inl hs
            · rw [hcp] at hs
              simp only at hs
              split at hs
              · exact Or.inl hs
              · rcases List.mem_append.mp hs with h | h
                · exact Or.inl h
                · exact Or.inr (by simpa using h)
          · rcases List.mem_append.mp hs with h | h
            · exact Or.inl h
            · exact Or.inr (by simpa using h)
      rcases hfin with h | h
      · exact Or.inl h
      · exact Or.inr ⟨by simpa using hv, by simp [hp], h⟩

theorem collectCandidates_spec (system : TopoSystem) (gpus : List TopoNode)
    (visited : List String) (current first : TopoNode) (isLast : Bool)
    (requiredBw : Q) (rem : JsMap Q) :
    ∀ s ∈ collectCandidates system gpus visited current first isLast requiredBw rem,
      ∃ g, g ∈ gpus ∧ visited.contains g.id = false ∧
        (getPath system current.id g.id).isSome = true ∧ s.g = g.index := by
  unfold collectCandidates
  suffices hgen : ∀ (l : List TopoNode), (∀ g ∈ l, g ∈ gpus) →
      ∀ (acc : List GpuScore),
      (∀ s ∈ acc, ∃ g, g ∈ gpus ∧ visited.contains g.id = false ∧
        (getPath system current.id g.id).isSome = true ∧ s.g = g.index) →
      ∀ s ∈ l.foldl (candidateStep system visited current first isLast requiredBw rem)
          acc,
        ∃ g, g ∈ gpus ∧ visited.contains g.id = false ∧
          (getPath system current.id g.id).isSome = true ∧ s.g = g.index by
    exact fun s hs => hgen gpus (fun g hg => hg) [] (by simp) s hs
  intro l
  induction l with
  | nil => intro hsub acc hacc s hs; exact hacc s hs
  | cons g t ih =>
    intro hsub acc hacc s hs
    rw [List.foldl_cons] at hs
    refine ih (fun g' hg' => hsub g' (List.mem_cons_of_mem g hg')) _ ?_ s hs
    intro s' hs'
    rcases candidateStep_spec system visited current first isLast requiredBw rem
        acc g s' hs' with h | ⟨hv, hp, hsc⟩
    · exact hacc s' h
    · exact ⟨g, hsub g (List.mem_cons_self g t), hv, hp, by rw [hsc]; rfl⟩

/-! ## Search invariants: the backtracking recursion -/

/-- What holds of a ring returned by `searchRingRec` relative to the prefix
`path` (with last element `currentId`) it was called with: the ring extends
`path` by fresh GPU ids to full length, every consecutive edge of the
extension has a path, the closing edge back to `firstId` has a path, and —
when `pathKey` is injective on the GPU ids — the remaining-bandwidth map
`mNew` equals the entry map `m₀` with exactly the extension's forward edges
decremented by `requiredBw`. -/
def srSomeSpec (system : TopoSystem) (gpus : List TopoNode) (path : List String)
    (currentId firstId : String) (requiredBw : Q) (m₀ : JsMap Q)
    (ring : List String) (mNew : JsMap Q) : Prop :=
  ∃ ext,
    ring = path ++ ext ∧
    ring.length = gpus.length ∧
    (∀ x ∈ ext, x ∈ gpuIds gpus ∧ x ∉ path) ∧
    ext.Nodup ∧
    (∀ pr ∈ (currentId :: ext).zip ext, (getPath system pr.1 pr.2).isSome = true) ∧
    (getPath system (ring.getLast?.getD "") firstId).isSome = true ∧
    (pkInj gpus →
      ∀ k, jsGet mNew k =
        if k ∈ ((currentId :: ext).zip ext).map (fun pr => pathKey pr.1 pr.2)
        then (jsGet m₀ k).map (fun v => v - requiredBw)
        else jsGet m₀ k)

/-- The full contract of one `searchRingRec` call (relative to the state `st₀`
it was entered with): recorded channels are untouched, coverage of the
remaining-bandwidth map is maintained, failure restores the map exactly, and
success satisfies `srSomeSpec`. -/
def srSpec (system : TopoSystem) (gpus : List TopoNode) (path : List String)
    (currentId firstId : String) (requiredBw : Q) (st₀ : SState)
    (r : Option (List String) × SState) : Prop :=
  r.2.channels = st₀.channels ∧
  covers system.paths r.2.remainingBw ∧
  (r.1 = none → ∀ k, jsGet r.2.remainingBw k = jsGet st₀.remainingBw k) ∧
  (∀ ring, r.1 = some ring →
    srSomeSpec system gpus path currentId firstId requiredBw st₀.remainingBw ring
      r.2.remainingBw)

theorem contains_eq_false_iff (l : List String) (a : String) :
    l.contains a = false ↔ a ∉ l := by
  rw [← Bool.not_eq_true]
  exact not_congr List.elem_iff

theorem mem_of_getLast?_eq_some {l : List String} {a : String}
    (h : l.getLast? = some a) : a ∈ l := by
  induction l with
  | nil => simp at h
  | cons x xs ih =>
    cases xs with
    | nil =>
      simp only [List.getLast?_singleton, Option.some.injEq] at h
      simp [h]
    | cons y ys =>
      rw [List.getLast?_cons_cons] at h
      exact List.mem_cons_of_mem x (ih h)

theorem sstate_rem_update (st : SState) (m : JsMap Q) :
    ({ st with remainingBw := m } : SState).remainingBw = m := rfl

/-- Preservation of `srSpec` along the candidate fold of `searchRingRec`,
given that the recursion at the next depth (`rec`) satisfies the contract. -/
theorem searchRingStep_foldl_spec (system : TopoSystem) (gpus : List TopoNode)
    (first : TopoNode) (requiredBw : Q) (timeout : Nat)
    (Hidx : ∀ g ∈ gpus, gpus[g.index]? = some g)
    (rec : List String → TopoNode → TopoNode → List String → Q → SState → Nat →
      Option (List String) × SState)
    (Hrec : ∀ (p : List String) (cur : TopoNode) (stN : SState),
      covers system.paths stN.remainingBw → p.Nodup → p.getLast? = some cur.id →
      (∀ x ∈ p, x ∈ gpuIds gpus) →
      srSpec system gpus p cur.id first.id requiredBw stN
        (rec p cur first p requiredBw stN timeout))
    (path : List String) (current : TopoNode) (st₀ : SState)
    (Hpath : path.Nodup) (Hlast : path.getLast? = some current.id)
    (Hsub : ∀ x ∈ path, x ∈ gpuIds gpus) :
    ∀ (l : List GpuScore),
      (∀ s ∈ l, ∃ g, g ∈ gpus ∧ g.id ∉ path ∧
        (getPath system current.id g.id).isSome = true ∧ s.g = g.index) →
      ∀ (acc : TryAcc),
        srSpec system gpus path current.id first.id requiredBw st₀
          (acc.result, acc.st) →
        srSpec system gpus path current.id first.id requiredBw st₀
          ((l.foldl (searchRingStep system gpus rec path current first path requiredBw
              timeout) acc).result,
           (l.foldl (searchRingStep system gpus rec path current first path requiredBw
              timeout) acc).st) := by
  intro l
  induction l with
  | nil => intro _ acc hacc; exact hacc
  | cons s t ih =>
    intro hcand acc hacc
    rw [List.foldl_cons]
    refine ih (fun s' hs' => hcand s' (List.mem_cons_of_mem s hs')) _ ?_
    by_cases hskip : acc.result.isSome = true ∨ acc.stopped = true
    · rw [searchRingStep, if_pos hskip]
      exact hacc
    · obtain ⟨g, hg, hgv, hgp, hsg⟩ := hcand s (List.mem_cons_self s t)
      obtain ⟨p, hp⟩ := Option.isSome_iff_exists.mp hgp
      obtain ⟨hch, hcov, hnone, _⟩ := hacc
      have hresnone : acc.result = none :=
        Option.not_isSome_iff_eq_none.mp (fun hh => hskip (Or.inl hh))
      have hmaps0 : ∀ k, jsGet acc.st.remainingBw k = jsGet st₀.remainingBw k :=
        hnone hresnone
      have hksome : (jsGet acc.st.remainingBw (pathKey current.id g.id)).isSome = true :=
        covers_getPath hcov hp
      obtain ⟨v, hv⟩ := Option.isSome_iff_exists.mp hksome
      rw [searchRingStep, if_neg hskip, hsg, Hidx g hg]
      simp only [hv, Option.getD_some]
      have hcov1 : covers system.paths
          (jsSet acc.st.remainingBw (pathKey current.id g.id) (v - requiredBw)) :=
        covers_jsSet hcov _ _
      have hnd1 : (path ++ [g.id]).Nodup := by
        simp [List.nodup_append, Hpath, hgv]
      have hlast1 : (path ++ [g.id]).getLast? = some g.id := by
        simp
      have hsub1 : ∀ x ∈ path ++ [g.id], x ∈ gpuIds gpus := by
        intro x hx
        rcases List.mem_append.mp hx with hx | hx
        · exact Hsub x hx
        · simp only [List.mem_singleton] at hx
          subst hx
          exact List.mem_map_of_mem TopoNode.id hg
      have hcurmem : current.id ∈ path := mem_of_getLast?_eq_some Hlast
      have hr := Hrec (path ++ [g.id]) g { acc.st with remainingBw := jsSet acc.st.remainingBw (pathKey current.id g.id) (v - requiredBw) } hcov1 hnd1 hlast1 hsub1
      set res := rec (path ++ [g.id]) g first (path ++ [g.id]) requiredBw { acc.st with remainingBw := jsSet acc.st.remainingBw (pathKey current.id g.id) (v - requiredBw) } timeout with hresdef
      obtain ⟨hrch, hrcov, hrnone, hrsome⟩ := hr
      have hconskeys : ∀ (ext'' : List String),
          ((current.id :: g.id :: ext'').zip (g.id :: ext'')).map
              (fun pr => pathKey pr.1 pr.2) =
            pathKey current.id g.id ::
              ((g.id :: ext'').zip ext'').map (fun pr => pathKey pr.1 pr.2) :=
        fun _ => rfl
      rcases hor : res.1 with _ | r
      · refine ⟨hrch.trans hch, covers_jsSet hrcov _ _, ?_, ?_⟩
        · intro _ k
          by_cases hk : k = pathKey current.id g.id
          · subst hk
            rw [jsGet_jsSet_self, ← hmaps0 _, hv]
          · rw [jsGet_jsSet_ne _ _ _ _ hk, hrnone hor k]
            simp only [sstate_rem_update]
            rw [jsGet_jsSet_ne _ _ _ _ hk, hmaps0 k]
        · intro ring habs
          exact absurd habs (by simp)
      · refine ⟨hrch.trans hch, hrcov, ?_, ?_⟩
        · intro habs
          exact absurd habs (by simp)
        · intro ring hring
          obtain rfl : r = ring := by simpa using hring
          obtain ⟨ext', hr_eq, hlen, hxt, hnd', hpairs, hclose, hmap⟩ := hrsome r hor
          refine ⟨g.id :: ext', ?_, hlen, ?_, ?_, ?_, hclose, ?_⟩
          · rw [hr_eq]
            simp
          · intro x hx
            rcases List.mem_cons.mp hx with hx | hx
            · subst hx
              exact ⟨List.mem_map_of_mem TopoNode.id hg, hgv⟩
            · obtain ⟨hxi, hxp⟩ := hxt x hx
              exact ⟨hxi, fun hc => hxp (List.mem_append_left _ hc)⟩
          · refine List.nodup_cons.mpr ⟨?_, hnd'⟩
            intro hgm
            exact (hxt _ hgm).2 (by simp)
          · intro pr hpr
            rcases List.mem_cons.mp hpr with hpr | hpr
            · subst hpr
              exact hgp
            · exact hpairs pr hpr
          · intro hpk k
            have hmap' := hmap hpk k
            have hcurids : current.id ∈ gpuIds gpus := Hsub _ hcurmem
            have hgids : g.id ∈ gpuIds gpus := List.mem_map_of_mem TopoNode.id hg
            have hfwdnot : pathKey current.id g.id ∉
                ((g.id :: ext').zip ext').map (fun pr => pathKey pr.1 pr.2) := by
              intro hmemk
              obtain ⟨pr, hprmem, hpreq⟩ := List.mem_map.mp hmemk
              obtain ⟨hpr1, hpr2⟩ := List.of_mem_zip hprmem
              have hpr1ids : pr.1 ∈ gpuIds gpus := by
                rcases List.mem_cons.mp hpr1 with h1 | h1
                · rw [h1]; exact hgids
                · exact (hxt _ h1).1
              have hpr2ids : pr.2 ∈ gpuIds gpus := (hxt _ hpr2).1
              obtain ⟨he1, _⟩ := hpk pr.1 hpr1ids pr.2 hpr2ids current.id hcurids
                g.id hgids hpreq
              rcases List.mem_cons.mp hpr1 with h1 | h1
              · rw [h1] at he1
                exact hgv (he1 ▸ hcurmem)
              · exact (hxt _ h1).2 (List.mem_append_left _ (he1 ▸ hcurmem))
            by_cases hk : k = pathKey current.id g.id
            · subst hk
              rw [hmap', if_neg hfwdnot]
              simp only [sstate_rem_update]
              rw [jsGet_jsSet_self,
                if_pos (by rw [hconskeys ext']; exact List.mem_cons_self _ _),
                ← hmaps0 _, hv]
              rfl
            · rw [hmap']
              simp only [sstate_rem_update]
              have hmemiff :
                  (k ∈ ((current.id :: g.id :: ext').zip (g.id :: ext')).map
                    (fun pr => pathKey pr.1 pr.2)) ↔
                  (k ∈ ((g.id :: ext').zip ext').map (fun pr => pathKey pr.1 pr.2)) := by
                rw [hconskeys ext']
                simp [hk]
              by_cases hk2 : k ∈ ((g.id :: ext').zip ext').map
                  (fun pr => pathKey pr.1 pr.2)
              · rw [if_pos hk2, if_pos (hmemiff.mpr hk2),
                  jsGet_jsSet_ne _ _ _ _ hk, hmaps0 k]
              · rw [if_neg hk2, if_neg (fun hc => hk2 (hmemiff.mp hc)),
                  jsGet_jsSet_ne _ _ _ _ hk, hmaps0 k]

/-- The backtracking search satisfies its contract, for every fuel value. -/
theorem searchRingRec_spec (system : TopoSystem) (gpus : List TopoNode)
    (first : TopoNode) (requiredBw : Q) (timeout : Nat)
    (Hidx : ∀ g ∈ gpus, gpus[g.index]? = some g) :
    ∀ (fuel : Nat) (path : List String) (current : TopoNode) (st : SState),
      covers system.paths st.remainingBw → path.Nodup →
      path.getLast? = some current.id → (∀ x ∈ path, x ∈ gpuIds gpus) →
      srSpec system gpus path current.id first.id requiredBw st
        (searchRingRec system gpus fuel path current first path requiredBw st
          timeout) := by
  intro fuel
  induction fuel with
  | zero =>
    intro path current st hcov hnd hlast hsub
    exact ⟨rfl, hcov, fun _ k => rfl, fun ring h => Option.noConfusion h⟩
  | succ fuel ih =>
    intro path current st hcov hnd hlast hsub
    simp only [searchRingRec]
    split
    · exact ⟨rfl, hcov, fun _ k => rfl, fun ring h => Option.noConfusion h⟩
    · split
      · rename_i hlen
        split
        · exact ⟨rfl, hcov, fun _ k => rfl, fun ring h => Option.noConfusion h⟩
        · rename_i cp hcp
          split
          · exact ⟨rfl, hcov, fun _ k => rfl, fun ring h => Option.noConfusion h⟩
          · refine ⟨rfl, hcov, fun h => absurd h (by simp), ?_⟩
            intro ring h
            obtain rfl : path = ring := by simpa using h
            refine ⟨[], by simp, hlen, by simp, List.nodup_nil, by simp, ?_, ?_⟩
            · rw [hlast]
              simp [hcp]
            · intro _ k
              simp
      · refine searchRingStep_foldl_spec system gpus first requiredBw timeout Hidx
          (searchRingRec system gpus fuel)
          (fun p cur stN hc hn hl hsb => ih p cur stN hc hn hl hsb)
          path current st hnd hlast hsub _ ?_ _ ?_
        · intro s hs
          obtain ⟨g, hg, hgv, hgp, hsg⟩ := collectCandidates_spec system gpus path
            current first _ requiredBw _ s (mem_of_mem_stableSort hs)
          exact ⟨g, hg, (contains_eq_false_iff _ _).mp hgv, hgp, hsg⟩
        · exact ⟨rfl, hcov, fun _ k => rfl, fun ring h => Option.noConfusion h⟩

/-- The swap-based permutation search always returns a permutation of the
list it started from (`last` in bounds, or no swap possible). -/
theorem permuteGpuIds_perm (ref : RcclRomeModel) (topo : ExtractedTopology) :
    ∀ (fuel : Nat) (perm : List Nat) (pos last time : Nat),
      (last < perm.length ∨ last ≤ pos) →
      (permuteGpuIds ref topo fuel perm pos last time).2.1.Perm perm := by
  intro fuel
  induction fuel with
  | zero => intro perm pos last time _; exact List.Perm.refl _
  | succ fuel ih =>
    intro perm pos last time hb
    simp only [permuteGpuIds]
    split
    · exact List.Perm.refl _
    · split
      · exact List.Perm.refl _
      · rename_i hpos
        have hfold : ∀ (ks : List Nat), (∀ k ∈ ks, k < last + 1 - pos) →
            ∀ (acc : Bool × List Nat × Nat), acc.2.1.Perm perm →
            ((ks.foldl (permuteTrialStep (permuteGpuIds ref topo fuel) pos last)
              acc)).2.1.Perm perm := by
          intro ks
          induction ks with
          | nil => intro _ acc h; exact h
          | cons k t iht =>
            intro hks acc hacc
            rw [List.foldl_cons]
            refine iht (fun k' hk' => hks k' (List.mem_cons_of_mem k hk')) _ ?_
            by_cases h1 : acc.1 = true
            · rw [permuteTrialStep, if_pos h1]
              exact hacc
            · rw [permuteTrialStep, if_neg h1]
              have hk := hks k (List.mem_cons_self k t)
              have hlastlen : last < perm.length := by
                rcases hb with h | h
                · exact h
                · omega
              have hlen : acc.2.1.length = perm.length := hacc.length_eq
              have hp1 : pos < acc.2.1.length := by
                rw [hlen]
                omega
              have hp2 : pos + k < acc.2.1.length := by
                rw [hlen]
                omega
              have hswap : (listSwap acc.2.1 pos (pos + k)).Perm acc.2.1 :=
                listSwap_perm _ _ _ hp1 hp2
              have hchild := ih (listSwap acc.2.1 pos (pos + k)) (pos + 1) last
                acc.2.2 (Or.inl (by rw [listSwap_length, hlen]; exact hlastlen))
              show ((if (permuteGpuIds ref topo fuel (listSwap acc.2.1 pos (pos + k))
                  (pos + 1) last acc.2.2).1 = true
                then permuteGpuIds ref topo fuel (listSwap acc.2.1 pos (pos + k))
                  (pos + 1) last acc.2.2
                else (false, acc.2.1, (permuteGpuIds ref topo fuel
                  (listSwap acc.2.1 pos (pos + k)) (pos + 1) last
                  acc.2.2).2.2))).2.1.Perm perm
              split
              · exact hchild.trans (hswap.trans hacc)
              · exact hacc
        exact hfold _ (fun k hk => List.mem_range.mp hk) _ (List.Perm.refl _)

/-! ## Every recorded ring is a permutation of the GPU ids -/

/-- One start attempt: channels untouched, coverage kept, and any found ring
is a permutation of the GPU id list. -/
theorem searchRingFromStart_perm (system : TopoSystem) (gpus : List TopoNode)
    (startGpu : TopoNode) (requiredBw : Q) (st : SState) (timeout : Nat)
    (Hidx : ∀ g ∈ gpus, gpus[g.index]? = some g) (hstart : startGpu ∈ gpus)
    (hcov : covers system.paths st.remainingBw) :
    (searchRingFromStart system gpus startGpu requiredBw st timeout).2.channels
        = st.channels ∧
    covers system.paths
      (searchRingFromStart system gpus startGpu requiredBw st timeout).2.remainingBw ∧
    (∀ ring,
      (searchRingFromStart system gpus startGpu requiredBw st timeout).1 = some ring →
      ring.Perm (gpuIds gpus)) := by
  have hspec := searchRingRec_spec system gpus startGpu requiredBw timeout Hidx
    (gpus.length + 1) [startGpu.id] startGpu st hcov (by simp) (by simp)
    (by
      intro x hx
      simp only [List.mem_singleton] at hx
      subst hx
      exact List.mem_map_of_mem TopoNode.id hstart)
  obtain ⟨hch, hcov', hnone, hsome⟩ := hspec
  refine ⟨hch, hcov', ?_⟩
  intro ring hr
  obtain ⟨ext, heq, hlen, hxt, hnd, _, _, _⟩ := hsome ring hr
  have hndr : ring.Nodup := by
    rw [heq]
    refine List.nodup_cons.mpr ⟨?_, hnd⟩
    intro hm
    exact (hxt _ hm).2 (by simp)
  have hsubr : ∀ x ∈ ring, x ∈ gpuIds gpus := by
    intro x hx
    rw [heq] at hx
    rcases List.mem_append.mp hx with hx | hx
    · simp only [List.mem_singleton] at hx
      subst hx
      exact List.mem_map_of_mem TopoNode.id hstart
    · exact (hxt _ hx).1
  have hlen2 : (gpuIds gpus).length ≤ ring.length := by
    rw [hlen]
    simp [gpuIds]
  exact List.Subperm.perm_of_length_le
    (List.subperm_of_subset hndr (fun _ hx => hsubr _ hx)) hlen2

/-- The per-start loop: channels untouched, coverage kept, found rings are
permutations. -/
theorem searchStartLoop_perm (system : TopoSystem) (gpus : List TopoNode)
    (requiredBw : Q) (timeout : Nat)
    (Hidx : ∀ g ∈ gpus, gpus[g.index]? = some g) :
    ∀ (starts : List TopoNode), (∀ g ∈ starts, g ∈ gpus) →
    ∀ (st : SState), covers system.paths st.remainingBw →
      ((searchStartLoop system gpus requiredBw timeout starts st).2.channels
          = st.channels) ∧
      covers system.paths
        (searchStartLoop system gpus requiredBw timeout starts st).2.remainingBw ∧
      (∀ ring, (searchStartLoop system gpus requiredBw timeout starts st).1 = some ring →
        ring.Perm (gpuIds gpus)) := by
  intro starts
  induction starts with
  | nil =>
    intro _ st hcov
    exact ⟨rfl, hcov, fun ring h => Option.noConfusion h⟩
  | cons g rest ihs =>
    intro hsub st hcov
    obtain ⟨hch, hcov', hperm⟩ := searchRingFromStart_perm system gpus g requiredBw st
      timeout Hidx (hsub g (List.mem_cons_self g rest)) hcov
    simp only [searchStartLoop]
    rcases hres : searchRingFromStart system gpus g requiredBw st timeout with ⟨or, st2⟩
    rw [hres] at hch hcov' hperm
    rcases or with _ | r
    · show ((if st2.timedOut = true then (none, st2)
          else searchStartLoop system gpus requiredBw timeout rest st2).2.channels
            = st.channels) ∧
        covers system.paths (if st2.timedOut = true then (none, st2)
          else searchStartLoop system gpus requiredBw timeout rest st2).2.remainingBw ∧
        (∀ ring, (if st2.timedOut = true then (none, st2)
          else searchStartLoop system gpus requiredBw timeout rest st2).1 = some ring →
          ring.Perm (gpuIds gpus))
      split
      · exact ⟨hch, hcov', fun ring h => Option.noConfusion h⟩
      · obtain ⟨hch2, hcov2, hperm2⟩ :=
          ihs (fun g' hg' => hsub g' (List.mem_cons_of_mem g hg')) st2 hcov'
        exact ⟨hch2.trans hch, hcov2, hperm2⟩
    · refine ⟨hch, hcov', ?_⟩
      intro ring h
      obtain rfl : r = ring := by simpa using h
      exact hperm r rfl

theorem consumeStep_channels (system : TopoSystem) (ring : List String) (speed : Q)
    (st : SState) (i : Nat) :
    (consumeStep system ring speed st i).channels = st.channels := by
  simp only [consumeStep]
  split <;> rfl

theorem consumeRing_channels (system : TopoSystem) (ring : List String) (speed : Q)
    (st : SState) :
    (consumeRingBandwidth system ring speed st).channels = st.channels := by
  unfold consumeRingBandwidth
  generalize List.range ring.length = l
  induction l generalizing st with
  | nil => rfl
  | cons i t ih =>
    rw [List.foldl_cons]
    exact (ih _).trans (consumeStep_channels system ring speed st i)

theorem tryReusedRing_eq_some {system : TopoSystem} {ring : List String} {speed : Q}
    {st : SState} {r : List String}
    (h : tryReusedRing system ring speed st = some r) : r = ring := by
  unfold tryReusedRing at h
  split at h
  · exact (Option.some.inj h).symm
  · exact Option.noConfusion h

/-- The channel loop only records permutation rings. -/
theorem searchChannelsLoop_perm (system : TopoSystem) (gpus : List TopoNode)
    (speed : Q) (timeout sameChannels : Nat)
    (Hidx : ∀ g ∈ gpus, gpus[g.index]? = some g) :
    ∀ (cnt : Nat) (firstRing : Option (List String)) (ch found : Nat) (st : SState),
      covers system.paths st.remainingBw →
      (∀ c ∈ st.channels, c.ringOrder.Perm (gpuIds gpus)) →
      (∀ fr, firstRing = some fr → fr.Perm (gpuIds gpus)) →
      ∀ c ∈ (searchChannelsLoop system gpus speed timeout sameChannels firstRing ch
          found cnt st).2.channels,
        c.ringOrder.Perm (gpuIds gpus) := by
  intro cnt
  induction cnt with
  | zero =>
    intro firstRing ch found st _ hchs _ c hc
    exact hchs c hc
  | succ cnt ihc =>
    intro firstRing ch found st hcov hchs hfr
    simp only [searchChannelsLoop]
    rcases hcase : (if sameChannels = 1 ∧ firstRing.isSome = true then
        (tryReusedRing system (firstRing.getD []) speed { st with iterations := 0 },
         { st with iterations := 0 })
      else searchStartLoop system gpus speed timeout gpus { st with iterations := 0 })
      with ⟨or, st2⟩
    rw [hcase]
    have hstep : st2.channels = st.channels ∧
        covers system.paths st2.remainingBw ∧
        (∀ ring, or = some ring → ring.Perm (gpuIds gpus)) := by
      by_cases hreuse : sameChannels = 1 ∧ firstRing.isSome = true
      · rw [if_pos hreuse] at hcase
        have h1 : tryReusedRing system (firstRing.getD []) speed
            { st with iterations := 0 } = or := congrArg Prod.fst hcase
        have h2 : ({ st with iterations := 0 } : SState) = st2 :=
          congrArg Prod.snd hcase
        refine ⟨by rw [← h2], by rw [← h2]; exact hcov, ?_⟩
        intro ring hring
        rw [hring] at h1
        have hr := tryReusedRing_eq_some h1
        obtain ⟨fr, hfr'⟩ := Option.isSome_iff_exists.mp hreuse.2
        rw [hfr'] at hr
        simp only [Option.getD_some] at hr
        rw [hr]
        exact hfr fr hfr'
      · rw [if_neg hreuse] at hcase
        obtain ⟨hch2, hcov2, hperm2⟩ := searchStartLoop_perm system gpus speed timeout
          Hidx gpus (fun g hg => hg) { st with iterations := 0 } hcov
        rw [hcase] at hch2 hcov2 hperm2
        exact ⟨hch2, hcov2, hperm2⟩
    obtain ⟨hsch, hscov, hsperm⟩ := hstep
    rcases or with _ | ring
    · intro c hc
      have hc2 : c ∈ st2.channels := hc
      exact hchs c (hsch ▸ hc2)
    · have hringperm := hsperm ring rfl
      have hcov3 : covers system.paths
          (consumeRingBandwidth system ring speed st2).remainingBw :=
        covers_consumeRingBandwidth ring speed hscov
      have hch3 : (consumeRingBandwidth system ring speed st2).channels = st.channels :=
        (consumeRing_channels system ring speed st2).trans hsch
      have hall : ∀ c ∈ (consumeRingBandwidth system ring speed st2).channels ++
          [{ id := ch, bandwidth := speed, ringOrder := ring }],
          c.ringOrder.Perm (gpuIds gpus) := by
        intro c hc
        rw [hch3] at hc
        rcases List.mem_append.mp hc with hc | hc
        · exact hchs c hc
        · simp only [List.mem_singleton] at hc
          subst hc
          exact hringperm
      set st3 := consumeRingBandwidth system ring speed st2 with hst3
      set st4 : SState := { st3 with channels :=
        st3.channels ++ [{ id := ch, bandwidth := speed, ringOrder := ring }] }
        with hst4
      show ∀ c ∈ (if st4.globalIterations > SEARCH_GLOBAL_TIMEOUT then
          (found + 1, { st4 with timedOut := true })
        else searchChannelsLoop system gpus speed timeout sameChannels
          (if ch = 0 then some ring else firstRing) (ch + 1) (found + 1) cnt
          st4).2.channels, c.ringOrder.Perm (gpuIds gpus)
      split
      · intro c hc
        exact hall c hc
      · refine ihc _ _ _ _ hcov3 (fun c hc => hall c hc) ?_
        intro fr hfr2
        split at hfr2
        · rw [Option.some.inj hfr2.symm]
          exact hringperm
        · exact hfr fr hfr2

/-- One full `searchForChannels` attempt records only rings that are
permutations of the GPU ids (covering the trivial, ring/tree and
unknown-pattern branches). -/
theorem searchForChannels_perm (system : TopoSystem) (gpus : List TopoNode)
    (pattern : Nat) (speed : Q) (maxChannels minChannels sameChannels : Nat)
    (typeIntra typeInter : Nat) (crossNic : Int) (st : SState)
    (Hidx : ∀ g ∈ gpus, gpus[g.index]? = some g)
    (hcov : covers system.paths st.remainingBw)
    (hchs : ∀ c ∈ st.channels, c.ringOrder.Perm (gpuIds gpus)) :
    ∀ c ∈ (searchForChannels system gpus pattern speed maxChannels minChannels
        sameChannels typeIntra typeInter crossNic st).2.channels,
      c.ringOrder.Perm (gpuIds gpus) := by
  simp only [searchForChannels]
  split
  · rename_i hlen
    rcases gpus with _ | ⟨g, _ | ⟨g2, rest⟩⟩
    · intro c hc
      have hc2 : c ∈ st.channels ++
          (List.range (min maxChannels MAXCHANNELS)).map (fun ch =>
            ({ id := ch, bandwidth := speed, ringOrder := ([] : List String) } :
              GraphChannel)) := hc
      rcases List.mem_append.mp hc2 with hmem | hmem
      · exact hchs c hmem
      · obtain ⟨i, _, hfi⟩ := List.mem_map.mp hmem
        rw [← hfi]
        exact List.Perm.refl _
    · intro c hc
      have hc2 : c ∈ st.channels ++
          (List.range (min maxChannels MAXCHANNELS)).map (fun ch =>
            ({ id := ch, bandwidth := speed, ringOrder := [g.id] } :
              GraphChannel)) := hc
      rcases List.mem_append.mp hc2 with hmem | hmem
      · exact hchs c hmem
      · obtain ⟨i, _, hfi⟩ := List.mem_map.mp hmem
        rw [← hfi]
        exact List.Perm.refl _
    · exfalso
      simp only [List.length_cons] at hlen
      omega
  · split
    · exact searchChannelsLoop_perm system gpus speed _ sameChannels Hidx
        (min maxChannels MAXCHANNELS) none 0 0 st hcov hchs
        (fun fr h => Option.noConfusion h)
    · exact fun c hc => hchs c hc

/-- The phase-1 relaxation loop preserves the ring-permutation invariant of
the best solution. -/
theorem phase1Inner_perm (system : TopoSystem) (gpus : List TopoNode)
    (ccMin minChannels maxChannels typeIntraMax typeInterMax : Nat)
    (crossNic : Int) (speed : Q)
    (Hidx : ∀ g ∈ gpus, gpus[g.index]? = some g) :
    ∀ (fuel sameChannels lTypeIntra lTypeInter : Nat) (lCrossNic : Int)
      (lPattern : Nat) (best : Option SearchResult) (gIter : Nat)
      (trace : List AttemptInfo) (log : DLog),
      (∀ b, best = some b → ∀ c ∈ b.channels, c.ringOrder.Perm (gpuIds gpus)) →
      ∀ b, (phase1Inner system gpus ccMin minChannels maxChannels typeIntraMax
          typeInterMax crossNic speed fuel sameChannels lTypeIntra lTypeInter
          lCrossNic lPattern best gIter trace log).1 = some b →
        ∀ c ∈ b.channels, c.ringOrder.Perm (gpuIds gpus) := by
  intro fuel
  induction fuel with
  | zero =>
    intro _ _ _ _ _ best _ _ _ hbest b hb
    exact hbest b hb
  | succ fuel ih =>
    intro sameChannels lTypeIntra lTypeInter lCrossNic lPattern best gIter trace log
      hbest b hb
    simp only [phase1Inner] at hb
    have hbest' : ∀ b',
        phase1Best system.inter speed lTypeIntra lTypeInter minChannels best
          (searchForChannels system gpus lPattern speed maxChannels minChannels
            sameChannels lTypeIntra lTypeInter lCrossNic
            (initRemainingBw
              { remainingBw := [], channels := [], iterations := 0,
                globalIterations := gIter, timedOut := false } system.paths)).1
          (searchForChannels system gpus lPattern speed maxChannels minChannels
            sameChannels lTypeIntra lTypeInter lCrossNic
            (initRemainingBw
              { remainingBw := [], channels := [], iterations := 0,
                globalIterations := gIter, timedOut := false } system.paths)).2
          = some b' →
        ∀ c ∈ b'.channels, c.ringOrder.Perm (gpuIds gpus) := by
      intro b' hb'
      unfold phase1Best at hb'
      split at hb'
      · obtain rfl := Option.some.inj hb'.symm
        intro c hc
        exact searchForChannels_perm system gpus lPattern speed maxChannels
          minChannels sameChannels lTypeIntra lTypeInter lCrossNic
          (initRemainingBw
            { remainingBw := [], channels := [], iterations := 0,
              globalIterations := gIter, timedOut := false } system.paths) Hidx
          (covers_initRemainingBw _ _)
          (fun c hc => absurd hc (List.not_mem_nil c)) c hc
      · exact hbest b' hb'
    split at hb
    · exact hbest' b hb
    · split at hb
      · exact hbest' b hb
      · split at hb
        · exact ih _ _ _ _ _ _ _ _ _ hbest' b hb
        · split at hb
          · exact ih _ _ _ _ _ _ _ _ _ hbest' b hb
          · split at hb
            · exact ih _ _ _ _ _ _ _ _ _ hbest' b hb
            · split at hb
              · exact ih _ _ _ _ _ _ _ _ _ hbest' b hb
              · split at hb
                · exact ih _ _ _ _ _ _ _ _ _ hbest' b hb
                · exact hbest' b hb

/-- The phase-1 outer (speed) loop preserves the ring-permutation invariant. -/
theorem phase1Outer_perm (system : TopoSystem) (gpus : List TopoNode)
    (ccMin minChannels maxChannels typeIntra typeInter typeIntraMax typeInterMax : Nat)
    (crossNic : Int) (patternNum : Nat) (speedArray : List Q)
    (Hidx : ∀ g ∈ gpus, gpus[g.index]? = some g) :
    ∀ (cnt si : Nat) (best : Option SearchResult) (gIter : Nat)
      (trace : List AttemptInfo) (log : DLog),
      (∀ b, best = some b → ∀ c ∈ b.channels, c.ringOrder.Perm (gpuIds gpus)) →
      ∀ b, (phase1Outer system gpus ccMin minChannels maxChannels typeIntra typeInter
          typeIntraMax typeInterMax crossNic patternNum speedArray cnt si best gIter
          trace log).2.1 = some b →
        ∀ c ∈ b.channels, c.ringOrder.Perm (gpuIds gpus) := by
  intro cnt
  induction cnt with
  | zero =>
    intro _ best _ _ _ hbest b hb
    exact hbest b hb
  | succ cnt ih =>
    intro si best gIter trace log hbest b hb
    simp only [phase1Outer] at hb
    rcases hr : phase1Inner system gpus ccMin minChannels maxChannels typeIntraMax
        typeInterMax crossNic (speedArray.getD si 0)
        (2 * (typeIntraMax + typeInterMax) + 64) 1 typeIntra typeInter
        (if crossNic = 2 then 0 else crossNic) patternNum best gIter trace log
      with ⟨best2, gIter2, done, trace2, log2⟩
    rw [hr] at hb
    have hbest2 : ∀ b', best2 = some b' →
        ∀ c ∈ b'.channels, c.ringOrder.Perm (gpuIds gpus) := by
      intro b' hb'
      exact phase1Inner_perm system gpus ccMin minChannels maxChannels typeIntraMax
        typeInterMax crossNic (speedArray.getD si 0) Hidx _ _ _ _ _ _ _ _ _ _
        hbest b' (by rw [hr]; exact hb')
    cases done with
    | true =>
      have hb2 : best2 = some b := hb
      exact hbest2 b hb2
    | false =>
      exact ih _ _ _ _ _ hbest2 b hb

/-- The phase-2 optimization loop preserves the ring-permutation invariant. -/
theorem phase2Loop_perm (system : TopoSystem) (gpus : List TopoNode)
    (patternNum maxChannels minChannels : Nat) (crossNic : Int)
    (speedArray : List Q)
    (Hidx : ∀ g ∈ gpus, gpus[g.index]? = some g) :
    ∀ (cnt optSi : Nat) (b : SearchResult) (gIter : Nat) (log : DLog),
      (∀ c ∈ b.channels, c.ringOrder.Perm (gpuIds gpus)) →
      ∀ c ∈ (phase2Loop system gpus patternNum maxChannels minChannels crossNic
          speedArray cnt optSi b gIter log).1.channels,
        c.ringOrder.Perm (gpuIds gpus) := by
  intro cnt
  induction cnt with
  | zero =>
    intro _ b _ _ hbest c hc
    exact hbest c hc
  | succ cnt ih =>
    intro optSi b gIter log hbest
    simp only [phase2Loop]
    set res := searchForChannels system gpus patternNum (speedArray.getD optSi 0)
      maxChannels minChannels 0 b.typeIntra b.typeInter
      (if crossNic = 2 then 0 else crossNic)
      (initRemainingBw
        { remainingBw := [], channels := [], iterations := 0,
          globalIterations := gIter, timedOut := false } system.paths) with hres0
    have hresperm : ∀ c ∈ res.2.channels, c.ringOrder.Perm (gpuIds gpus) := by
      rw [hres0]
      exact searchForChannels_perm system gpus patternNum (speedArray.getD optSi 0)
        maxChannels minChannels 0 b.typeIntra b.typeInter
        (if crossNic = 2 then 0 else crossNic) _ Hidx
        (covers_initRemainingBw _ _)
        (fun c hc => absurd hc (List.not_mem_nil c))
    have hbl : ∀ c ∈ (if res.1 ≥ minChannels then
        (if (speedArray.getD optSi 0) * (res.1 : Q) >
            b.speedIntra * (b.nChannels : Q) then
          (({ nChannels := res.1, channels := res.2.channels,
              speedIntra := speedArray.getD optSi 0,
              speedInter := if system.inter then speedArray.getD optSi 0 else 0,
              typeIntra := b.typeIntra, typeInter := b.typeInter,
              time := if res.2.timedOut then 0 else -1 } : SearchResult),
           logEmit log "ringSearch" "Phase 2: Improved solution"
             "Found higher bandwidth solution" "search.cc:1210")
        else (b, log))
      else (b, log)).1.channels, c.ringOrder.Perm (gpuIds gpus) := by
      split
      · split
        · intro c hc
          exact hresperm c hc
        · exact hbest
      · exact hbest
    split
    · intro c hc
      exact hbl c hc
    · exact ih _ _ _ _ hbl

/-- The post-phase-1 tail preserves the ring-permutation invariant. -/
theorem computeBestFinish_perm (system : TopoSystem) (gpus : List TopoNode)
    (patternNum maxChannels minChannels : Nat) (crossNic : Int)
    (speedArray : List Q) (speedIndex : Nat)
    (p1 : Nat × Option SearchResult × Nat × List AttemptInfo × DLog)
    (Hidx : ∀ g ∈ gpus, gpus[g.index]? = some g)
    (hbest : ∀ b, p1.2.1 = some b →
      ∀ c ∈ b.channels, c.ringOrder.Perm (gpuIds gpus)) :
    ∀ b, (computeBestFinish system gpus patternNum maxChannels minChannels crossNic
        speedArray speedIndex p1).1 = some b →
      ∀ c ∈ b.channels, c.ringOrder.Perm (gpuIds gpus) := by
  rcases p1 with ⟨si, best, gIter, trace, log⟩
  intro b hb
  cases best with
  | none => exact Option.noConfusion hb
  | some b0 =>
    simp only [computeBestFinish] at hb
    split at hb
    · obtain rfl := Option.some.inj hb.symm
      exact phase2Loop_perm system gpus patternNum maxChannels minChannels crossNic
        speedArray Hidx _ _ _ _ _ (hbest b0 rfl)
    · obtain rfl := Option.some.inj hb.symm
      exact hbest b rfl

/-- Any best result returned by `ncclTopoComputeBest` satisfies the
ring-permutation invariant. -/
theorem ncclTopoComputeBest_perm (system : TopoSystem) (pattern : Nat)
    (minChannels0 maxChannels0 : Nat) (env : EnvConfig) (log : DLog)
    (Hidx : ∀ g ∈ getGpuNodes system,
      (getGpuNodes system)[g.index]? = some g) :
    ∀ b, (ncclTopoComputeBest system pattern minChannels0 maxChannels0 env
        log).1 = some b →
      ∀ c ∈ b.channels, c.ringOrder.Perm (gpuIds (getGpuNodes system)) := by
  intro b hb
  simp only [ncclTopoComputeBest] at hb
  refine computeBestFinish_perm _ _ _ _ _ _ _ _ _ Hidx ?_ b hb
  exact phase1Outer_perm _ _ _ _ _ _ _ _ _ _ _ _ Hidx _ _ _ _ _ _
    (fun b h => Option.noConfusion h)

/-- The fallback empty graph's single channel (if any) carries the GPU ids in
node order. -/
theorem buildEmptyGraphG_perm (pattern : Nat) (gpus : List TopoNode) :
    ∀ c ∈ (buildEmptyGraphG pattern gpus).channels,
      c.ringOrder.Perm (gpuIds gpus) := by
  intro c hc
  simp only [buildEmptyGraphG] at hc
  split at hc
  · simp only [List.mem_singleton] at hc
    subst hc
    exact List.Perm.refl _
  · exact absurd hc (List.not_mem_nil c)

/-- Every channel of the graph produced by the now-free search core is a
permutation of the GPU ids. -/
theorem ncclTopoComputeG_perm (system : TopoSystem) (pattern : Nat)
    (minChannels maxChannels : Nat) (env : EnvConfig) (log : DLog)
    (Hidx : ∀ g ∈ getGpuNodes system,
      (getGpuNodes system)[g.index]? = some g) :
    ∀ c ∈ (ncclTopoComputeG system pattern minChannels maxChannels env
        log).1.channels,
      c.ringOrder.Perm (gpuIds (getGpuNodes system)) := by
  intro c hc
  simp only [ncclTopoComputeG] at hc
  rcases hr : ncclTopoComputeBest system pattern minChannels maxChannels env log
    with ⟨best, trace, log2⟩
  rw [hr] at hc
  cases best with
  | none => exact buildEmptyGraphG_perm pattern (getGpuNodes system) c hc
  | some b =>
    split at hc
    · exact buildEmptyGraphG_perm pattern (getGpuNodes system) c hc
    · rename_i b2 heq2
      obtain rfl : b = b2 := Option.some.inj heq2
      split at hc
      · exact buildEmptyGraphG_perm pattern (getGpuNodes system) c hc
      · have hbperm := ncclTopoComputeBest_perm system pattern minChannels maxChannels
          env log Hidx b (by rw [hr])
        have hc2 : c ∈ (b.channels.enum).map
            (fun ci => { ci.2 with id := ci.1 }) := hc
        obtain ⟨⟨i, c0⟩, hmem, hfi⟩ := List.mem_map.mp hc2
        have hc0 : c0 ∈ b.channels := by
          have h1 := List.mem_map_of_mem Prod.snd hmem
          rwa [List.enum_map_snd] at h1
        rw [← hfi]
        exact hbperm c0 hc0

/-- Registry fact: in every Rome topology model, each ring segment of
`ringBase` is a permutation of `0, ..., nGpus-1`. -/
theorem romeModels_segments_perm :
    (romeTopoModels.all (fun m => (ringSegments m.ringBase).all
      (fun seg => decide (seg.Perm (List.range m.nGpus))))) = true := by
  set_option maxRecDepth 10000 in decide

theorem segments_perm_of_mem {model : RcclRomeModel} {seg : List Nat}
    (hm : model ∈ romeTopoModels) (hs : seg ∈ ringSegments model.ringBase) :
    seg.Perm (List.range model.nGpus) := by
  have h1 := List.all_eq_true.mp romeModels_segments_perm model hm
  have h2 := List.all_eq_true.mp h1 seg hs
  exact of_decide_eq_true h2

/-- A successful result of the per-model fold inside `matchRomeModel` comes
from `tryRomeModel` on one of the models. -/
theorem foldl_tryRome_origin (config : HardwareConfig) (system : TopoSystem)
    (topo : ExtractedTopology) (res : RomeMatchResult) :
    ∀ (models : List RcclRomeModel) (acc : Option RomeMatchResult × DLog),
      (models.foldl (fun (acc : Option RomeMatchResult × DLog) model =>
        match acc.1 with
        | some _ => acc
        | none => tryRomeModel config system topo model acc.2) acc).1 = some res →
      acc.1 = some res ∨ ∃ model ∈ models, ∃ l,
        (tryRomeModel config system topo model l).1 = some res := by
  intro models
  induction models with
  | nil => intro acc h; exact Or.inl h
  | cons m t ih =>
    intro acc h
    rw [List.foldl_cons] at h
    rcases hacc : acc.1 with _ | r0
    · simp only [hacc] at h
      rcases ih _ h with h1 | ⟨model, hmem, l, hl⟩
      · exact Or.inr ⟨m, List.mem_cons_self m t, acc.2, h1⟩
      · exact Or.inr ⟨model, List.mem_cons_of_mem m hmem, l, hl⟩
    · simp only [hacc] at h
      rcases ih _ h with h1 | ⟨model, hmem, l, hl⟩
      · refine Or.inl ?_
        rw [← hacc]
        exact h1
      · exact Or.inr ⟨model, List.mem_cons_of_mem m hmem, l, hl⟩

/-- A successful `matchRomeModel` result originates from `tryRomeModel` on a
registry model, with the topology extracted from the configuration. -/
theorem matchRomeModel_origin (config : HardwareConfig) (system : TopoSystem)
    (env : EnvConfig) (log : DLog) (res : RomeMatchResult)
    (h : (matchRomeModel config system env log).1 = some res) :
    ∃ model ∈ romeTopoModels, ∃ l,
      (tryRomeModel config system (extractTopology config) model l).1
        = some res := by
  simp only [matchRomeModel] at h
  split at h
  · exact Option.noConfusion h
  · split at h
    · rename_i res0 heq
      obtain rfl : res0 = res := Option.some.inj h
      rcases foldl_tryRome_origin config system (extractTopology config) res0
        romeTopoModels _ heq with h1 | h1
      · exact Option.noConfusion h1
      · exact h1
    · exact Option.noConfusion h

/-- Every ring of a successful `tryRomeModel` (a `ringBase` segment translated
through the GPU permutation) is a permutation of the system's GPU ids, given
that those ids are `gpu-0, ..., gpu-(n-1)` for the configured GPU count. -/
theorem tryRomeModel_perm (config : HardwareConfig) (system : TopoSystem)
    (topo : ExtractedTopology) (model : RcclRomeModel) (log : DLog)
    (res : RomeMatchResult)
    (hm : model ∈ romeTopoModels)
    (htg : topo.nGpus = config.gpu.count)
    (hids : gpuIds (nbtGet system.nodesByType NodeType.GPU) =
      (List.range config.gpu.count).map nodeIdGpu)
    (h : (tryRomeModel config system topo model log).1 = some res) :
    ∀ c ∈ res.ringGraph.channels,
      c.ringOrder.Perm (gpuIds (nbtGet system.nodesByType NodeType.GPU)) := by
  simp only [tryRomeModel] at h
  split at h
  · exact Option.noConfusion h
  · rename_i hC
    simp only [not_or, ne_eq, not_not] at hC
    obtain ⟨hng, -⟩ := hC
    set gr := permuteGpuIds model topo (topo.nGpus + 1) (List.range topo.nGpus) 0
      (topo.nGpus - 1) 0 with hgr
    have hpermg : gr.2.1.Perm (List.range topo.nGpus) := by
      rw [hgr]
      refine permuteGpuIds_perm model topo (topo.nGpus + 1) (List.range topo.nGpus)
        0 (topo.nGpus - 1) 0 ?_
      rcases Nat.eq_zero_or_pos topo.nGpus with h0 | h0
      · right
        omega
      · left
        rw [List.length_range]
        omega
    have hlenp : gr.2.1.length = topo.nGpus := by
      rw [hpermg.length_eq, List.length_range]
    split at h
    · exact Option.noConfusion h
    · split at h
      · exact Option.noConfusion h
      · rename_i nicPerm heq
        obtain rfl := Option.some.inj h.symm
        intro c hc
        obtain ⟨⟨i, ro⟩, hmem, hfi⟩ := List.mem_map.mp hc
        have hro : ro ∈ parseRingBase model.ringBase gr.2.1 := by
          have h1 := List.mem_map_of_mem Prod.snd hmem
          rwa [List.enum_map_snd] at h1
        simp only [parseRingBase] at hro
        obtain ⟨seg, hseg, hroeq⟩ := List.mem_map.mp hro
        have hsp : seg.Perm (List.range model.nGpus) := segments_perm_of_mem hm hseg
        have hmapeq : (List.range gr.2.1.length).map
            (fun mi => nodeIdGpu (gr.2.1.getD mi 0)) = gr.2.1.map nodeIdGpu := by
          rw [show (fun mi => nodeIdGpu (gr.2.1.getD mi 0))
              = nodeIdGpu ∘ (fun mi => gr.2.1.getD mi 0) from rfl,
            ← List.map_map, map_getD_range]
        have h1 : (seg.map (fun mi => nodeIdGpu (gr.2.1.getD mi 0))).Perm
            ((List.range model.nGpus).map (fun mi => nodeIdGpu (gr.2.1.getD mi 0))) :=
          hsp.map _
        rw [hng, ← hlenp, hmapeq] at h1
        have h2 : (gr.2.1.map nodeIdGpu).Perm
            ((List.range topo.nGpus).map nodeIdGpu) := hpermg.map _
        have h3 := h1.trans h2
        rw [← hfi]
        show ro.Perm (gpuIds (nbtGet system.nodesByType NodeType.GPU))
        rw [← hroeq, hids, ← htg]
        exact h3

theorem getD_zero_eq_head {α : Type} (l : List α) (d : α) :
    l.getD 0 d = (l.head?).getD d := by
  cases l <;> rfl

theorem getD_last_eq_getLast {α : Type} (l : List α) (d : α) (_h : l ≠ []) :
    l.getD (l.length - 1) d = (l.getLast?).getD d := by
  rw [List.getD_eq_getElem?_getD, List.getLast?_eq_getElem?]

/-- The consecutive index pairs of a list are its `zip`-with-tail pairs. -/
theorem range_map_getD_zip (l : List String) :
    (List.range (l.length - 1)).map
      (fun i => (l.getD i "", l.getD (i + 1) "")) = l.zip l.tail := by
  induction l with
  | nil => simp
  | cons x xs ih =>
    cases xs with
    | nil => simp
    | cons y ys =>
      rw [show (x :: y :: ys : List String).length - 1 = ys.length + 1 from rfl,
        List.range_succ_eq_map]
      simp only [List.map_cons, List.map_map]
      refine congrArg (fun t => (x, y) :: t) ?_
      rw [show ((fun i => ((x :: y :: ys).getD i "", (x :: y :: ys).getD (i + 1) ""))
          ∘ Nat.succ) = (fun i => ((y :: ys).getD i "", (y :: ys).getD (i + 1) ""))
        from rfl]
      exact ih

/-- The edge keys walked by `consumeRingBandwidth` are the consecutive-edge
keys followed by the closing-edge key. -/
theorem range_map_key_eq (l : List String) (hl : l ≠ []) :
    (List.range l.length).map (fun i =>
      pathKey (l.getD i "") (l.getD ((i + 1) % l.length) "")) =
    (l.zip l.tail).map (fun pr => pathKey pr.1 pr.2) ++
      [pathKey (l.getLast?.getD "") (l.head?.getD "")] := by
  obtain ⟨n, hn⟩ : ∃ n, l.length = n + 1 := by
    cases l with
    | nil => exact absurd rfl hl
    | cons x xs => exact ⟨xs.length, rfl⟩
  rw [hn, List.range_succ, List.map_append]
  have ha : l.getD n "" = l.getLast?.getD "" := by
    have h1 := getD_last_eq_getLast l "" hl
    rwa [show l.length - 1 = n from by omega] at h1
  have hmod : (n + 1) % (n + 1) = 0 := Nat.mod_self _
  congr 1
  · have h1 : ∀ i ∈ List.range n,
        pathKey (l.getD i "") (l.getD ((i + 1) % (n + 1)) "") =
        pathKey (l.getD i "") (l.getD (i + 1) "") := by
      intro i hi
      simp only [List.mem_range] at hi
      rw [Nat.mod_eq_of_lt (by omega)]
    rw [List.map_congr_left h1,
      show n = l.length - 1 from by omega, ← range_map_getD_zip l, List.map_map]
    rfl
  · simp only [List.map_singleton]
    rw [hmod, getD_zero_eq_head, ha]

/-- Effect of the `consumeRingBandwidth` fold over any list of edge indices
whose paths exist, whose entries are present, and whose keys are distinct:
each walked key is decremented by the speed, everything else is untouched. -/
theorem consume_foldl_effect (system : TopoSystem) (ring : List String)
    (speed : Q) :
    ∀ (idxs : List Nat) (st : SState),
      (∀ i ∈ idxs, (getPath system (ring.getD i "")
        (ring.getD ((i + 1) % ring.length) "")).isSome = true) →
      (∀ i ∈ idxs, (jsGet st.remainingBw (pathKey (ring.getD i "")
        (ring.getD ((i + 1) % ring.length) ""))).isSome = true) →
      (idxs.map (fun i => pathKey (ring.getD i "")
        (ring.getD ((i + 1) % ring.length) ""))).Nodup →
      ∀ k, jsGet ((idxs.foldl (consumeStep system ring speed) st)).remainingBw k =
        if k ∈ idxs.map (fun i => pathKey (ring.getD i "")
            (ring.getD ((i + 1) % ring.length) ""))
        then (jsGet st.remainingBw k).map (fun v => v - speed)
        else jsGet st.remainingBw k := by
  intro idxs
  induction idxs with
  | nil =>
    intro st _ _ _ k
    simp
  | cons i t ih =>
    intro st hpath hbw hnd k
    obtain ⟨p, hp⟩ := Option.isSome_iff_exists.mp (hpath i (List.mem_cons_self i t))
    obtain ⟨v, hv⟩ := Option.isSome_iff_exists.mp (hbw i (List.mem_cons_self i t))
    have hstep : consumeStep system ring speed st i =
        { st with remainingBw := (jsSet st.remainingBw
            (pathKey (ring.getD i "") (ring.getD ((i + 1) % ring.length) ""))
            (v - speed)) } := by
      unfold consumeStep
      simp only [hp, hv, Option.getD_some]
    simp only [List.map_cons, List.nodup_cons] at hnd
    obtain ⟨hki, hndt⟩ := hnd
    rw [List.foldl_cons, hstep]
    simp only [List.map_cons]
    have hrec := ih ({ st with remainingBw := (jsSet st.remainingBw
        (pathKey (ring.getD i "") (ring.getD ((i + 1) % ring.length) ""))
        (v - speed)) })
      (fun j hj => hpath j (List.mem_cons_of_mem i hj))
      (fun j hj => by
        have := hbw j (List.mem_cons_of_mem i hj)
        exact isSome_jsGet_jsSet _ _ _ _ this)
      hndt k
    rw [sstate_rem_update] at hrec
    by_cases hk : k = pathKey (ring.getD i "") (ring.getD ((i + 1) % ring.length) "")
    · subst hk
      have hnm : (pathKey (ring.getD i "") (ring.getD ((i + 1) % ring.length) ""))
          ∉ t.map (fun j => pathKey (ring.getD j "")
            (ring.getD ((j + 1) % ring.length) "")) := hki
      rw [hrec, if_neg hnm, jsGet_jsSet_self]
      rw [if_pos (by exact List.mem_cons_self _ _), hv]
      rfl
    · rw [hrec, jsGet_jsSet_ne _ _ _ _ hk]
      by_cases hm : k ∈ t.map (fun j => pathKey (ring.getD j "")
          (ring.getD ((j + 1) % ring.length) ""))
      · rw [if_pos hm, if_pos (List.mem_cons_of_mem _ hm)]
      · rw [if_neg hm, if_neg (by
          intro hmem
          rcases List.mem_cons.mp hmem with h1 | h1
          · exact hk h1
          · exact hm h1)]

/-- Under key injectivity, the edge keys of a duplicate-free ring over the
GPU ids are pairwise distinct. -/
theorem ring_keys_nodup (gpus : List TopoNode) (ring : List String)
    (hpk : pkInj gpus) (hnd : ring.Nodup)
    (hsub : ∀ x ∈ ring, x ∈ gpuIds gpus) :
    ((List.range ring.length).map (fun i => pathKey (ring.getD i "")
      (ring.getD ((i + 1) % ring.length) ""))).Nodup := by
  refine List.Nodup.map_on ?_ (List.nodup_range _)
  intro i hi j hj hkeq
  simp only [List.mem_range] at hi hj
  have hlen : 0 < ring.length := by omega
  have hi2 : (i + 1) % ring.length < ring.length := Nat.mod_lt _ hlen
  have hj2 : (j + 1) % ring.length < ring.length := Nat.mod_lt _ hlen
  have hgi : ring.getD i "" = ring[i] := List.getD_eq_getElem ring "" hi
  have hgj : ring.getD j "" = ring[j] := List.getD_eq_getElem ring "" hj
  have h1 := (hpk _ (hsub _ (by rw [hgi]; exact ring.getElem_mem hi))
    _ (hsub _ (List.getD_eq_getElem ring "" hi2 ▸ ring.getElem_mem hi2))
    _ (hsub _ (by rw [hgj]; exact ring.getElem_mem hj))
    _ (hsub _ (List.getD_eq_getElem ring "" hj2 ▸ ring.getElem_mem hj2)) hkeq).1
  rw [hgi, hgj] at h1
  exact (List.Nodup.getElem_inj_iff hnd).mp h1

/-- The dynamic ring search path of init step 5 only produces
permutation-of-GPU-ids rings. -/
theorem performRingSearch_perm (now : Nat) (system : TopoSystem)
    (minChannels maxChannels nGpus : Nat) (env : EnvConfig) (log : DLog)
    (Hidx : ∀ g ∈ getGpuNodes system,
      (getGpuNodes system)[g.index]? = some g) :
    ∀ c ∈ (performRingSearch now system minChannels maxChannels nGpus env
        log).1.channels,
      c.ringOrder.Perm (gpuIds (getGpuNodes system)) := by
  intro c hc
  simp only [performRingSearch, ncclTopoCompute] at hc
  exact ncclTopoComputeG_perm system NCCL_TOPO_PATTERN_RING minChannels
    (max 1 (maxChannels / 2)) env _ Hidx c hc

/-! ## Claims -/

/-- **C1** (corrected).  One SPFA edge expansion (with an existing entry for
the neighbor) replaces the stored path exactly when
`(old.bandwidth = 0 OR old.hopCount > currentEntry.hopCount) AND
old.bandwidth < newBw` — the hop-count comparison is against the *current*
entry's hop count (one less than the new path's), and the bandwidth condition
applies to both disjuncts, unlike the spec's contract.  No other quantity (in
particular not the ranked path type) participates. -/
theorem c1_spfa_domination
    (source current neighbor : TopoNode) (link : TopoLink) (nvbDisabled : Bool)
    (adj : JsMap (List AdjEntry)) (nodeMap : JsMap TopoNode)
    (best : JsMap SPFAEntry) (L1 L2 : List String)
    (curEntry exEntry : SPFAEntry)
    (hcur : jsGet best current.id = some curEntry)
    (hnode : jsGet nodeMap current.id = some current)
    (hadj : jsGet adj current.id = some [(link, neighbor)])
    (hex : jsGet best neighbor.id = some exEntry)
    (hguard : ¬(current.type = NodeType.GPU ∧ current.id ≠ source.id ∧
      (nvbDisabled = true ∨ link.type ≠ LinkType.NVL ∨ neighbor.type ≠ NodeType.GPU ∨
       curEntry.hopCount > 1))) :
    (((exEntry.bandwidth = 0 ∨ exEntry.hopCount > curEntry.hopCount) ∧
        exEntry.bandwidth < min curEntry.bandwidth link.bandwidth) →
      jsGet (spfaExpandNode source adj nodeMap nvbDisabled current.id (best, L1, L2)).1
          neighbor.id =
        some (spfaNewEntry current neighbor link curEntry)) ∧
    (¬((exEntry.bandwidth = 0 ∨ exEntry.hopCount > curEntry.hopCount) ∧
        exEntry.bandwidth < min curEntry.bandwidth link.bandwidth) →
      spfaExpandNode source adj nodeMap nvbDisabled current.id (best, L1, L2) =
        (best, L1, L2)) := by
  unfold spfaExpandNode
  rw [hcur, hnode, hadj]
  simp only [Option.getD_some, List.foldl_cons, List.foldl_nil]
  rw [if_neg hguard, hex]
  constructor
  · intro hp
    rw [if_pos (by
      simp only [spfaReplaceExisting, decide_eq_true_eq]
      exact hp)]
    split <;> exact jsGet_jsSet_self best neighbor.id _
  · intro hp
    rw [if_neg (by
      simp only [spfaReplaceExisting, decide_eq_true_eq]
      exact hp)]

/-- Witness for C1: the amended predicate fires on the concrete fixture (the
existing entry has bandwidth 1 < 2 and hop count 2 > 1), so the stored entry
is replaced. -/
theorem c1_spfa_domination_witness :
    (jsGet bestAB nodeA.id = some entCur ∧
     jsGet nodeMapAB nodeA.id = some nodeA ∧
     jsGet adjAB nodeA.id = some [(linkAB, nodeB)] ∧
     jsGet bestAB nodeB.id = some entEx) ∧
    jsGet (spfaExpandNode nodeA adjAB nodeMapAB false nodeA.id (bestAB, [], [])).1
        nodeB.id =
      some (spfaNewEntry nodeA nodeB linkAB entCur) := by
  refine ⟨by decide, ?_⟩
  exact (c1_spfa_domination nodeA nodeA nodeB linkAB false adjAB nodeMapAB bestAB
    [] [] entCur entEx (by decide) (by decide) (by decide) (by decide)
    (by decide)).1 (by decide)

/-- Counterexample for C1 as stated: the spec's domination contract (hop-count
comparison against the *new* path's hop count `curEntry.hopCount + 1 = 2`)
says the stored path (bandwidth 1, hop count 2) must NOT be replaced, yet the
expansion replaces it with the new bandwidth-2, hop-count-2 entry. -/
theorem c1_spfa_domination_counterexample :
    spfaSpecReplaces entEx.bandwidth entEx.hopCount (entCur.hopCount + 1)
        (min entCur.bandwidth linkAB.bandwidth) = false ∧
    (jsGet (spfaExpandNode nodeA adjAB nodeMapAB false "gpu-0" (bestAB, [], [])).1
        "gpu-1").map (fun e => (e.bandwidth, e.hopCount)) = some (2, 2) ∧
    jsGet bestAB "gpu-1" = some entEx ∧ entEx.bandwidth = 1 := by
  decide

/-- **C3** (code bug).  Channel setup does not emit chain trees: for the
one-channel three-GPU ring graph with order `gpu-2, gpu-0, gpu-1`, the doubled
tree graph has 2 channels, but channel 0's parent-to-child edges are the
heap-style binary-tree edges `(gpu-0, gpu-1), (gpu-0, gpu-2)` over rank ids —
not the chain over the ring order — and channel 1 is wired from the mirrored
`ncclGetDtree` tree1, not the reversed chain; neither equals (even up to
reordering of the edge list) the chain the spec describes. -/
theorem c3_tree_channels_not_chains :
    (setupChannels sysNoPaths rgThree (buildTreeGraph rgThree 3 []).1 []).1.2.nChannels
        = 2 ∧
    ((setupChannels sysNoPaths rgThree
        (buildTreeGraph rgThree 3 []).1 []).1.2.channels.map
      (fun c => c.treeLinks)) =
      [[("gpu-0", "gpu-1"), ("gpu-0", "gpu-2")],
       [("gpu-1", "gpu-0"), ("gpu-1", "gpu-2")]] ∧
    chainPairs ["gpu-2", "gpu-0", "gpu-1"] = [("gpu-2", "gpu-0"), ("gpu-0", "gpu-1")] ∧
    ¬ List.Perm [("gpu-0", "gpu-1"), ("gpu-0", "gpu-2")]
        (chainPairs ["gpu-2", "gpu-0", "gpu-1"]) ∧
    ¬ List.Perm [("gpu-1", "gpu-0"), ("gpu-1", "gpu-2")]
        (chainPairs (List.reverse ["gpu-2", "gpu-0", "gpu-1"])) := by
  decide

/-- **C5** (code bug).  The starting speed index uses `speed * nGpus`, not
`speed * minChannels`, and ignores the pattern: on a system with
`maxBw = 40`, `totalBw = 50`, 2 GPUs and `minChannels = 1`, the spec's
condition already holds at index 0 (speed 40, for ring and for the
tree-adjusted bound), yet the code starts at index 2 and the first attempt of
phase 1 runs at speed 20 for both the ring and the balanced-tree pattern. -/
theorem c5_start_speed_index_uses_ngpus :
    startSpeedIndex speedArrayIntra 40 50 2 = 2 ∧
    speedArrayIntra.getD 0 0 = 40 ∧
    ((40 : Q) ≤ 40 ∧ (40 : Q) * (1 : Q) ≤ 50) ∧
    (40 : Q) * (1 : Q) ≤ (50 : Q) * (2 : Q) / ((2 : Q) - 1) ∧
    ((ncclTopoComputeBest sysBw40 NCCL_TOPO_PATTERN_RING 1 4 {} []).2.1.head?.map
      (fun a => a.speed)) = some 20 ∧
    ((ncclTopoComputeBest sysBw40 NCCL_TOPO_PATTERN_BALANCED_TREE 1 4 {}
        []).2.1.head?.map (fun a => a.speed)) = some 20 := by
  decide

/-- **C6** (code bug).  No channel doubling happens between phase-1 attempts:
on the two-GPU 30 GB/s system with `maxChannels = 4`, the first attempt leaves
a best of 1 channel at speed 30 (so `speedIntra ≥ 25` and `1 < maxChannels`
hold), yet every one of the 17 recorded attempts — including every
`sameChannels = 0` attempt — still passes the undoubled channel bound 4, and
the final best is simply the last found solution (4 channels at speed 6,
aggregate 24), not one kept under a strict aggregate-bandwidth-increase rule
(the first best had aggregate 30). -/
theorem c6_no_channel_doubling :
    ((ncclTopoComputeBest sysTwo30 NCCL_TOPO_PATTERN_RING 1 4 {} []).2.1.head?.map
      (fun a => (a.bestSpeedAfter, a.bestChannelsAfter))) =
        some (some 30, some 1) ∧
    (25 : Q) ≤ 30 ∧ 1 < 4 ∧
    (ncclTopoComputeBest sysTwo30 NCCL_TOPO_PATTERN_RING 1 4 {} []).2.1.length = 17 ∧
    (∀ a ∈ (ncclTopoComputeBest sysTwo30 NCCL_TOPO_PATTERN_RING 1 4 {} []).2.1,
      a.maxCh = 4) ∧
    ((ncclTopoComputeBest sysTwo30 NCCL_TOPO_PATTERN_RING 1 4 {} []).1.map
      (fun b => (b.nChannels, b.speedIntra))) = some (4, 6) ∧
    (6 : Q) * (4 : Q) < (30 : Q) * (1 : Q) := by
  decide

/-- **C2** (corrected).  When the two-phase search exhausts every speed and
relaxation (`ncclTopoComputeBest` returns no best), `ncclTopoCompute` returns
the fallback graph of `buildEmptyGraph` and logs the no-feasible-plan outcome;
but the fallback has *one* zero-bandwidth channel listing all GPUs (so
`nChannels = 1` and a non-empty channel list) whenever the system has at least
one GPU, and a zero-channel graph only for a GPU-less system. -/
theorem c2_exhausted_search_fallback (now : Nat) (system : TopoSystem)
    (pattern : Nat) (minCh maxCh : Nat) (env : EnvConfig) (log : DLog)
    (h : (ncclTopoComputeBest system pattern minCh maxCh env log).1 = none) :
    (ncclTopoCompute now system pattern minCh maxCh env log).1 =
      buildEmptyGraph now pattern (getGpuNodes system) ∧
    (getGpuNodes system = [] →
      (ncclTopoCompute now system pattern minCh maxCh env log).1.nChannels = 0 ∧
      (ncclTopoCompute now system pattern minCh maxCh env log).1.channels = []) ∧
    (getGpuNodes system ≠ [] →
      (ncclTopoCompute now system pattern minCh maxCh env log).1.nChannels = 1 ∧
      (ncclTopoCompute now system pattern minCh maxCh env log).1.channels.map
          (fun c => c.bandwidth) = [0] ∧
      (ncclTopoCompute now system pattern minCh maxCh env log).1.channels.map
          (fun c => c.ringOrder) = [(getGpuNodes system).map (fun g => g.id)]) ∧
    "No valid ring found — returning empty graph" ∈
      (ncclTopoCompute now system pattern minCh maxCh env log).2.map
        (fun e => e.action) := by
  rcases hr : ncclTopoComputeBest system pattern minCh maxCh env log with ⟨best, rest⟩
  rw [hr] at h
  simp only at h
  subst h
  have hempty :
      ncclTopoCompute now system pattern minCh maxCh env log =
        ({ buildEmptyGraphG pattern (getGpuNodes system) with
             id := (buildEmptyGraphG pattern (getGpuNodes system)).id ++ toString now },
         logEmit rest.2 "ringSearch" "No valid ring found — returning empty graph"
           "Search exhausted all speeds and relaxations without finding a valid ring"
           "search.cc:1235") := by
    simp only [ncclTopoCompute, ncclTopoComputeG, hr]
  refine ⟨?_, ?_, ?_, ?_⟩
  · rw [hempty]; rfl
  · intro hg
    rw [hempty]
    simp [buildEmptyGraphG, hg]
  · intro hg
    rw [hempty]
    have hlen : (getGpuNodes system).length > 0 := List.length_pos.mpr hg
    simp [buildEmptyGraphG, hlen]
  · rw [hempty]
    simp [logEmit]

/-- Witness for C2: on the disconnected two-GPU system the search indeed
exhausts (best is `none`), and the fallback graph has one channel listing both
GPUs. -/
theorem c2_exhausted_search_fallback_witness :
    (ncclTopoComputeBest sysNoPaths NCCL_TOPO_PATTERN_RING 1 16 {} []).1 = none ∧
    (ncclTopoCompute 0 sysNoPaths NCCL_TOPO_PATTERN_RING 1 16 {} []).1 =
      buildEmptyGraph 0 NCCL_TOPO_PATTERN_RING (getGpuNodes sysNoPaths) := by
  refine ⟨by decide, ?_⟩
  exact (c2_exhausted_search_fallback 0 sysNoPaths NCCL_TOPO_PATTERN_RING 1 16 {} []
    (by decide)).1

/-- Counterexample for C2 as stated: on the disconnected two-GPU system the
search exhausts every speed and relaxation, yet the returned ring graph has
`nChannels = 1` and a non-empty channel list (the zero-bandwidth fallback
channel), not zero channels. -/
theorem c2_exhausted_search_fallback_counterexample :
    (ncclTopoComputeBest sysNoPaths NCCL_TOPO_PATTERN_RING 1 16 {} []).1 = none ∧
    (ncclTopoCompute 0 sysNoPaths NCCL_TOPO_PATTERN_RING 1 16 {} []).1.nChannels = 1 ∧
    (ncclTopoCompute 0 sysNoPaths NCCL_TOPO_PATTERN_RING 1 16 {} []).1.channels ≠ []
    := by
  decide

/-- **C8** (corrected).  The topology builder cannot fail and performs no
validation of the NUMA mapping: for *every* configuration (any `numaMapping`
contents) it returns a system containing exactly the configured GPU, CPU,
NIC, NVSwitch and PCIe-switch nodes. -/
theorem c8_builder_never_fails (config : HardwareConfig) (env : EnvConfig)
    (log : DLog) :
    (buildTopoSystem config env log).1.nodes.map (fun n => n.id) =
      (List.range config.gpu.count).map nodeIdGpu ++
      (List.range config.cpu.count).map nodeIdCpu ++
      (List.range config.nic.count).map nodeIdNic ++
      (List.range config.nvswitch.count).map nodeIdNvs ++
      (List.range (config.pcie.switchesPerCPU * config.cpu.count)).map nodeIdPci := by
  simp [buildTopoSystem, Function.comp_def]

/-- Counterexample for C8 as stated: with one CPU and `numaMapping = [1]`
(CPU index 1 out of range), the builder does not fail with invalid-config —
it returns the full node set and simply wires `gpu-0` to the nonexistent node
id `cpu-1`. -/
theorem c8_builder_never_fails_counterexample :
    (buildTopoSystem cfgBadNuma {} []).1.nodes.map (fun n => n.id) =
      ["gpu-0", "cpu-0"] ∧
    ((buildTopoSystem cfgBadNuma {} []).1.links.filter
      (fun l => l.fromId = "gpu-0" ∧ l.toId = "cpu-1")).length = 1 ∧
    "cpu-1" ∉ (buildTopoSystem cfgBadNuma {} []).1.nodes.map (fun n => n.id) := by
  decide

/-- **C10** (confirmed).  `searchForChannels` never reads its `typeIntra`,
`typeInter` and `crossNic` arguments: any two calls differing only in those
three produce identical results (channel count and full state, hence in
particular the same channel list). -/
theorem c10_search_ignores_type_constraints
    (system : TopoSystem) (gpus : List TopoNode) (pattern : Nat) (speed : Q)
    (maxChannels minChannels sameChannels : Nat)
    (typeIntraA typeInterA : Nat) (crossNicA : Int)
    (typeIntraB typeInterB : Nat) (crossNicB : Int) (st : SState) :
    searchForChannels system gpus pattern speed maxChannels minChannels sameChannels
        typeIntraA typeInterA crossNicA st =
      searchForChannels system gpus pattern speed maxChannels minChannels sameChannels
        typeIntraB typeInterB crossNicB st := by
  rfl

/-- **C4** (corrected).  Within one search attempt at speed `speed`: a failed
search (backtracking) restores the remaining-bandwidth map exactly; but a
successfully found ring, once recorded (the code then runs
`consumeRingBandwidth` on top of the decrements the search itself already
made), leaves each *consecutive* edge entry decreased by `2 × speed` — once
by the search and once by the consume pass — while the *closing* edge back to
the head is decreased by exactly `speed`, and no other entry changes.  The
spec's claim that every ring edge (closing edge included) decreases by
exactly `speed` holds only for the closing edge. -/
theorem c4_backtrack_restores_and_consume_double
    (system : TopoSystem) (gpus : List TopoNode) (startGpu : TopoNode)
    (speed : Q) (st : SState) (timeout : Nat)
    (Hidx : ∀ g ∈ gpus, gpus[g.index]? = some g)
    (hpk : pkInj gpus) (hstart : startGpu ∈ gpus)
    (hcov : covers system.paths st.remainingBw) :
    ((searchRingFromStart system gpus startGpu speed st timeout).1 = none →
      ∀ k, jsGet (searchRingFromStart system gpus startGpu speed st
          timeout).2.remainingBw k = jsGet st.remainingBw k) ∧
    (∀ ring, (searchRingFromStart system gpus startGpu speed st timeout).1
        = some ring →
      ∀ k, jsGet (consumeRingBandwidth system ring speed
          (searchRingFromStart system gpus startGpu speed st
            timeout).2).remainingBw k =
        if k ∈ (ring.zip ring.tail).map (fun pr => pathKey pr.1 pr.2)
        then (jsGet st.remainingBw k).map (fun v => v - speed - speed)
        else if k = pathKey (ring.getLast?.getD "") (ring.head?.getD "")
        then (jsGet st.remainingBw k).map (fun v => v - speed)
        else jsGet st.remainingBw k) := by
  obtain ⟨hch, hcov', hnone, hsome⟩ := searchRingRec_spec system gpus startGpu
    speed timeout Hidx (gpus.length + 1) [startGpu.id] startGpu st hcov
    (by simp) (by simp)
    (by
      intro x hx
      simp only [List.mem_singleton] at hx
      subst hx
      exact List.mem_map_of_mem TopoNode.id hstart)
  constructor
  · exact fun h k => hnone h k
  · intro ring hr k
    obtain ⟨ext, heq, hlen, hxt, hndext, hfwd, hclose, hmap⟩ := hsome ring hr
    have hring : ring = startGpu.id :: ext := by simpa using heq
    have hndr : ring.Nodup := by
      rw [hring]
      refine List.nodup_cons.mpr ⟨?_, hndext⟩
      intro hm
      exact (hxt _ hm).2 (by simp)
    have hsubr : ∀ x ∈ ring, x ∈ gpuIds gpus := by
      intro x hx
      rw [hring] at hx
      rcases List.mem_cons.mp hx with hx | hx
      · subst hx
        exact List.mem_map_of_mem TopoNode.id hstart
      · exact (hxt _ hx).1
    have hne : ring ≠ [] := by
      rw [hring]
      simp
    have hhead : ring.head?.getD "" = startGpu.id := by
      rw [hring]
      rfl
    have hzip : (startGpu.id :: ext).zip ext = ring.zip ring.tail := by
      rw [hring]
      rfl
    have hmap2 : ∀ k2, jsGet (searchRingFromStart system gpus startGpu speed st
          timeout).2.remainingBw k2 =
        if k2 ∈ (ring.zip ring.tail).map (fun pr => pathKey pr.1 pr.2)
        then (jsGet st.remainingBw k2).map (fun v => v - speed)
        else jsGet st.remainingBw k2 := by
      intro k2
      have h1 := hmap hpk k2
      rwa [hzip] at h1
    have hcov2 : covers system.paths (searchRingFromStart system gpus startGpu
        speed st timeout).2.remainingBw := hcov'
    have hpaths : ∀ i ∈ List.range ring.length, (getPath system (ring.getD i "")
        (ring.getD ((i + 1) % ring.length) "")).isSome = true := by
      intro i hi
      simp only [List.mem_range] at hi
      by_cases hilast : i = ring.length - 1
      · have h1 : i + 1 = ring.length := by omega
        rw [h1, Nat.mod_self, hilast, getD_last_eq_getLast ring "" hne,
          getD_zero_eq_head, hhead]
        exact hclose
      · have hmod : (i + 1) % ring.length = i + 1 := Nat.mod_eq_of_lt (by omega)
        rw [hmod]
        have hpair : (ring.getD i "", ring.getD (i + 1) "") ∈ ring.zip ring.tail := by
          rw [← range_map_getD_zip ring]
          exact List.mem_map_of_mem _ (List.mem_range.mpr (by omega))
        exact hfwd _ (by rw [hzip]; exact hpair)
    have hbw : ∀ i ∈ List.range ring.length,
        (jsGet (searchRingFromStart system gpus startGpu speed st
          timeout).2.remainingBw (pathKey (ring.getD i "")
          (ring.getD ((i + 1) % ring.length) ""))).isSome = true := by
      intro i hi
      obtain ⟨p, hp⟩ := Option.isSome_iff_exists.mp (hpaths i hi)
      exact covers_getPath hcov2 hp
    have hknd := ring_keys_nodup gpus ring hpk hndr hsubr
    have hcons := consume_foldl_effect system ring speed (List.range ring.length)
      (searchRingFromStart system gpus startGpu speed st timeout).2 hpaths hbw hknd k
    have hkeys := range_map_key_eq ring hne
    unfold consumeRingBandwidth
    rw [hcons, hkeys]
    by_cases hkf : k ∈ (ring.zip ring.tail).map (fun pr => pathKey pr.1 pr.2)
    · rw [if_pos (List.mem_append_left _ hkf), hmap2 k, if_pos hkf, if_pos hkf,
        Option.map_map]
      rfl
    · rw [hmap2 k, if_neg hkf, if_neg hkf]
      by_cases hkc : k = pathKey (ring.getLast?.getD "") (ring.head?.getD "")
      · rw [if_pos hkc,
          if_pos (List.mem_append_right _ (by rw [hkc]; exact List.mem_singleton_self _))]
      · rw [if_neg hkc, if_neg (fun hmem => by
          rcases List.mem_append.mp hmem with h1 | h1
          · exact hkf h1
          · simp only [List.mem_singleton] at h1
            exact hkc h1)]

/-- Witness for C4 at the two-GPU 10 GB/s fixture, speed 5: the hypotheses
hold, the search finds the ring `gpu-0, gpu-1`, and the theorem computes the
forward edge's final entry as the original minus `5` twice. -/
theorem c4_backtrack_restores_and_consume_double_witness :
    pkInj [mkGpuNode 0, mkGpuNode 1] ∧
    (searchRingFromStart sysTwo10 [mkGpuNode 0, mkGpuNode 1] (mkGpuNode 0) 5
      stTwo10 1000).1 = some ["gpu-0", "gpu-1"] ∧
    jsGet (consumeRingBandwidth sysTwo10 ["gpu-0", "gpu-1"] 5
        (searchRingFromStart sysTwo10 [mkGpuNode 0, mkGpuNode 1] (mkGpuNode 0) 5
          stTwo10 1000).2).remainingBw (pathKey "gpu-0" "gpu-1") =
      (jsGet stTwo10.remainingBw (pathKey "gpu-0" "gpu-1")).map
        (fun v => v - 5 - 5) :=
  ⟨by decide, by decide, by
    rw [(c4_backtrack_restores_and_consume_double sysTwo10
      [mkGpuNode 0, mkGpuNode 1] (mkGpuNode 0) 5 stTwo10 1000 (by decide)
      (by decide) (by decide) (by decide)).2 ["gpu-0", "gpu-1"] (by decide)
      (pathKey "gpu-0" "gpu-1")]
    decide⟩

/-- Counterexample for C4 as stated: on the two-GPU 10 GB/s fixture at speed
5, the consecutive edge `gpu-0 -> gpu-1` of the recorded ring ends at `0`
(consumed twice), not at the `10 - 5 = 5` the spec's "by exactly s" predicts. -/
theorem c4_consume_exactly_once_counterexample :
    jsGet (consumeRingBandwidth sysTwo10 ["gpu-0", "gpu-1"] 5
        (searchRingFromStart sysTwo10 [mkGpuNode 0, mkGpuNode 1] (mkGpuNode 0) 5
          stTwo10 1000).2).remainingBw (pathKey "gpu-0" "gpu-1") = some 0 ∧
    (jsGet stTwo10.remainingBw (pathKey "gpu-0" "gpu-1")).map (fun v => v - 5) =
      some 5 ∧
    (some (0 : Q) : Option Q) ≠ some 5 := by
  refine ⟨by decide, by decide, by decide⟩

/-- **C7** (confirmed).  Every channel of the ring graph produced by init
step 5 — whether it comes from the backtracking search, the single-GPU
trivial case, the RCCL Rome pattern matcher, or the empty-graph fallback —
has a `ringOrder` that is a permutation of the system's GPU ids: its length
is the number of GPU nodes and (when the GPU ids are distinct, as `gpu-i`
ids are) every GPU identity appears exactly once.  `Hidx` states that the
GPU list is indexed consistently (`gpus[g.index] = g`), and `hids` that the
GPU ids are `gpu-0 ... gpu-(n-1)` for the configured count — both hold for
every system the repository's builders produce. -/
theorem c7_ring_order_is_gpu_permutation
    (now : Nat) (config : HardwareConfig) (system : TopoSystem)
    (nGpus minChannels maxChannels : Nat) (env : EnvConfig) (log : DLog)
    (rcclMode : Bool)
    (Hidx : ∀ g ∈ getGpuNodes system,
      (getGpuNodes system)[g.index]? = some g)
    (hids : gpuIds (getGpuNodes system) =
      (List.range config.gpu.count).map nodeIdGpu) :
    ∀ c, c ∈ (runInitRingStep now config system nGpus minChannels maxChannels
        env log rcclMode).1.channels →
      c.ringOrder.Perm (gpuIds (getGpuNodes system)) ∧
      c.ringOrder.length = (getGpuNodes system).length ∧
      ((gpuIds (getGpuNodes system)).Nodup →
        ∀ g ∈ getGpuNodes system, c.ringOrder.count g.id = 1) := by
  intro c hc
  have hperm : c.ringOrder.Perm (gpuIds (getGpuNodes system)) := by
    simp only [runInitRingStep] at hc
    split at hc
    · split at hc
      · rename_i res heq
        obtain ⟨model, hm, l, hl⟩ := matchRomeModel_origin config system env _ res heq
        exact tryRomeModel_perm config system (extractTopology config) model l res
          hm rfl hids hl c hc
      · exact performRingSearch_perm now system minChannels maxChannels nGpus env
          _ Hidx c hc
    · exact performRingSearch_perm now system minChannels maxChannels nGpus env
        _ Hidx c hc
  refine ⟨hperm, hperm.length_eq.trans (by simp [gpuIds]), ?_⟩
  intro hnd g hg
  rw [hperm.count_eq]
  exact List.count_eq_one_of_mem hnd (List.mem_map_of_mem TopoNode.id hg)

/-- The first ring channel the Rome matcher produces for the MI300 fixture. -/
def mi300Chan : GraphChannel :=
  { id := 0, bandwidth := { num := 48, den := 1 },
    ringOrder := ["gpu-0", "gpu-1", "gpu-2", "gpu-3", "gpu-4", "gpu-5", "gpu-6",
      "gpu-7"] }

/-- Witness for C7 at the MI300 fixture, exercising the Rome-matcher branch:
the index and id hypotheses hold, the concrete first channel really is among
the produced channels, and the theorem yields its ring-order permutation. -/
theorem c7_ring_order_is_gpu_permutation_witness :
    (∀ g ∈ getGpuNodes sysMi300,
      (getGpuNodes sysMi300)[g.index]? = some g) ∧
    gpuIds (getGpuNodes sysMi300) =
      (List.range cfgMi300.gpu.count).map nodeIdGpu ∧
    mi300Chan ∈ (runInitRingStep 0 cfgMi300 sysMi300 8 1 2 {} [] true).1.channels ∧
    mi300Chan.ringOrder.Perm (gpuIds (getGpuNodes sysMi300)) :=
  ⟨by decide, by decide,
   by set_option maxRecDepth 100000 in decide,
   (c7_ring_order_is_gpu_permutation 0 cfgMi300 sysMi300 8 1 2 {} [] true
     (by decide) (by decide) mi300Chan
     (by set_option maxRecDepth 100000 in decide)).1⟩

end XCCL
